import Mathlib

/-!
# Orion backend: balance ledger and task lifecycle

A shallow embedding of the Start, Submit and batch Submit handlers of `backend/server.js`
(`POST /api/user/start-product/:id`, `POST /api/user/submit-product/:id`,
`POST /api/user/submit-today`), of `getTaskLimitsForLevel` and `assignProductsToAllUsers`,
and of the admin handlers that move money or assignments
(`PUT /api/admin/users/:id/balance`, `POST /api/admin/assign-product-to-user`,
`PUT /api/admin/withdrawals/:id/approve`, `.../reject`, `.../pending`), with the tables they
read and write held as lists of rows.

Conventions of the embedding.

* Money columns are `DECIMAL(_,2)`; a money value is held as its integer number of cents
  (`Cents`).  The pool is created with `decimalNumbers: true`, so the handlers see these
  columns as JavaScript numbers; `toNum` is that number and `toFixed2` is
  `Number(x.toFixed(2))`, both taken in exact rational arithmetic.
* A transaction that ends in `rollback` returns the database it was given; one that ends
  in `commit` returns the database with its writes applied.
* `UPDATE t SET ... WHERE id = ?` maps over the rows of `t`; `SELECT ... LIMIT 1` is
  `List.find?`; `INSERT` appends a row.
* The handlers read the joined row of `SELECT up.*, p.*` as one object whose keys are the
  column names, so a `products` column replaces a `user_products` column of the same name
  (`rowStatus`).
* Days are numbered; `today` is the day of the request (`CURDATE()`, `NOW()` and the ISO
  date of `new Date()` at day granularity).
-/

namespace Orion

/-- An amount of money as a whole number of cents (a `DECIMAL(_,2)` column). -/
abbrev Cents := Int

/-- The JavaScript number read from a money column. -/
def toNum (c : Cents) : ℚ := (c : ℚ) / 100

/-- `Number(x.toFixed(2))`, as cents: the integer `n` with `n / 100` nearest to `x`,
the larger `n` on a tie, computed on `-x` with the sign restored when `x < 0`. -/
def toFixed2 (x : ℚ) : Cents :=
  if x < 0 then -⌊(-x) * 100 + 1 / 2⌋ else ⌊x * 100 + 1 / 2⌋

/-! ## Tables -/

inductive AssignmentStatus where
  | pending
  | in_progress
  | completed
deriving DecidableEq, Repr

inductive ProductStatus where
  | active
  | inactive
deriving DecidableEq, Repr

inductive EventType where
  | assignment_debit
  | submission_credit
  | manual_adjustment
  | deposit
  | referral_commission
  | assignment_refund
deriving DecidableEq, Repr

/-- The value of the `user_products.status` ENUM as the string the driver returns. -/
def AssignmentStatus.toStr : AssignmentStatus → String
  | .pending => "pending"
  | .in_progress => "in_progress"
  | .completed => "completed"

/-- The value of `products.status` as the string the driver returns. -/
def ProductStatus.toStr : ProductStatus → String
  | .active => "active"
  | .inactive => "inactive"

/-- A row of `users` (the columns the ledger handlers read or write). -/
structure User where
  id : Nat
  level : Nat := 1
  wallet_balance : Cents := 0
  commission_earned : Cents := 0
  current_set : Nat := 1
  tasks_completed_today : Nat := 0
  last_task_reset_date : Option Nat := none
  tasks_completed_at_level : Nat := 0
  total_tasks_completed : Nat := 0
  referrer_id : Option Nat := none
  negative_balance_set : Option Int := none
  negative_balance_submission : Option Int := none
  negative_balance_amount : Option Cents := none
  negative_balance_triggered : Bool := false
  balance_before_negative : Option Cents := none
  negative_trigger_product_price : Option Cents := none
  pending_balance_restoration : Bool := false
  is_admin : Bool := false
  status : Option String := none
deriving DecidableEq, Repr

/-- A row of `products`. -/
structure Product where
  id : Nat
  name : String := ""
  status : ProductStatus := .active
  level1_price : Option Cents := none
  level2_price : Option Cents := none
  level3_price : Option Cents := none
  level4_price : Option Cents := none
  level5_price : Option Cents := none
deriving DecidableEq, Repr

/-- A row of `user_products` (an assignment). -/
structure UserProduct where
  id : Nat
  user_id : Nat
  product_id : Nat
  assigned_date : Nat := 0
  status : AssignmentStatus := .pending
  amount_earned : Cents := 0
  commission_earned : Cents := 0
  submitted_at : Option Nat := none
  manual_bonus : Cents := 0
  custom_price : Option Cents := none
  is_manual : Bool := false
  balance_before_start : Option Cents := none
deriving DecidableEq, Repr

/-- A row of `balance_events` (the free-text `details` column is left out). -/
structure BalanceEvent where
  user_id : Nat
  type : EventType
  amount : Cents
  reference_date : Nat
deriving DecidableEq, Repr

/-- A row of `commission_rates`. -/
structure CommissionRate where
  level : Nat
  rate : ℚ
deriving DecidableEq

/-- A row of `deposits` (the `description` column is left out). -/
structure Deposit where
  user_id : Nat
  amount : Cents
deriving DecidableEq, Repr

/-- A row of `notifications` (the texts are left out). -/
structure Notification where
  user_id : Nat
deriving DecidableEq, Repr

inductive WithdrawalStatus where
  | pending
  | approved
  | rejected
deriving DecidableEq, Repr

/-- A row of `withdrawal_requests` (the address, note and time columns are left out). -/
structure Withdrawal where
  id : Nat
  user_id : Nat
  amount : Cents
  status : WithdrawalStatus := .pending
deriving DecidableEq, Repr

/-- The tables of the ledger. -/
structure Db where
  users : List User := []
  products : List Product := []
  user_products : List UserProduct := []
  commission_rates : List CommissionRate := []
  balance_events : List BalanceEvent := []
  deposits : List Deposit := []
  notifications : List Notification := []
  withdrawal_requests : List Withdrawal := []
deriving DecidableEq

/-! ## Task limits -/

structure TaskLimits where
  total : Nat
  perSet : Nat
deriving DecidableEq, Repr

/-- The `limits` object literal of `getTaskLimitsForLevel`. -/
def limits : List (Nat × TaskLimits) :=
  [(1, ⟨135, 45⟩), (2, ⟨150, 50⟩), (3, ⟨165, 55⟩), (4, ⟨180, 60⟩)]

/-- `getTaskLimitsForLevel(level)`: `limits[level] || limits[1]`.  An absent argument
(`undefined` / `null`) is `none`. -/
def getTaskLimitsForLevel (level : Option Nat) : TaskLimits :=
  match level.bind (fun l => limits.lookup l) with
  | some t => t
  | none => ⟨135, 45⟩

/-! ## Queries -/

/-- `SELECT ... FROM users WHERE id = ? LIMIT 1`. -/
def findUser (db : Db) (userId : Nat) : Option User :=
  db.users.find? (fun u => u.id == userId)

/-- `UPDATE users SET ... WHERE id = ?`. -/
def updateUser (db : Db) (userId : Nat) (f : User → User) : Db :=
  { db with users := db.users.map (fun u => if u.id = userId then f u else u) }

/-- `UPDATE user_products SET ... WHERE id = ?`. -/
def updateUserProduct (db : Db) (assignmentId : Nat) (f : UserProduct → UserProduct) : Db :=
  { db with user_products :=
      db.user_products.map (fun a => if a.id = assignmentId then f a else a) }

/-- `INSERT INTO balance_events (user_id, type, amount, reference_date, details)
VALUES (?, type, ?, CURDATE(), ?)`. -/
def insertEvent (db : Db) (e : BalanceEvent) : Db :=
  { db with balance_events := db.balance_events ++ [e] }

/-- `SELECT up.*, p.* FROM user_products up JOIN products p ON up.product_id = p.id
WHERE up.id = ? AND up.user_id = ? LIMIT 1`: the assignment and its product. -/
def selectJoined (db : Db) (assignmentId userId : Nat) : Option (UserProduct × Product) :=
  match db.user_products.find? (fun a => a.id == assignmentId && a.user_id == userId) with
  | none => none
  | some up =>
    match db.products.find? (fun p => p.id == up.product_id) with
    | none => none
    | some p => some (up, p)

/-- The value of key `key` in a result object built by assigning the selected columns in
order: a later column replaces an earlier one of the same name. -/
def lastColumn (cols : List (String × String)) (key : String) : Option String :=
  cols.foldl (fun acc c => if c.1 = key then some c.2 else acc) none

/-- `row.status` of the joined row: the string-valued columns of `up.*` followed by
those of `p.*`.  Both tables have a column named `status`. -/
def rowStatus (up : UserProduct) (p : Product) : Option String :=
  lastColumn ([("status", up.status.toStr)] ++ [("name", p.name), ("status", p.status.toStr)])
    "status"

/-- `row['level' + level + '_price']`; `none` also when there is no such column. -/
def Product.levelPrice (p : Product) (level : Nat) : Option Cents :=
  match level with
  | 1 => p.level1_price
  | 2 => p.level2_price
  | 3 => p.level3_price
  | 4 => p.level4_price
  | 5 => p.level5_price
  | _ => none

/-- JavaScript truthiness of a nullable number. -/
def truthy (x : Option Cents) : Bool :=
  match x with
  | none => false
  | some v => v != 0

/-- `row.custom_price !== null && row.custom_price !== undefined ? Number(row.custom_price || 0)
: Number(row[levelN_price] || row.level1_price || 0)`. -/
def productCost (up : UserProduct) (p : Product) (userLevel : Nat) : Cents :=
  match up.custom_price with
  | some c => c
  | none =>
    if truthy (p.levelPrice userLevel) then (p.levelPrice userLevel).getD 0
    else p.level1_price.getD 0

/-- `userRow.level || 1`. -/
def userLevelOf (u : User) : Nat := if u.level = 0 then 1 else u.level

/-- `userRow.current_set || 1`. -/
def currentSetOf (u : User) : Nat := if u.current_set = 0 then 1 else u.current_set

/-- `SELECT rate FROM commission_rates WHERE level = ? LIMIT 1`, then
`rateRow ? Number(rateRow.rate) : 0.05`. -/
def commissionRate (db : Db) (userLevel : Nat) : ℚ :=
  match db.commission_rates.find? (fun r => r.level == userLevel) with
  | some r => r.rate
  | none => 1 / 20

/-- The three set-completion checks, in source order: the `N` of the `SET_N_COMPLETE`
rejection, if any. -/
def setGate (currentSet tasksCompleted perSet : Nat) : Option Nat :=
  if currentSet = 1 ∧ tasksCompleted ≥ perSet then some 1
  else if currentSet = 2 ∧ tasksCompleted ≥ perSet then some 2
  else if currentSet = 3 ∧ tasksCompleted ≥ perSet then some 3
  else none

/-- `hasTriggerSet`: the three trigger columns are all non-null. -/
def hasTriggerSet (u : User) : Bool :=
  u.negative_balance_set.isSome && u.negative_balance_submission.isSome &&
    u.negative_balance_amount.isSome

/-- The trigger test shared by Start and Submit: armed, not yet triggered, and
`currentSet === triggerSet && newTasks === triggerSubmission`; the amount to apply. -/
def triggerMatch (u : User) (currentSet newTasks : Nat) : Option Cents :=
  match u.negative_balance_set, u.negative_balance_submission, u.negative_balance_amount with
  | some ts, some tsub, some amt =>
    if !u.negative_balance_triggered ∧ (currentSet : Int) = ts ∧ (newTasks : Int) = tsub
    then some amt else none
  | _, _, _ => none

/-! ## Row updates

The `SET` lists of the `UPDATE` statements of Start, Submit and batch Submit, each as a
function on the row it is applied to. -/

/-- Start, debit: `SET wallet_balance = ?` with `newBalance`. -/
def debitRow (newBalance : Cents) (x : User) : User :=
  { x with wallet_balance := newBalance }

/-- Start and Submit, trigger fire: `SET wallet_balance = ?, negative_balance_triggered = 1,
balance_before_negative = ?, negative_trigger_product_price = ?` with
`[-negativeAmount, balanceBeforeNegative, negativeAmount]`. -/
def fireRow (negativeAmount balanceBeforeNegative : Cents) (x : User) : User :=
  { x with
    wallet_balance := -negativeAmount
    negative_balance_triggered := true
    balance_before_negative := some balanceBeforeNegative
    negative_trigger_product_price := some negativeAmount }

/-- Start: `UPDATE user_products SET status = 'in_progress', balance_before_start = ?`. -/
def startedRow (currentBalance : Cents) (a : UserProduct) : UserProduct :=
  { a with status := .in_progress, balance_before_start := some currentBalance }

/-- Submit and batch Submit: `UPDATE user_products SET status = 'completed',
amount_earned = ?, commission_earned = ?, submitted_at = NOW()`. -/
def completedRow (amount commission : Cents) (today : Nat) (a : UserProduct) : UserProduct :=
  { a with status := .completed, amount_earned := amount, commission_earned := commission,
           submitted_at := some today }

/-- Submit, daily reset: `SET tasks_completed_today = 0, current_set = 1,
last_task_reset_date = ?`. -/
def resetRow (today : Nat) (x : User) : User :=
  { x with tasks_completed_today := 0, current_set := 1, last_task_reset_date := some today }

/-- Submit, restoration: `SET wallet_balance = ?, pending_balance_restoration = 0,
balance_before_negative = NULL, negative_trigger_product_price = NULL,
negative_balance_triggered = 0, negative_balance_set = NULL,
negative_balance_submission = NULL, negative_balance_amount = NULL,
commission_earned = commission_earned + ?,
tasks_completed_at_level = tasks_completed_at_level + 1,
total_tasks_completed = total_tasks_completed + 1, tasks_completed_today = ?`. -/
def restoreRow (restoredBalance bonus : Cents) (newTasksCompleted : Nat) (x : User) : User :=
  { x with
    wallet_balance := restoredBalance
    pending_balance_restoration := false
    balance_before_negative := none
    negative_trigger_product_price := none
    negative_balance_triggered := false
    negative_balance_set := none
    negative_balance_submission := none
    negative_balance_amount := none
    commission_earned := x.commission_earned + bonus
    tasks_completed_at_level := x.tasks_completed_at_level + 1
    total_tasks_completed := x.total_tasks_completed + 1
    tasks_completed_today := newTasksCompleted }

/-- Submit, normal completion: `SET wallet_balance = wallet_balance + ?,
commission_earned = commission_earned + ?,
tasks_completed_at_level = tasks_completed_at_level + 1,
total_tasks_completed = total_tasks_completed + 1, tasks_completed_today = ?`. -/
def creditRow (totalCredit commission : Cents) (newTasksCompleted : Nat) (x : User) : User :=
  { x with
    wallet_balance := x.wallet_balance + totalCredit
    commission_earned := x.commission_earned + commission
    tasks_completed_at_level := x.tasks_completed_at_level + 1
    total_tasks_completed := x.total_tasks_completed + 1
    tasks_completed_today := newTasksCompleted }

/-- Submit, referral payout: `SET wallet_balance = wallet_balance + ?` on the referrer. -/
def referralRow (referralBonus : Cents) (x : User) : User :=
  { x with wallet_balance := x.wallet_balance + referralBonus }

/-- Batch Submit: `SET wallet_balance = wallet_balance + ?,
commission_earned = commission_earned + ?,
tasks_completed_at_level = tasks_completed_at_level + ?,
total_tasks_completed = total_tasks_completed + ?`. -/
def batchCreditRow (totalCredit totalCommission : Cents) (n : Nat) (x : User) : User :=
  { x with
    wallet_balance := x.wallet_balance + totalCredit
    commission_earned := x.commission_earned + totalCommission
    tasks_completed_at_level := x.tasks_completed_at_level + n
    total_tasks_completed := x.total_tasks_completed + n }

/-! ## Start -/

/-- The responses of `POST /api/user/start-product/:id`. -/
inductive StartResponse where
  | notFound
  | alreadyStarted
  | alreadyCompleted
  | serverError
  | setComplete (n tasksCompleted currentSet tasksPerSet : Nat)
  | negativeBalance (shortfall currentBalance : Cents)
  | minimumBalanceRequired (shortfall currentBalance : Cents)
  | insufficientBalance (shortfall currentBalance productCost : Cents)
  | negativeBalanceTriggered (negativeAmount productCost normalCommission bonusCommission : Cents)
  | success (productCost previousBalance newBalance : Cents)
deriving DecidableEq, Repr

/-- `MINIMUM_BALANCE_REQUIRED = 50`, in cents. -/
def MINIMUM_BALANCE_REQUIRED : Cents := 5000

/-- The fire branch of Start (`TRIGGER FIRES ON START`): the balance is set to
`-negativeAmount`, the assignment is marked `in_progress`, a `manual_adjustment` event is
logged, the transaction is committed and `NEGATIVE_BALANCE_TRIGGERED` is returned. -/
def fireOnStart (db : Db) (u : User) (up : UserProduct) (p : Product)
    (today userId assignmentId : Nat) (negativeAmount : Cents) : Db × StartResponse :=
  let userLevel := userLevelOf u
  let currentBalance := u.wallet_balance
  let cost := productCost up p userLevel
  let commissionRateStart := commissionRate db userLevel
  let balanceBeforeNegative := currentBalance
  let bonusCommission :=
    toFixed2 (toNum (balanceBeforeNegative + negativeAmount) * commissionRateStart * 10)
  let db1 := updateUser db userId (fireRow negativeAmount balanceBeforeNegative)
  let db2 := updateUserProduct db1 assignmentId (startedRow currentBalance)
  let db3 := insertEvent db2 ⟨userId, .manual_adjustment, -negativeAmount, today⟩
  (db3, .negativeBalanceTriggered negativeAmount cost
    (toFixed2 (toNum cost * commissionRateStart)) bonusCommission)

/-- The debit branch of Start (`Deduct product cost from balance`). -/
def debitOnStart (db : Db) (u : User) (up : UserProduct) (p : Product)
    (today userId assignmentId : Nat) : Db × StartResponse :=
  let currentBalance := u.wallet_balance
  let cost := productCost up p (userLevelOf u)
  let newBalance := toFixed2 (toNum (currentBalance - cost))
  let db1 := updateUser db userId (debitRow newBalance)
  let db2 := updateUserProduct db1 assignmentId (startedRow currentBalance)
  let db3 := insertEvent db2 ⟨userId, .assignment_debit, cost, today⟩
  (db3, .success cost currentBalance newBalance)

/-- `POST /api/user/start-product/:id` for the authenticated user `userId`, on day `today`:
the database after the request and the response. -/
def startProduct (db : Db) (today userId assignmentId : Nat) : Db × StartResponse :=
  match selectJoined db assignmentId userId with
  | none => (db, .notFound)
  | some (up, p) =>
    if rowStatus up p = some "in_progress" then (db, .alreadyStarted)
    else if rowStatus up p = some "completed" then (db, .alreadyCompleted)
    else
      match findUser db userId with
      | none => (db, .serverError)
      | some u =>
        let userLevel := userLevelOf u
        let currentBalance := u.wallet_balance
        let currentSet := currentSetOf u
        let tasksCompletedToday := u.tasks_completed_today
        let taskLimits := getTaskLimitsForLevel (some userLevel)
        match setGate currentSet tasksCompletedToday taskLimits.perSet with
        | some n => (db, .setComplete n tasksCompletedToday currentSet taskLimits.perSet)
        | none =>
          let cost := productCost up p userLevel
          if currentBalance < 0 then
            (db, .negativeBalance (abs currentBalance) currentBalance)
          else if u.total_tasks_completed = 0 ∧ currentBalance < MINIMUM_BALANCE_REQUIRED then
            (db, .minimumBalanceRequired
              (toFixed2 (toNum (MINIMUM_BALANCE_REQUIRED - currentBalance))) currentBalance)
          else if up.is_manual = false ∧ currentBalance < cost then
            (db, .insufficientBalance (toFixed2 (toNum (cost - currentBalance)))
              currentBalance cost)
          else
            let newTasksOnStart := tasksCompletedToday + 1
            match triggerMatch u currentSet newTasksOnStart with
            | some negativeAmount =>
              fireOnStart db u up p today userId assignmentId negativeAmount
            | none => debitOnStart db u up p today userId assignmentId

/-! ## Submit -/

/-- The responses of `POST /api/user/submit-product/:id`. -/
inductive SubmitResponse where
  | notFound
  | alreadyCompleted
  | productNotStarted
  | serverError
  | setComplete (n tasksCompleted currentSet tasksPerSet : Nat)
  | dailyLimitReached (tasksCompleted totalTasksPerDay : Nat)
  | restored (bonusCommission baseAmount restoredBalance : Cents) (tasksCompletedToday : Nat)
  | negativeBalanceTriggered (negativeAmount productCost normalCommission bonusCommission : Cents)
  | negativeBalance (shortfall currentBalance bonusCommission : Cents)
  | success (commission productCost totalCredit finalBalance : Cents) (tasksCompletedToday : Nat)
deriving DecidableEq, Repr

/-- `restoreBonusCommission`: `Number(((originalBalance + negativeAmount) * commissionRate * 10).toFixed(2))`. -/
def bonusCommissionOf (originalBalance negativeAmount : Cents) (rate : ℚ) : Cents :=
  toFixed2 (toNum (originalBalance + negativeAmount) * rate * 10)

/-- `normalCommission`: `Number((productCost * commissionRate).toFixed(2))`. -/
def normalCommissionOf (cost : Cents) (rate : ℚ) : Cents :=
  toFixed2 (toNum cost * rate)

/-- `totalCredit` of the normal completion: with a recorded `balance_before_start` the
amount that brings the balance to `balance_before_start + commission`, else the commission. -/
def totalCreditOf (balanceBeforeStart : Option Cents) (commission currentBalance : Cents) : Cents :=
  match balanceBeforeStart with
  | some b => toFixed2 (toNum (b + commission - currentBalance))
  | none => toFixed2 (toNum commission)

/-- `referralBonus`: `Number((commission * 0.20).toFixed(2))`. -/
def referralBonusOf (commission : Cents) : Cents :=
  toFixed2 (toNum commission * (1 / 5))

/-- The referral payout at the end of the normal completion: 20% of the commission to
`referrer_id`, when there is one, the commission is positive and the payout is positive. -/
def payReferral (db : Db) (today userId : Nat) (commission : Cents) : Db :=
  match findUser db userId with
  | none => db
  | some referrerCheck =>
    match referrerCheck.referrer_id with
    | none => db
    | some r =>
      if r ≠ 0 ∧ commission > 0 then
        let referralBonus := referralBonusOf commission
        if referralBonus > 0 then
          let db1 := updateUser db r (referralRow referralBonus)
          insertEvent db1 ⟨r, .referral_commission, referralBonus, today⟩
        else db
      else db

/-- `lastResetDateStr !== today`: the stored reset date is absent or another day. -/
def needsDailyReset (u : User) (today : Nat) : Bool :=
  u.last_task_reset_date != some today

/-- The local `currentTasksCompleted` of Submit, after the daily reset check. -/
def currentTasksCompletedOf (u : User) (today : Nat) : Nat :=
  if needsDailyReset u today then 0 else u.tasks_completed_today

/-- The local `userCurrentSet` of Submit, after the daily reset check. -/
def userCurrentSetOf (u : User) (today : Nat) : Nat :=
  if needsDailyReset u today then 1 else currentSetOf u

/-- `UPDATE users SET tasks_completed_today = 0, current_set = 1, last_task_reset_date = ?
WHERE id = ?`, issued inside the transaction when the reset is due. -/
def applyDailyReset (db : Db) (u : User) (today userId : Nat) : Db :=
  if needsDailyReset u today then
    updateUser db userId (resetRow today)
  else db

/-- The restoration branch of Submit (`FIRST: Check if user has pending balance
restoration`), on the database `dbR` that holds the daily reset when one was due. -/
def restoration (db dbR : Db) (u : User) (today userId assignmentId : Nat) :
    Db × SubmitResponse :=
  let rate := commissionRate db (userLevelOf u)
  let newTasksCompleted := currentTasksCompletedOf u today + 1
  let originalBalance := u.balance_before_negative.getD 0
  let negativeAmount := u.negative_trigger_product_price.getD 0
  let depositAmount := negativeAmount
  let restoreBonusCommission := bonusCommissionOf originalBalance negativeAmount rate
  let restoredBalance := originalBalance + depositAmount + restoreBonusCommission
  let baseAmount := originalBalance + negativeAmount
  let db1 := updateUserProduct dbR assignmentId
    (completedRow baseAmount restoreBonusCommission today)
  let db2 := updateUser db1 userId
    (restoreRow restoredBalance restoreBonusCommission newTasksCompleted)
  let db3 := insertEvent db2 ⟨userId, .submission_credit, restoredBalance, today⟩
  (db3, .restored restoreBonusCommission baseAmount restoredBalance newTasksCompleted)

/-- The fire branch of Submit (`SECOND: Check if negative balance trigger should fire`). -/
def fireOnSubmit (db dbR : Db) (u : User) (up : UserProduct) (p : Product)
    (today userId : Nat) (negativeAmount : Cents) : Db × SubmitResponse :=
  let userLevel := userLevelOf u
  let currentBalance := u.wallet_balance
  let cost := productCost up p userLevel
  let rate := commissionRate db userLevel
  let normalCommission := normalCommissionOf cost rate
  let balanceBeforeNegative := up.balance_before_start.getD currentBalance
  let bonusCommission := bonusCommissionOf balanceBeforeNegative negativeAmount rate
  let db1 := updateUser dbR userId (fireRow negativeAmount balanceBeforeNegative)
  let db2 := insertEvent db1 ⟨userId, .manual_adjustment, -negativeAmount, today⟩
  (db2, .negativeBalanceTriggered negativeAmount cost normalCommission bonusCommission)

/-- The normal completion of Submit: the assignment is completed, the credit and the
commission are applied, the credit is logged and the referrer is paid. -/
def normalCompletion (db dbR : Db) (u : User) (up : UserProduct) (p : Product)
    (today userId assignmentId : Nat) : Db × SubmitResponse :=
  let userLevel := userLevelOf u
  let currentBalance := u.wallet_balance
  let cost := productCost up p userLevel
  let rate := commissionRate db userLevel
  let commission := normalCommissionOf cost rate
  let newTasksCompleted := currentTasksCompletedOf u today + 1
  let totalCredit := totalCreditOf up.balance_before_start commission currentBalance
  let db1 := updateUserProduct dbR assignmentId (completedRow cost commission today)
  let db2 := updateUser db1 userId (creditRow totalCredit commission newTasksCompleted)
  let db3 := insertEvent db2 ⟨userId, .submission_credit, totalCredit, today⟩
  let db4 := payReferral db3 today userId commission
  match findUser db4 userId with
  | none => (db, .serverError)
  | some finalUser =>
    (db4, .success commission cost totalCredit finalUser.wallet_balance newTasksCompleted)

/-- `POST /api/user/submit-product/:id` for the authenticated user `userId`, on day `today`:
the database after the request and the response. -/
def submitProduct (db : Db) (today userId assignmentId : Nat) : Db × SubmitResponse :=
  match selectJoined db assignmentId userId with
  | none => (db, .notFound)
  | some (up, p) =>
    if rowStatus up p = some "completed" then (db, .alreadyCompleted)
    else if rowStatus up p = some "pending" then (db, .productNotStarted)
    else
      match findUser db userId with
      | none => (db, .serverError)
      | some u =>
        let userLevel := userLevelOf u
        let currentBalance := u.wallet_balance
        let taskLimits := getTaskLimitsForLevel (some userLevel)
        let tasksPerSet := taskLimits.perSet
        let totalTasksPerDay := taskLimits.total
        let dbR := applyDailyReset db u today userId
        let currentTasksCompleted := currentTasksCompletedOf u today
        let userCurrentSet := userCurrentSetOf u today
        match setGate userCurrentSet currentTasksCompleted tasksPerSet with
        | some n => (db, .setComplete n currentTasksCompleted userCurrentSet tasksPerSet)
        | none =>
          if currentTasksCompleted ≥ totalTasksPerDay then
            (db, .dailyLimitReached currentTasksCompleted totalTasksPerDay)
          else
            let rate := commissionRate db userLevel
            let newTasksCompleted := currentTasksCompleted + 1
            if u.pending_balance_restoration = true then
              restoration db dbR u today userId assignmentId
            else
              match triggerMatch u userCurrentSet newTasksCompleted with
              | some negativeAmount => fireOnSubmit db dbR u up p today userId negativeAmount
              | none =>
                if currentBalance < 0 then
                  let shortfall := abs currentBalance
                  let storedOriginalBalance :=
                    if truthy u.balance_before_negative then u.balance_before_negative.getD 0 else 0
                  let storedNegativeAmount :=
                    if truthy u.negative_trigger_product_price
                    then u.negative_trigger_product_price.getD 0 else shortfall
                  (db, .negativeBalance shortfall currentBalance
                    (bonusCommissionOf storedOriginalBalance storedNegativeAmount rate))
                else normalCompletion db dbR u up p today userId assignmentId

/-- Start succeeded (HTTP 200 with `success: true`). -/
def StartResponse.isSuccess : StartResponse → Bool
  | .success _ _ _ => true
  | _ => false

/-- Submit succeeded (HTTP 200 with `success: true`): the normal completion or the
restoration. -/
def SubmitResponse.isSuccess : SubmitResponse → Bool
  | .success _ _ _ _ _ => true
  | .restored _ _ _ _ => true
  | _ => false

/-- The response is one of the status rejections of Start (`Product already started`,
`Product already completed`). -/
def StartResponse.isStatusRejection : StartResponse → Bool
  | .alreadyStarted => true
  | .alreadyCompleted => true
  | _ => false

/-- The response is one of the status rejections of Submit (`Already completed`,
`PRODUCT_NOT_STARTED`). -/
def SubmitResponse.isStatusRejection : SubmitResponse → Bool
  | .alreadyCompleted => true
  | .productNotStarted => true
  | _ => false

/-- The response is the `NEGATIVE_BALANCE_TRIGGERED` one of the fire branch of Start. -/
def StartResponse.isTriggered : StartResponse → Bool
  | .negativeBalanceTriggered _ _ _ _ => true
  | _ => false

/-- The response is the `NEGATIVE_BALANCE_TRIGGERED` one of the fire branch of Submit. -/
def SubmitResponse.isTriggered : SubmitResponse → Bool
  | .negativeBalanceTriggered _ _ _ _ => true
  | _ => false

/-! ## Batch Submit -/

/-- The responses of `POST /api/user/submit-today`. -/
inductive BatchResponse where
  | userNotFound
  | noPendingTasks
  | insufficientBalance (shortfall currentBalance requiredDeposit : Cents)
  | serverError
  | success (tasksSubmitted : Nat)
      (totalProductCost totalCommission totalCredit finalBalance : Cents)
deriving DecidableEq, Repr

/-- The rows of the batch query: today's assignments of the user that are not completed,
each joined with its product. -/
def selectTodayRows (db : Db) (today userId : Nat) : List (UserProduct × Product) :=
  (db.user_products.filter
    (fun a => a.user_id == userId && a.assigned_date == today && a.status != .completed)).filterMap
    (fun a => (db.products.find? (fun p => p.id == a.product_id)).map (fun p => (a, p)))

/-- The `price` of a batch row: `custom_price` when set, else `Number(row[priceColumn] || 0)`. -/
def batchPrice (row : UserProduct × Product) (userLevel : Nat) : Cents :=
  match row.1.custom_price with
  | some c => c
  | none => (row.2.levelPrice userLevel).getD 0

/-- `rowCommission`: `Number((price * rate).toFixed(2))`. -/
def rowCommissionOf (price : Cents) (rate : ℚ) : Cents :=
  toFixed2 (toNum price * rate)

/-- `POST /api/user/submit-today` for the authenticated user `userId`, on day `today`. -/
def submitToday (db : Db) (today userId : Nat) : Db × BatchResponse :=
  match findUser db userId with
  | none => (db, .userNotFound)
  | some userRow =>
    let userLevel := userLevelOf userRow
    let currentBalance := userRow.wallet_balance
    let rate := commissionRate db userLevel
    let rows := selectTodayRows db today userId
    if rows.isEmpty then (db, .noPendingTasks)
    else
      let totalProductCost := toFixed2 (toNum (rows.map (fun r => batchPrice r userLevel)).sum)
      if currentBalance < 0 then
        (db, .insufficientBalance (abs currentBalance) currentBalance (abs currentBalance))
      else
        let db1 := rows.foldl (fun d r =>
          updateUserProduct d r.1.id
            (completedRow (batchPrice r userLevel)
              (rowCommissionOf (batchPrice r userLevel) rate) today)) db
        let totalCommission :=
          toFixed2 (toNum (rows.map (fun r => rowCommissionOf (batchPrice r userLevel) rate)).sum)
        let totalCredit := toFixed2 (toNum (totalProductCost + totalCommission))
        let db2 := updateUser db1 userId (batchCreditRow totalCredit totalCommission rows.length)
        let db3 := insertEvent db2 ⟨userId, .submission_credit, totalCredit, today⟩
        match findUser db3 userId with
        | none => (db, .serverError)
        | some finalUser =>
          (db3, .success rows.length totalProductCost totalCommission totalCredit
            finalUser.wallet_balance)

/-- The user row as Submit sees it after its daily reset check. -/
def resetUser (u : User) (today : Nat) : User :=
  if needsDailyReset u today then resetRow today u else u

/-! ## Scenarios -/

/-- The level-1 user of the scenario of section 8: balance 1000.00. -/
def scenarioUser : User := { id := 1, level := 1, wallet_balance := 100000 }

/-- A product that costs 100.00 at level 1. -/
def scenarioProduct : Product := { id := 7, name := "p", level1_price := some 10000 }

/-- The pending, automatically assigned assignment of the scenario. -/
def scenarioAssignment : UserProduct := { id := 5, user_id := 1, product_id := 7 }

/-- The scenario of section 8: level-1 user with balance 1000.00, product cost 100.00,
rate 0.05. -/
def scenarioDb : Db :=
  { users := [scenarioUser]
    products := [scenarioProduct]
    user_products := [scenarioAssignment]
    commission_rates := [⟨1, 1 / 20⟩] }

/-- A new account (no task completed yet) with balance 10.00. -/
def newAccountUser : User := { id := 1, level := 1, wallet_balance := 1000 }

/-- An account with three tasks completed and balance 10.00. -/
def shortBalanceUser : User :=
  { id := 1, level := 1, wallet_balance := 1000, total_tasks_completed := 3 }

/-- A pending assignment of custom price 50.00, manual or not. -/
def costlyAssignment (manual : Bool) : UserProduct :=
  { id := 5, user_id := 1, product_id := 7, custom_price := some 5000, is_manual := manual }

/-- The new account with a manual assignment of cost 50.00. -/
def newAccountDb : Db :=
  { users := [newAccountUser]
    products := [scenarioProduct]
    user_products := [costlyAssignment true] }

/-- The account with three completed tasks and an assignment of cost 50.00. -/
def shortBalanceDb (manual : Bool) : Db :=
  { users := [shortBalanceUser]
    products := [scenarioProduct]
    user_products := [costlyAssignment manual] }

/-- The `manual_adjustment` events of the log (the fire branches of Start and Submit log
one each). -/
def manualAdjustments (db : Db) : List BalanceEvent :=
  db.balance_events.filter (fun e => e.type == .manual_adjustment)

/-- A user in set 1 with no task completed today whose trigger, configured at
(set 1, submission 1, amount 280.00), has already fired. -/
def triggeredUser : User :=
  { id := 1, level := 1, wallet_balance := 100000, total_tasks_completed := 3,
    negative_balance_set := some 1, negative_balance_submission := some 1,
    negative_balance_amount := some 28000, negative_balance_triggered := true }

/-- The scenario database with `triggeredUser` as its user. -/
def triggeredDb : Db := { scenarioDb with users := [triggeredUser] }

/-- A user with restoration pending: `balance_before_negative` 4000.00, stored trigger
amount 280.00, balance cleared to 0. -/
def restorationUser : User :=
  { id := 1, level := 1, wallet_balance := 0, total_tasks_completed := 3,
    negative_balance_set := some 1, negative_balance_submission := some 4,
    negative_balance_amount := some 28000, negative_balance_triggered := true,
    balance_before_negative := some 400000, negative_trigger_product_price := some 28000,
    pending_balance_restoration := true }

/-- The scenario database (rate 0.05) with `restorationUser` and the assignment in
progress. -/
def restorationDb : Db :=
  { scenarioDb with
    users := [restorationUser]
    user_products := [{ scenarioAssignment with
      status := .in_progress, balance_before_start := some 400000 }] }

/-- A user referred by user 2. -/
def referredUser : User :=
  { id := 1, level := 1, wallet_balance := 100000, total_tasks_completed := 3,
    last_task_reset_date := some 0, referrer_id := some 2 }

/-- The referrer, user 2, who was in turn referred by user 3. -/
def referrerUser : User :=
  { id := 2, level := 1, wallet_balance := 5000, commission_earned := 700,
    referrer_id := some 3 }

/-- The referrer of the referrer, user 3. -/
def grandReferrerUser : User := { id := 3, level := 1, wallet_balance := 800 }

/-- An assignment in progress of custom price `price`, started at balance 1000.00 plus
`price`. -/
def startedAssignment (price : Cents) : UserProduct :=
  { id := 5, user_id := 1, product_id := 7, status := .in_progress,
    custom_price := some price, balance_before_start := some (100000 + price) }

/-- Users 1, 2, 3 with the assignment of user 1 in progress at custom price `price`,
rate 0.05. -/
def referralDb (price : Cents) : Db :=
  { users := [referredUser, referrerUser, grandReferrerUser]
    products := [scenarioProduct]
    user_products := [startedAssignment price]
    commission_rates := [⟨1, 1 / 20⟩] }

/-! ## The commission formula as the specification words it -/

/-- The scenario after Start (balance 900.00, `balance_before_start` 1000.00) and a deposit
of 50.00 made before Submit: balance 950.00. -/
def driftDb : Db :=
  { users := [{ scenarioUser with wallet_balance := 95000, total_tasks_completed := 3 }]
    products := [scenarioProduct]
    user_products := [{ scenarioAssignment with
      status := .in_progress, balance_before_start := some 100000 }]
    commission_rates := [⟨1, 1 / 20⟩] }

/-- The scenario after its Start. -/
def startedDb : Db := (startProduct scenarioDb 0 1 5).1

/-- The scenario after its Start and its Submit: the assignment is completed. -/
def completedDb : Db := (submitProduct startedDb 0 1 5).1

/-- A level-1 user in set 1 with 45 tasks completed today, a negative balance and no task
ever completed: every rejection condition of Start holds at once. -/
def allBlockedUser : User :=
  { id := 1, level := 1, wallet_balance := -500, tasks_completed_today := 45 }

/-- The scenario database with `allBlockedUser` as its user. -/
def allBlockedDb : Db := { scenarioDb with users := [allBlockedUser] }

/-- A level-1 user with balance 1000.00 whose trigger is configured at (set 1,
submission 1, amount 280.00) and has not fired. -/
def armedUser : User :=
  { id := 1, level := 1, wallet_balance := 100000, total_tasks_completed := 3,
    last_task_reset_date := some 0,
    negative_balance_set := some 1, negative_balance_submission := some 1,
    negative_balance_amount := some 28000 }

/-- The scenario database with `armedUser` as its user. -/
def armedDb : Db := { scenarioDb with users := [armedUser] }

/-- The armed user after a Start at balance 1000.00 that debited 100.00 (the trigger was
configured after that Start): balance 900.00. -/
def armedAfterStartUser : User := { armedUser with wallet_balance := 90000 }

/-- The database of `armedAfterStartUser`: the assignment is in progress with
`balance_before_start` 1000.00. -/
def armedAfterStartDb : Db :=
  { scenarioDb with
    users := [armedAfterStartUser]
    user_products := [startedRow 100000 scenarioAssignment] }

/-- A user with restoration pending who has completed the 45 tasks of set 1 today. -/
def restorationBlockedUser : User :=
  { restorationUser with tasks_completed_today := 45, last_task_reset_date := some 0 }

/-- The restoration database with `restorationBlockedUser` as its user. -/
def restorationBlockedDb : Db := { restorationDb with users := [restorationBlockedUser] }

/-- The scenario user after a Start, on a later day: balance 900.00, 7 tasks counted on
day 0, set 2. -/
def nextDayUser : User :=
  { scenarioUser with
    wallet_balance := 90000, total_tasks_completed := 7, tasks_completed_at_level := 7,
    tasks_completed_today := 7, current_set := 2, last_task_reset_date := some 0 }

/-- The database of `nextDayUser`: the assignment is in progress with
`balance_before_start` 1000.00. -/
def nextDayDb : Db :=
  { scenarioDb with
    users := [nextDayUser]
    user_products := [startedRow 100000 scenarioAssignment] }

/-- `SELECT ... FROM user_products WHERE id = ? LIMIT 1`. -/
def findAssignment (db : Db) (assignmentId : Nat) : Option UserProduct :=
  db.user_products.find? (fun a => a.id == assignmentId)

/-- A second product, 40.00 at level 1. -/
def secondProduct : Product := { id := 8, name := "q", level1_price := some 4000 }

/-- A user with balance 500.00 and two assignments for day 0, one in progress (cost
100.00), one pending (cost 40.00), and one completed assignment of an earlier product. -/
def batchDb : Db :=
  { users := [{ scenarioUser with wallet_balance := 50000, commission_earned := 300 }]
    products := [scenarioProduct, secondProduct, { id := 9, level1_price := some 2000 }]
    user_products :=
      [{ id := 5, user_id := 1, product_id := 7, status := .in_progress,
         balance_before_start := some 60000 },
       { id := 6, user_id := 1, product_id := 8 },
       { id := 4, user_id := 1, product_id := 9, status := .completed,
         amount_earned := 2000, commission_earned := 100 }]
    commission_rates := [⟨1, 1 / 20⟩] }

/-- The batch database with the balance of its user at -25.00. -/
def batchNegativeDb : Db :=
  { batchDb with users := [{ scenarioUser with wallet_balance := -2500 }] }

/-! ## Admin balance update -/

/-- The errors thrown by `assignProductsToAllUsers`. -/
inductive AssignError where
  | noValidProducts
  | noActiveProducts
deriving DecidableEq, Repr

/-- The outcome of `assignProductsToAllUsers`: an error thrown, the returned counts
`usersAssigned` and `assignments`, or no outcome yet when the given random picks end before
the loops do. -/
inductive AssignOutcome where
  | error (e : AssignError)
  | done (usersAssigned assignments : Nat)
  | outOfPicks
deriving DecidableEq, Repr

/-- The id given to the next row of `user_products` (`AUTO_INCREMENT`). -/
def nextAssignmentId (db : Db) : Nat :=
  (db.user_products.map (fun a => a.id)).foldl max 0 + 1

/-- Modelled from the spec: the unique key of `user_products`, whose table definition is
not in the sources, is (user, product, day): a duplicate of the same user, product and day
is a no-op.  `INSERT IGNORE INTO user_products (user_id, product_id, assigned_date, status,
manual_bonus, is_manual) VALUES (?, ?, CURDATE(), 'pending', 0, 0)`, with `affectedRows > 0`
as the second component. -/
def insertIgnoreAssignment (db : Db) (userId productId today : Nat) : Db × Bool :=
  if db.user_products.any
      (fun a => a.user_id == userId && a.product_id == productId && a.assigned_date == today)
  then (db, false)
  else
    ({ db with user_products := db.user_products ++
        [{ id := nextAssignmentId db, user_id := userId, product_id := productId,
           assigned_date := today, status := .pending, manual_bonus := 0,
           is_manual := false }] }, true)

/-- The `while` loop of one user: `picks` are the successive values of
`Math.floor(Math.random() * productRows.length)` (taken modulo the length), `assigned` the
set `assignedProducts`, `n` the counter `userAssignments`.  The result is the database
reached, with the counter and the picks left, or with `none` when the picks end while the
loop condition still holds. -/
def assignLoop (userId today : Nat) (productRows : List Nat) (tasksPerDay : Nat) :
    List Nat → Db → List Nat → Nat → Db × Option (Nat × List Nat)
  | [], db, assigned, n =>
    if n < tasksPerDay ∧ assigned.length < productRows.length then (db, none)
    else (db, some (n, []))
  | i :: picks, db, assigned, n =>
    if n < tasksPerDay ∧ assigned.length < productRows.length then
      let randomProduct := productRows.getD (i % productRows.length) 0
      if assigned.contains randomProduct then
        assignLoop userId today productRows tasksPerDay picks db assigned n
      else
        let r := insertIgnoreAssignment db userId randomProduct today
        assignLoop userId today productRows tasksPerDay picks r.1 (randomProduct :: assigned)
          (if r.2 then n + 1 else n)
    else (db, some (n, i :: picks))

/-- The `for (const user of users)` loop: the database reached, with `totalAssignments`
and the picks left after the users in `users`, or with `none` when the picks end early. -/
def assignUsers (today : Nat) (productRows : List Nat) :
    List User → Db → Nat → List Nat → Db × Option (Nat × List Nat)
  | [], db, total, picks => (db, some (total, picks))
  | user :: users, db, total, picks =>
    let tasksPerDay := (getTaskLimitsForLevel (some (userLevelOf user))).total
    match assignLoop user.id today productRows tasksPerDay picks db [] 0 with
    | (db1, none) => (db1, none)
    | (db1, some (userAssignments, picks1)) =>
      assignUsers today productRows users db1 (total + userAssignments) picks1

/-- `SELECT id, level FROM users WHERE is_admin = 0 AND COALESCE(status, "active") =
"active"`. -/
def activeUsers (db : Db) : List User :=
  db.users.filter (fun u => !u.is_admin && (u.status.getD "active" == "active"))

/-- The rows `productRows`: the ids of the active products, restricted to the cleaned
`productIds` when a non-empty array is given (0 stands for an entry that is not a positive
number). -/
def eligibleProducts (db : Db) (productIds : Option (List Nat)) :
    Except AssignError (List Nat) :=
  let active := db.products.filter (fun p => p.status == .active)
  match productIds with
  | some (id :: ids) =>
    let cleanedIds := ((id :: ids).filter (fun i => i > 0)).eraseDups
    if cleanedIds.isEmpty then .error .noValidProducts
    else .ok ((active.filter (fun p => cleanedIds.contains p.id)).map (fun p => p.id))
  | _ => .ok (active.map (fun p => p.id))

/-- `assignProductsToAllUsers(productIds)` on day `today`, with the random picks `picks`:
the database after the call and its outcome.  The inserts run on the pool, outside a
transaction; both errors are thrown before the first insert. -/
def assignProductsToAllUsers (db : Db) (today : Nat) (productIds : Option (List Nat))
    (picks : List Nat) : Db × AssignOutcome :=
  let users := activeUsers db
  if users.isEmpty then (db, .done 0 0)
  else
    match eligibleProducts db productIds with
    | .error e => (db, .error e)
    | .ok productRows =>
      if productRows.isEmpty then (db, .error .noActiveProducts)
      else
        match assignUsers today productRows users db 0 picks with
        | (db1, some (total, _)) => (db1, .done users.length total)
        | (db1, none) => (db1, .outOfPicks)

/-! ## Manual assignment -/

/-- The responses of `POST /api/admin/assign-product-to-user`. -/
inductive ManualAssignResponse where
  | missingUserOrProduct
  | userNotFound
  | productNotAvailable
  | invalidCustomPrice
  | invalidProductPrice
  | success (newBalance : Cents) (productPrice : ℚ)
deriving DecidableEq

/-- `Number(productRow[priceColumn] || productRow.level1_price || 0)`, in cents. -/
def listPrice (p : Product) (userLevel : Nat) : Cents :=
  if truthy (p.levelPrice userLevel) then (p.levelPrice userLevel).getD 0
  else p.level1_price.getD 0

/-- The `price` and `priceToUse` of a manual assignment, or the rejection: a custom price
must not be negative, a list price must be positive. -/
def manualPrice (customPrice : Option ℚ) (productRow : Product) (userLevel : Nat) :
    Except ManualAssignResponse (ℚ × Option ℚ) :=
  match customPrice with
  | some cp => if cp < 0 then .error .invalidCustomPrice else .ok (cp, some cp)
  | none =>
    let price := toNum (listPrice productRow userLevel)
    if price > 0 then .ok (price, none) else .error .invalidProductPrice

/-- The update of an existing assignment that was completed today: `SET status =
'in_progress', manual_bonus = ?, custom_price = ?, is_manual = 1, amount_earned = 0,
commission_earned = 0, submitted_at = NULL, balance_before_start = ?`. -/
def manualResetRow (bonus : Cents) (priceToUse : Option ℚ) (currentBalance : Cents)
    (a : UserProduct) : UserProduct :=
  { a with
    status := .in_progress
    manual_bonus := bonus
    custom_price := priceToUse.map toFixed2
    is_manual := true
    amount_earned := 0
    commission_earned := 0
    submitted_at := none
    balance_before_start := some currentBalance }

/-- The update of an existing assignment that is pending or in progress: the same `SET`
list with `assigned_date = CURDATE()` added. -/
def manualUpdateRow (bonus : Cents) (priceToUse : Option ℚ) (currentBalance : Cents)
    (today : Nat) (a : UserProduct) : UserProduct :=
  { manualResetRow bonus priceToUse currentBalance a with assigned_date := today }

/-- The balance adjustment of a manual assignment: `SET wallet_balance = wallet_balance - ?`,
the result rounded to cents by the column. -/
def adjustRow (amountToDeduct : ℚ) (x : User) : User :=
  { x with wallet_balance := toFixed2 (toNum x.wallet_balance - amountToDeduct) }

/-- `SELECT id, custom_price, status FROM user_products WHERE user_id = ? AND product_id = ?
AND DATE(assigned_date) = CURDATE() LIMIT 1`. -/
def findExisting (db : Db) (today userId productId : Nat) : Option UserProduct :=
  db.user_products.find?
    (fun a => a.user_id == userId && a.product_id == productId && a.assigned_date == today)

/-- `POST /api/admin/assign-product-to-user` with body `userId`, `productId`, `manualBonus`
and `customPrice` (`none` when absent, null or empty), on day `today`.  The statements run
on the pool, outside a transaction. -/
def assignProductToUser (db : Db) (today userId productId : Nat) (manualBonus : ℚ)
    (customPrice : Option ℚ) : Db × ManualAssignResponse :=
  if userId = 0 ∨ productId = 0 then (db, .missingUserOrProduct)
  else
    let bonus : Cents := if manualBonus > 0 then toFixed2 manualBonus else 0
    match findUser db userId with
    | none => (db, .userNotFound)
    | some userRow =>
      match db.products.find? (fun p => p.id == productId) with
      | none => (db, .productNotAvailable)
      | some productRow =>
        if productRow.status ≠ .active then (db, .productNotAvailable)
        else
          match manualPrice customPrice productRow (userLevelOf userRow) with
          | .error r => (db, r)
          | .ok (price, priceToUse) =>
            let currentBalance := userRow.wallet_balance
            let step : Db × ℚ :=
              match findExisting db today userId productId with
              | some existing =>
                let previousPrice : ℚ := match existing.custom_price with
                  | some c => toNum c
                  | none => toNum (listPrice productRow (userLevelOf userRow))
                if existing.status = .completed then
                  (updateUserProduct db existing.id
                    (manualResetRow bonus priceToUse currentBalance), price)
                else
                  (updateUserProduct db existing.id
                    (manualUpdateRow bonus priceToUse currentBalance today),
                    toNum (toFixed2 (price - previousPrice)))
              | none =>
                ({ db with user_products := db.user_products ++
                    [{ id := nextAssignmentId db, user_id := userId, product_id := productId,
                       assigned_date := today, status := .in_progress, manual_bonus := bonus,
                       custom_price := priceToUse.map toFixed2, is_manual := true,
                       balance_before_start := some currentBalance }] }, price)
            let amountToDeduct : ℚ := if abs step.2 < 5 / 1000 then 0 else step.2
            if amountToDeduct ≠ 0 then
              let db2 := updateUser step.1 userId (adjustRow amountToDeduct)
              let newBalance := toFixed2 (toNum currentBalance - amountToDeduct)
              let db3 :=
                if amountToDeduct > 0 then
                  insertEvent db2 ⟨userId, .assignment_debit, toFixed2 amountToDeduct, today⟩
                else
                  insertEvent db2
                    ⟨userId, .assignment_refund, toFixed2 (abs amountToDeduct), today⟩
              (db3, .success newBalance price)
            else (step.1, .success currentBalance price)

/-! ## Rows that stay completed -/

/-- Every row of `user_products` of `db` that is completed is, in `db1`, still at its place,
with its id, and completed. -/
def CompletedPreserved (db db1 : Db) : Prop :=
  ∀ (i : Nat) (a : UserProduct), db.user_products[i]? = some a → a.status = .completed →
    ∃ a1, db1.user_products[i]? = some a1 ∧ a1.id = a.id ∧ a1.status = .completed

/-- The assignment of the scenario as its Submit leaves it: completed on day 0, with amount
100.00 and commission 5.00. -/
def completedAssignment : UserProduct :=
  { id := 5, user_id := 1, product_id := 7, status := .completed, amount_earned := 10000,
    commission_earned := 500, submitted_at := some 0, balance_before_start := some 100000 }

/-! ## Withdrawals -/

/-- The responses of the admin withdrawal handlers. -/
inductive WithdrawalResponse where
  | notFound
  | userNotFound
  | insufficientCommission
  | success
deriving DecidableEq, Repr

/-- `SELECT * FROM withdrawal_requests WHERE id = ? LIMIT 1`. -/
def findWithdrawal (db : Db) (id : Nat) : Option Withdrawal :=
  db.withdrawal_requests.find? (fun w => w.id == id)

/-- `UPDATE withdrawal_requests SET status = ?, admin_note = ?, processed_at = NOW()
WHERE id = ?`. -/
def setWithdrawalStatus (db : Db) (id : Nat) (s : WithdrawalStatus) : Db :=
  { db with withdrawal_requests :=
      db.withdrawal_requests.map (fun w => if w.id = id then { w with status := s } else w) }

/-- Approval: `SET wallet_balance = wallet_balance - ?, commission_earned =
commission_earned - ?`. -/
def withdrawRow (amount : Cents) (x : User) : User :=
  { x with wallet_balance := x.wallet_balance - amount,
           commission_earned := x.commission_earned - amount }

/-- Reject and set-pending of an approved request: `SET wallet_balance = wallet_balance + ?,
commission_earned = commission_earned + ?`. -/
def restoreWithdrawalRow (amount : Cents) (x : User) : User :=
  { x with wallet_balance := x.wallet_balance + amount,
           commission_earned := x.commission_earned + amount }

/-- `PUT /api/admin/withdrawals/:id/approve`.  The statements run on the pool, outside a
transaction. -/
def approveWithdrawal (db : Db) (id : Nat) : Db × WithdrawalResponse :=
  match findWithdrawal db id with
  | none => (db, .notFound)
  | some withdrawal =>
    if withdrawal.status = .pending then
      match findUser db withdrawal.user_id with
      | none => (db, .userNotFound)
      | some userRow =>
        let commissionEarned := userRow.commission_earned
        if commissionEarned < withdrawal.amount then (db, .insufficientCommission)
        else
          let db1 := updateUser db withdrawal.user_id (withdrawRow withdrawal.amount)
          (setWithdrawalStatus db1 id .approved, .success)
    else (setWithdrawalStatus db id .approved, .success)

/-- `PUT /api/admin/withdrawals/:id/reject`. -/
def rejectWithdrawal (db : Db) (id : Nat) : Db × WithdrawalResponse :=
  match findWithdrawal db id with
  | none => (db, .notFound)
  | some withdrawal =>
    let db1 :=
      if withdrawal.status = .approved then
        updateUser db withdrawal.user_id (restoreWithdrawalRow withdrawal.amount)
      else db
    (setWithdrawalStatus db1 id .rejected, .success)

/-- `PUT /api/admin/withdrawals/:id/pending`. -/
def pendingWithdrawal (db : Db) (id : Nat) : Db × WithdrawalResponse :=
  match findWithdrawal db id with
  | none => (db, .notFound)
  | some withdrawal =>
    let db1 :=
      if withdrawal.status = .approved then
        updateUser db withdrawal.user_id (restoreWithdrawalRow withdrawal.amount)
      else db
    (setWithdrawalStatus db1 id .pending, .success)

/-- The three admin actions on a withdrawal request. -/
inductive AdminAction where
  | approve
  | reject
  | setPending
deriving DecidableEq, Repr

/-- The database after one admin action on request `id`. -/
def applyAction (db : Db) (id : Nat) : AdminAction → Db
  | .approve => (approveWithdrawal db id).1
  | .reject => (rejectWithdrawal db id).1
  | .setPending => (pendingWithdrawal db id).1

/-- The database after a sequence of admin actions on request `id`, first action first. -/
def applyActions (db : Db) (id : Nat) (actions : List AdminAction) : Db :=
  actions.foldl (fun d a => applyAction d id a) db

/-- A user with balance 1000.00 of which 50.00 are earned commission. -/
def earnerUser : User := { id := 1, level := 1, wallet_balance := 100000, commission_earned := 5000 }

/-- A pending withdrawal request of user 1 for 30.00. -/
def pendingRequest : Withdrawal := { id := 3, user_id := 1, amount := 3000 }

/-- The database with `earnerUser` and `pendingRequest`. -/
def withdrawalDb : Db := { users := [earnerUser], withdrawal_requests := [pendingRequest] }

/-- A pending withdrawal request of user 1 for 80.00, more than the commission earned. -/
def largeRequest : Withdrawal := { id := 4, user_id := 1, amount := 8000 }

/-- The database with `earnerUser` and `largeRequest`. -/
def largeWithdrawalDb : Db := { users := [earnerUser], withdrawal_requests := [largeRequest] }

/-- Some approval of the sequence is applied to the request while its status is `rejected`. -/
def approvesRejected (db : Db) (id : Nat) : List AdminAction → Bool
  | [] => false
  | a :: rest =>
    (a == .approve && (findWithdrawal db id).any (fun w => w.status == .rejected)) ||
      approvesRejected (applyAction db id a) id rest

/-- A database whose only user is an admin and whose only product is inactive. -/
def adminOnlyDb : Db :=
  { users := [{ id := 9, is_admin := true }]
    products := [{ scenarioProduct with status := .inactive }] }

/-- The scenario database with its product inactive. -/
def inactiveProductDb : Db :=
  { scenarioDb with products := [{ scenarioProduct with status := .inactive }],
                    user_products := [] }

/-- A level-1 user in set 3 with all 135 tasks of the day completed on day 0. -/
def dayCompleteUser : User :=
  { scenarioUser with current_set := 3, tasks_completed_today := 135,
                      last_task_reset_date := some 0 }

/-- The scenario database with `dayCompleteUser` as its user. -/
def dayCompleteDb : Db := { scenarioDb with users := [dayCompleteUser] }

/-- The scenario database before any assignment: user 1 with balance 1000.00, product 7,
rate 0.05. -/
def unassignedDb : Db := { scenarioDb with user_products := [] }

/-- The scenario after the admin has manually assigned product 7 to user 1 at custom price
100.00 on day 0. -/
def manualOnceDb : Db := (assignProductToUser unassignedDb 0 1 7 0 (some 100)).1

/-- The scenario after the admin has then assigned product 7 to user 1 again, at custom
price 40.00: an edit of the assignment in progress. -/
def manualTwiceDb : Db := (assignProductToUser manualOnceDb 0 1 7 0 (some 40)).1

/-- The eligible products of a run: the rows `productRows`, none when the call throws. -/
def eligibleIds (db : Db) (productIds : Option (List Nat)) : List Nat :=
  match eligibleProducts db productIds with
  | .ok rows => rows
  | .error _ => []

/-- Rows `a` and `b` are of the same user, product and day. -/
def sameKey (a b : UserProduct) : Prop :=
  a.user_id = b.user_id ∧ a.product_id = b.product_id ∧ a.assigned_date = b.assigned_date

instance (a b : UserProduct) : Decidable (sameKey a b) := by
  unfold sameKey; infer_instance

/-- What the per-user loop guarantees for the rows `block` it inserted for `user`. -/
def UserBlock (today : Nat) (productRows : List Nat) (user : User) (block : List UserProduct) :
    Prop :=
  (∀ r ∈ block, r.user_id = user.id ∧ r.assigned_date = today ∧ r.status = .pending ∧
    r.is_manual = false ∧ r.product_id ∈ productRows) ∧
  (block.map (fun r => r.product_id)).Nodup ∧
  block.length ≤ (getTaskLimitsForLevel (some (userLevelOf user))).total ∧
  block.length ≤ productRows.length

instance (today : Nat) (productRows : List Nat) (user : User) (block : List UserProduct) :
    Decidable (UserBlock today productRows user block) := by
  unfold UserBlock; infer_instance

/-- A second active level-1 user, with balance 20.00. -/
def secondUser : User := { id := 2, level := 1, wallet_balance := 2000 }

/-- Two active users and an admin, three active products and an inactive one; user 1
already has product 7 assigned for day 0. -/
def assignDb : Db :=
  { users := [scenarioUser, secondUser, { id := 9, is_admin := true }]
    products := [scenarioProduct, secondProduct, { id := 9, level1_price := some 2000 },
      { id := 10, status := .inactive }]
    user_products := [scenarioAssignment]
    commission_rates := [⟨1, 1 / 20⟩] }


/-! ## Helper lemmas -/

theorem toFixed2_toNum (c : Cents) : toFixed2 (toNum c) = c := by
  unfold toFixed2 toNum
  have h100 : ((c : ℚ) / 100) * 100 = c := by field_simp
  have hn100 : (-((c : ℚ) / 100)) * 100 = ((-c : Int) : ℚ) := by push_cast; field_simp
  split_ifs with h
  · rw [hn100]
    have : ⌊(((-c : Int) : ℚ)) + 1 / 2⌋ = -c := by
      rw [Int.floor_eq_iff]; constructor <;> norm_num
    rw [this]; simp
  · rw [h100]
    rw [Int.floor_eq_iff]; constructor <;> norm_num

theorem toFixed2_nearest (x : ℚ) : |((toFixed2 x : Int) : ℚ) - x * 100| ≤ 1 / 2 := by
  unfold toFixed2
  split_ifs with h
  · have h1 := Int.floor_le ((-x) * 100 + 1 / 2)
    have h2 := Int.lt_floor_add_one ((-x) * 100 + 1 / 2)
    rw [abs_le]
    push_cast
    constructor <;> linarith
  · have h1 := Int.floor_le (x * 100 + 1 / 2)
    have h2 := Int.lt_floor_add_one (x * 100 + 1 / 2)
    rw [abs_le]
    constructor <;> linarith

theorem rowStatus_eq (up : UserProduct) (p : Product) :
    rowStatus up p = some p.status.toStr := by
  simp [rowStatus, lastColumn]

theorem rowStatus_ne_assignment (up : UserProduct) (p : Product) (s : AssignmentStatus) :
    rowStatus up p ≠ some s.toStr := by
  rw [rowStatus_eq]
  cases p.status <;> cases s <;> decide

@[simp] theorem debitRow_id (b : Cents) (x : User) : (debitRow b x).id = x.id := rfl
@[simp] theorem fireRow_id (a b : Cents) (x : User) : (fireRow a b x).id = x.id := rfl
@[simp] theorem resetRow_id (t : Nat) (x : User) : (resetRow t x).id = x.id := rfl
@[simp] theorem restoreRow_id (a b : Cents) (n : Nat) (x : User) :
    (restoreRow a b n x).id = x.id := rfl
@[simp] theorem creditRow_id (a b : Cents) (n : Nat) (x : User) :
    (creditRow a b n x).id = x.id := rfl
@[simp] theorem referralRow_id (b : Cents) (x : User) : (referralRow b x).id = x.id := rfl

theorem findUser_id {db : Db} {j : Nat} {u : User} (h : findUser db j = some u) : u.id = j := by
  unfold findUser at h
  have := List.find?_some h
  simpa using this

theorem findUser_updateUser (db : Db) (i j : Nat) (f : User → User)
    (hf : ∀ x, (f x).id = x.id) :
    findUser (updateUser db i f) j =
      (findUser db j).map (fun u => if u.id = i then f u else u) := by
  unfold findUser updateUser
  simp only [List.find?_map]
  congr 1
  apply congrArg (fun q => List.find? q db.users)
  funext x
  simp only [Function.comp]
  split_ifs <;> simp [hf]

theorem findUser_updateUser_self {db : Db} {i : Nat} {u : User} (f : User → User)
    (hf : ∀ x, (f x).id = x.id) (hu : findUser db i = some u) :
    findUser (updateUser db i f) i = some (f u) := by
  rw [findUser_updateUser db i i f hf, hu]
  simp [findUser_id hu]

theorem findUser_updateUser_ne {db : Db} {i j : Nat} (f : User → User)
    (hf : ∀ x, (f x).id = x.id) (hne : j ≠ i) :
    findUser (updateUser db i f) j = findUser db j := by
  rw [findUser_updateUser db i j f hf]
  cases h : findUser db j with
  | none => rfl
  | some u =>
    have := findUser_id h
    simp [this, hne]

@[simp] theorem findUser_updateUserProduct (db : Db) (i j : Nat) (f : UserProduct → UserProduct) :
    findUser (updateUserProduct db i f) j = findUser db j := rfl

@[simp] theorem findUser_insertEvent (db : Db) (e : BalanceEvent) (j : Nat) :
    findUser (insertEvent db e) j = findUser db j := rfl

@[simp] theorem selectJoined_updateUser (db : Db) (i a u : Nat) (f : User → User) :
    selectJoined (updateUser db i f) a u = selectJoined db a u := rfl

@[simp] theorem selectJoined_insertEvent (db : Db) (e : BalanceEvent) (a u : Nat) :
    selectJoined (insertEvent db e) a u = selectJoined db a u := rfl

@[simp] theorem commissionRate_updateUser (db : Db) (i l : Nat) (f : User → User) :
    commissionRate (updateUser db i f) l = commissionRate db l := rfl

@[simp] theorem commissionRate_updateUserProduct (db : Db) (i l : Nat)
    (f : UserProduct → UserProduct) :
    commissionRate (updateUserProduct db i f) l = commissionRate db l := rfl

@[simp] theorem commissionRate_insertEvent (db : Db) (e : BalanceEvent) (l : Nat) :
    commissionRate (insertEvent db e) l = commissionRate db l := rfl

theorem selectJoined_spec {db : Db} {a u : Nat} {up : UserProduct} {p : Product}
    (h : selectJoined db a u = some (up, p)) :
    up.id = a ∧ up.user_id = u ∧ p.id = up.product_id := by
  unfold selectJoined at h
  split at h
  · cases h
  · rename_i up0 hup
    split at h
    · cases h
    · rename_i p0 hp
      cases h
      have h1 := List.find?_some hup
      have h2 := List.find?_some hp
      simp at h1 h2
      exact ⟨h1.1, h1.2, h2⟩

theorem selectJoined_updateUserProduct (db : Db) (i a u : Nat) (f : UserProduct → UserProduct)
    (hid : ∀ x, (f x).id = x.id) (hu : ∀ x, (f x).user_id = x.user_id)
    (hp : ∀ x, (f x).product_id = x.product_id) :
    selectJoined (updateUserProduct db i f) a u =
      (selectJoined db a u).map (fun r => (if r.1.id = i then f r.1 else r.1, r.2)) := by
  unfold selectJoined updateUserProduct
  simp only [List.find?_map]
  have hq : ((fun (x : UserProduct) => x.id == a && x.user_id == u) ∘
      fun x => if x.id = i then f x else x) = fun x => x.id == a && x.user_id == u := by
    funext x
    simp only [Function.comp]
    split_ifs <;> simp [hid, hu]
  rw [hq]
  cases hfind : List.find? (fun x => x.id == a && x.user_id == u) db.user_products with
  | none => simp
  | some up0 =>
    simp only [Option.map_some']
    have hpid : (if up0.id = i then f up0 else up0).product_id = up0.product_id := by
      split_ifs <;> simp [hp]
    rw [hpid]
    cases List.find? (fun p => p.id == up0.product_id) db.products <;> simp

theorem selectJoined_started {db : Db} {a u : Nat} {up : UserProduct} {p : Product} (b : Cents)
    (h : selectJoined db a u = some (up, p)) :
    selectJoined (updateUserProduct db a (startedRow b)) a u = some (startedRow b up, p) := by
  rw [selectJoined_updateUserProduct db a a u (startedRow b) (fun _ => rfl) (fun _ => rfl)
    (fun _ => rfl), h]
  simp [(selectJoined_spec h).1]

theorem findUser_applyDailyReset {db : Db} {u : User} (today : Nat) {i : Nat}
    (hu : findUser db i = some u) :
    findUser (applyDailyReset db u today i) i =
      some (if needsDailyReset u today then resetRow today u else u) := by
  unfold applyDailyReset
  split_ifs with h
  · exact findUser_updateUser_self _ (fun _ => rfl) hu
  · exact hu

theorem findUser_applyDailyReset_ne {db : Db} {u : User} {today i j : Nat} (hne : j ≠ i) :
    findUser (applyDailyReset db u today i) j = findUser db j := by
  unfold applyDailyReset
  split_ifs with h
  · exact findUser_updateUser_ne _ (fun _ => rfl) hne
  · rfl

theorem payReferral_eq {db : Db} (today : Nat) {i : Nat} (c : Cents) {u : User}
    (hu : findUser db i = some u) :
    payReferral db today i c =
      match u.referrer_id with
      | none => db
      | some r =>
        if r ≠ 0 ∧ c > 0 ∧ referralBonusOf c > 0 then
          insertEvent (updateUser db r (referralRow (referralBonusOf c)))
            ⟨r, .referral_commission, referralBonusOf c, today⟩
        else db := by
  unfold payReferral
  simp only [hu]
  cases u.referrer_id with
  | none => rfl
  | some r =>
    simp only
    by_cases h1 : r ≠ 0 ∧ c > 0
    · by_cases h2 : referralBonusOf c > 0
      · simp [h1, h2]
      · simp [h1, h2]
    · have : ¬ (r ≠ 0 ∧ c > 0 ∧ referralBonusOf c > 0) := fun h => h1 ⟨h.1, h.2.1⟩
      rw [if_neg h1, if_neg this]

theorem payReferral_findUser_ne {db : Db} (today : Nat) {i j : Nat} (c : Cents) {u : User}
    (hu : findUser db i = some u) (hne : u.referrer_id ≠ some j) :
    findUser (payReferral db today i c) j = findUser db j := by
  rw [payReferral_eq _ _ hu]
  cases hr : u.referrer_id with
  | none => rfl
  | some r =>
    have hrj : j ≠ r := by
      intro h; apply hne; rw [hr, h]
    simp only
    split_ifs
    · simp only [findUser_insertEvent]
      exact findUser_updateUser_ne _ (fun _ => rfl) hrj
    · rfl

theorem payReferral_findUser_isSome (db : Db) (today i j : Nat) (c : Cents)
    (h : (findUser db j).isSome) : (findUser (payReferral db today i c) j).isSome := by
  cases hu : findUser db i with
  | none => unfold payReferral; simpa [hu] using h
  | some u =>
    rw [payReferral_eq _ _ hu]
    cases hr : u.referrer_id with
    | none => simpa using h
    | some r =>
      simp only
      split_ifs
      · simp only [findUser_insertEvent]
        rw [findUser_updateUser db r j (referralRow (referralBonusOf c)) (fun _ => rfl)]
        simpa using h
      · exact h

theorem payReferral_tables (db : Db) (today i : Nat) (c : Cents) :
    (payReferral db today i c).user_products = db.user_products ∧
    (payReferral db today i c).products = db.products ∧
    (payReferral db today i c).commission_rates = db.commission_rates := by
  cases hu : findUser db i with
  | none => unfold payReferral; simp [hu]
  | some u =>
    rw [payReferral_eq _ _ hu]
    cases u.referrer_id with
    | none => exact ⟨rfl, rfl, rfl⟩
    | some r =>
      simp only
      split_ifs
      · exact ⟨rfl, rfl, rfl⟩
      · exact ⟨rfl, rfl, rfl⟩

theorem startProduct_normal (today : Nat) {db : Db} {userId assignmentId : Nat}
    {up : UserProduct} {p : Product} {u : User}
    (hrow : selectJoined db assignmentId userId = some (up, p))
    (hu : findUser db userId = some u)
    (hgate : setGate (currentSetOf u) u.tasks_completed_today
      (getTaskLimitsForLevel (some (userLevelOf u))).perSet = none)
    (hneg : 0 ≤ u.wallet_balance)
    (hmin : ¬ (u.total_tasks_completed = 0 ∧ u.wallet_balance < MINIMUM_BALANCE_REQUIRED))
    (hins : up.is_manual = true ∨ productCost up p (userLevelOf u) ≤ u.wallet_balance)
    (htrig : triggerMatch u (currentSetOf u) (u.tasks_completed_today + 1) = none) :
    startProduct db today userId assignmentId =
      debitOnStart db u up p today userId assignmentId := by
  have h1 : rowStatus up p ≠ some "in_progress" := rowStatus_ne_assignment up p .in_progress
  have h2 : rowStatus up p ≠ some "completed" := rowStatus_ne_assignment up p .completed
  have h3 : ¬ u.wallet_balance < 0 := not_lt.mpr hneg
  have h4 : ¬ (up.is_manual = false ∧ u.wallet_balance < productCost up p (userLevelOf u)) := by
    rintro ⟨hm, hlt⟩
    rcases hins with h | h
    · rw [hm] at h; cases h
    · exact absurd hlt (not_lt.mpr h)
  unfold startProduct
  simp only [hrow, hu, h1, h2, h3, h4, hmin, hgate, htrig, if_false]

theorem debitOnStart_eq (db : Db) (u : User) (up : UserProduct) (p : Product)
    (today userId assignmentId : Nat) :
    debitOnStart db u up p today userId assignmentId =
      (insertEvent
        (updateUserProduct
          (updateUser db userId (debitRow (u.wallet_balance - productCost up p (userLevelOf u))))
          assignmentId (startedRow u.wallet_balance))
        ⟨userId, .assignment_debit, productCost up p (userLevelOf u), today⟩,
        .success (productCost up p (userLevelOf u)) u.wallet_balance
          (u.wallet_balance - productCost up p (userLevelOf u))) := by
  simp only [debitOnStart, toFixed2_toNum]

theorem startProduct_success_inv {db : Db} {today userId assignmentId : Nat}
    (h : (startProduct db today userId assignmentId).2.isSuccess = true) :
    ∃ up p u, selectJoined db assignmentId userId = some (up, p) ∧
      findUser db userId = some u ∧
      setGate (currentSetOf u) u.tasks_completed_today
        (getTaskLimitsForLevel (some (userLevelOf u))).perSet = none ∧
      0 ≤ u.wallet_balance ∧
      ¬ (u.total_tasks_completed = 0 ∧ u.wallet_balance < MINIMUM_BALANCE_REQUIRED) ∧
      (up.is_manual = true ∨ productCost up p (userLevelOf u) ≤ u.wallet_balance) ∧
      triggerMatch u (currentSetOf u) (u.tasks_completed_today + 1) = none := by
  unfold startProduct at h
  cases hrow : selectJoined db assignmentId userId with
  | none => simp [hrow, StartResponse.isSuccess] at h
  | some r =>
    obtain ⟨up, p⟩ := r
    have h1 : rowStatus up p ≠ some "in_progress" := rowStatus_ne_assignment up p .in_progress
    have h2 : rowStatus up p ≠ some "completed" := rowStatus_ne_assignment up p .completed
    cases hu : findUser db userId with
    | none => simp [hrow, hu, h1, h2, StartResponse.isSuccess] at h
    | some u =>
      simp only [hrow, hu, h1, h2, if_false] at h
      cases hg : setGate (currentSetOf u) u.tasks_completed_today
          (getTaskLimitsForLevel (some (userLevelOf u))).perSet with
      | some n => simp [hg, StartResponse.isSuccess] at h
      | none =>
        simp only [hg] at h
        by_cases hneg : u.wallet_balance < 0
        · simp [hneg, StartResponse.isSuccess] at h
        by_cases hmin : u.total_tasks_completed = 0 ∧ u.wallet_balance < MINIMUM_BALANCE_REQUIRED
        · simp [hneg, hmin, StartResponse.isSuccess] at h
        by_cases hins : up.is_manual = false ∧ u.wallet_balance < productCost up p (userLevelOf u)
        · simp [hneg, hmin, hins, StartResponse.isSuccess] at h
        cases ht : triggerMatch u (currentSetOf u) (u.tasks_completed_today + 1) with
        | some amt => simp [hneg, hmin, hins, ht, StartResponse.isSuccess, fireOnStart] at h
        | none =>
          refine ⟨up, p, u, rfl, rfl, hg, not_lt.mp hneg, hmin, ?_, ht⟩
          by_cases hm : up.is_manual = true
          · exact Or.inl hm
          · right
            have hm2 : up.is_manual = false := by simpa using hm
            exact not_lt.mp (fun hlt => hins ⟨hm2, hlt⟩)

theorem submitProduct_normal (today : Nat) {db : Db} {userId assignmentId : Nat}
    {up : UserProduct} {p : Product} {u : User}
    (hrow : selectJoined db assignmentId userId = some (up, p))
    (hu : findUser db userId = some u)
    (hgate : setGate (userCurrentSetOf u today) (currentTasksCompletedOf u today)
      (getTaskLimitsForLevel (some (userLevelOf u))).perSet = none)
    (hdaily : currentTasksCompletedOf u today <
      (getTaskLimitsForLevel (some (userLevelOf u))).total)
    (hpend : u.pending_balance_restoration = false)
    (htrig : triggerMatch u (userCurrentSetOf u today)
      (currentTasksCompletedOf u today + 1) = none)
    (hneg : 0 ≤ u.wallet_balance) :
    submitProduct db today userId assignmentId =
      normalCompletion db (applyDailyReset db u today userId) u up p today userId
        assignmentId := by
  have h1 : rowStatus up p ≠ some "completed" := rowStatus_ne_assignment up p .completed
  have h2 : rowStatus up p ≠ some "pending" := rowStatus_ne_assignment up p .pending
  have h3 : ¬ u.wallet_balance < 0 := not_lt.mpr hneg
  have h4 : ¬ (currentTasksCompletedOf u today ≥
      (getTaskLimitsForLevel (some (userLevelOf u))).total) := not_le.mpr hdaily
  unfold submitProduct
  simp only [hrow, hu, h1, h2, h3, h4, hgate, htrig, hpend, if_false]
  simp

theorem submitProduct_restoration (today : Nat) {db : Db} {userId assignmentId : Nat}
    {up : UserProduct} {p : Product} {u : User}
    (hrow : selectJoined db assignmentId userId = some (up, p))
    (hu : findUser db userId = some u)
    (hgate : setGate (userCurrentSetOf u today) (currentTasksCompletedOf u today)
      (getTaskLimitsForLevel (some (userLevelOf u))).perSet = none)
    (hdaily : currentTasksCompletedOf u today <
      (getTaskLimitsForLevel (some (userLevelOf u))).total)
    (hpend : u.pending_balance_restoration = true) :
    submitProduct db today userId assignmentId =
      restoration db (applyDailyReset db u today userId) u today userId assignmentId := by
  have h1 : rowStatus up p ≠ some "completed" := rowStatus_ne_assignment up p .completed
  have h2 : rowStatus up p ≠ some "pending" := rowStatus_ne_assignment up p .pending
  have h4 : ¬ (currentTasksCompletedOf u today ≥
      (getTaskLimitsForLevel (some (userLevelOf u))).total) := not_le.mpr hdaily
  unfold submitProduct
  simp only [hrow, hu, h1, h2, h4, hgate, hpend, if_false]
  simp

theorem submitProduct_success_inv {db : Db} {today userId assignmentId : Nat}
    (h : (submitProduct db today userId assignmentId).2.isSuccess = true) :
    ∃ up p u, selectJoined db assignmentId userId = some (up, p) ∧
      findUser db userId = some u ∧
      setGate (userCurrentSetOf u today) (currentTasksCompletedOf u today)
        (getTaskLimitsForLevel (some (userLevelOf u))).perSet = none ∧
      currentTasksCompletedOf u today < (getTaskLimitsForLevel (some (userLevelOf u))).total ∧
      (u.pending_balance_restoration = true ∨
        (u.pending_balance_restoration = false ∧
          triggerMatch u (userCurrentSetOf u today) (currentTasksCompletedOf u today + 1) = none ∧
          0 ≤ u.wallet_balance)) := by
  unfold submitProduct at h
  cases hrow : selectJoined db assignmentId userId with
  | none => simp [hrow, SubmitResponse.isSuccess] at h
  | some r =>
    obtain ⟨up, p⟩ := r
    have h1 : rowStatus up p ≠ some "completed" := rowStatus_ne_assignment up p .completed
    have h2 : rowStatus up p ≠ some "pending" := rowStatus_ne_assignment up p .pending
    cases hu : findUser db userId with
    | none => simp [hrow, hu, h1, h2, SubmitResponse.isSuccess] at h
    | some u =>
      simp only [hrow, hu, h1, h2, if_false] at h
      cases hg : setGate (userCurrentSetOf u today) (currentTasksCompletedOf u today)
          (getTaskLimitsForLevel (some (userLevelOf u))).perSet with
      | some n => simp [hg, SubmitResponse.isSuccess] at h
      | none =>
        simp only [hg] at h
        by_cases hd : currentTasksCompletedOf u today ≥
            (getTaskLimitsForLevel (some (userLevelOf u))).total
        · simp [hd, SubmitResponse.isSuccess] at h
        refine ⟨up, p, u, rfl, rfl, hg, not_le.mp hd, ?_⟩
        by_cases hp : u.pending_balance_restoration = true
        · exact Or.inl hp
        right
        have hp2 : u.pending_balance_restoration = false := by simpa using hp
        refine ⟨hp2, ?_⟩
        cases ht : triggerMatch u (userCurrentSetOf u today)
            (currentTasksCompletedOf u today + 1) with
        | some amt => simp [hd, hp2, ht, SubmitResponse.isSuccess, fireOnSubmit] at h
        | none =>
          refine ⟨rfl, ?_⟩
          by_contra hneg
          have hneg2 : u.wallet_balance < 0 := not_le.mp hneg
          simp [hd, hp2, ht, hneg2, SubmitResponse.isSuccess] at h

@[simp] theorem resetUser_wallet (u : User) (today : Nat) :
    (resetUser u today).wallet_balance = u.wallet_balance := by
  unfold resetUser; split_ifs <;> rfl

@[simp] theorem resetUser_referrer (u : User) (today : Nat) :
    (resetUser u today).referrer_id = u.referrer_id := by
  unfold resetUser; split_ifs <;> rfl

@[simp] theorem resetUser_commission (u : User) (today : Nat) :
    (resetUser u today).commission_earned = u.commission_earned := by
  unfold resetUser; split_ifs <;> rfl

theorem normalCompletion_result {db : Db} {u : User} (up : UserProduct) (p : Product)
    (today : Nat) {userId : Nat} (assignmentId : Nat)
    (hu : findUser db userId = some u) (hself : u.referrer_id ≠ some userId) :
    findUser (normalCompletion db (applyDailyReset db u today userId) u up p today userId
        assignmentId).1 userId =
      some (creditRow
        (totalCreditOf up.balance_before_start
          (normalCommissionOf (productCost up p (userLevelOf u))
            (commissionRate db (userLevelOf u))) u.wallet_balance)
        (normalCommissionOf (productCost up p (userLevelOf u))
          (commissionRate db (userLevelOf u)))
        (currentTasksCompletedOf u today + 1) (resetUser u today)) ∧
    (normalCompletion db (applyDailyReset db u today userId) u up p today userId
        assignmentId).2 =
      .success
        (normalCommissionOf (productCost up p (userLevelOf u))
          (commissionRate db (userLevelOf u)))
        (productCost up p (userLevelOf u))
        (totalCreditOf up.balance_before_start
          (normalCommissionOf (productCost up p (userLevelOf u))
            (commissionRate db (userLevelOf u))) u.wallet_balance)
        (u.wallet_balance + totalCreditOf up.balance_before_start
          (normalCommissionOf (productCost up p (userLevelOf u))
            (commissionRate db (userLevelOf u))) u.wallet_balance)
        (currentTasksCompletedOf u today + 1) := by
  have hR : findUser (applyDailyReset db u today userId) userId = some (resetUser u today) :=
    findUser_applyDailyReset _ hu
  have h3 : findUser (insertEvent (updateUser (updateUserProduct
      (applyDailyReset db u today userId) assignmentId
        (completedRow (productCost up p (userLevelOf u))
          (normalCommissionOf (productCost up p (userLevelOf u))
            (commissionRate db (userLevelOf u))) today)) userId
        (creditRow (totalCreditOf up.balance_before_start
          (normalCommissionOf (productCost up p (userLevelOf u))
            (commissionRate db (userLevelOf u))) u.wallet_balance)
          (normalCommissionOf (productCost up p (userLevelOf u))
            (commissionRate db (userLevelOf u)))
          (currentTasksCompletedOf u today + 1)))
      ⟨userId, .submission_credit, totalCreditOf up.balance_before_start
          (normalCommissionOf (productCost up p (userLevelOf u))
            (commissionRate db (userLevelOf u))) u.wallet_balance, today⟩) userId =
      some (creditRow (totalCreditOf up.balance_before_start
          (normalCommissionOf (productCost up p (userLevelOf u))
            (commissionRate db (userLevelOf u))) u.wallet_balance)
          (normalCommissionOf (productCost up p (userLevelOf u))
            (commissionRate db (userLevelOf u)))
          (currentTasksCompletedOf u today + 1) (resetUser u today)) := by
    simp only [findUser_insertEvent]
    exact findUser_updateUser_self _ (fun _ => rfl) (by simpa using hR)
  have h5 := (payReferral_findUser_ne today
    (normalCommissionOf (productCost up p (userLevelOf u))
            (commissionRate db (userLevelOf u))) h3
    (by simpa [creditRow] using hself)).trans h3
  simp only [normalCompletion, h5]
  simp [creditRow]


theorem totalCreditOf_fresh (w cost c : Cents) :
    totalCreditOf (some w) c (w - cost) = cost + c := by
  simp only [totalCreditOf, toFixed2_toNum]
  ring

theorem triggerMatch_of_triggered {u : User} (h : u.negative_balance_triggered = true)
    (s n : Nat) : triggerMatch u s n = none := by
  unfold triggerMatch
  split
  · simp [h]
  · rfl

theorem triggerMatch_of_not_armed {u : User} (h : hasTriggerSet u = false)
    (s n : Nat) : triggerMatch u s n = none := by
  unfold triggerMatch
  split
  · rename_i ts tsub amt h1 h2 h3
    simp [hasTriggerSet, h1, h2, h3] at h
  · rfl

/-- Every run of Start either rolls back, or fires the trigger, or debits. -/
theorem startProduct_cases (db : Db) (today userId assignmentId : Nat) :
    (∃ r, startProduct db today userId assignmentId = (db, r) ∧
        r.isTriggered = false ∧ r.isSuccess = false ∧
        r.isStatusRejection = false) ∨
    (∃ up p u amt, selectJoined db assignmentId userId = some (up, p) ∧
        findUser db userId = some u ∧
        triggerMatch u (currentSetOf u) (u.tasks_completed_today + 1) = some amt ∧
        startProduct db today userId assignmentId =
          fireOnStart db u up p today userId assignmentId amt) ∨
    (∃ up p u, selectJoined db assignmentId userId = some (up, p) ∧
        findUser db userId = some u ∧
        triggerMatch u (currentSetOf u) (u.tasks_completed_today + 1) = none ∧
        startProduct db today userId assignmentId =
          debitOnStart db u up p today userId assignmentId) := by
  unfold startProduct
  cases hrow : selectJoined db assignmentId userId with
  | none => exact Or.inl ⟨_, rfl, rfl, rfl, rfl⟩
  | some r =>
    obtain ⟨up, p⟩ := r
    have h1 : rowStatus up p ≠ some "in_progress" := rowStatus_ne_assignment up p .in_progress
    have h2 : rowStatus up p ≠ some "completed" := rowStatus_ne_assignment up p .completed
    cases hu : findUser db userId with
    | none => simp only [h1, h2, if_false]; exact Or.inl ⟨_, rfl, rfl, rfl, rfl⟩
    | some u =>
      simp only [h1, h2, if_false]
      cases hg : setGate (currentSetOf u) u.tasks_completed_today
          (getTaskLimitsForLevel (some (userLevelOf u))).perSet with
      | some n => exact Or.inl ⟨_, rfl, rfl, rfl, rfl⟩
      | none =>
        simp only
        by_cases hneg : u.wallet_balance < 0
        · rw [if_pos hneg]; exact Or.inl ⟨_, rfl, rfl, rfl, rfl⟩
        rw [if_neg hneg]
        by_cases hmin : u.total_tasks_completed = 0 ∧ u.wallet_balance < MINIMUM_BALANCE_REQUIRED
        · rw [if_pos hmin]; exact Or.inl ⟨_, rfl, rfl, rfl, rfl⟩
        rw [if_neg hmin]
        by_cases hins : up.is_manual = false ∧ u.wallet_balance < productCost up p (userLevelOf u)
        · rw [if_pos hins]; exact Or.inl ⟨_, rfl, rfl, rfl, rfl⟩
        rw [if_neg hins]
        cases ht : triggerMatch u (currentSetOf u) (u.tasks_completed_today + 1) with
        | some amt => exact Or.inr (Or.inl ⟨up, p, u, amt, rfl, rfl, ht, rfl⟩)
        | none => exact Or.inr (Or.inr ⟨up, p, u, rfl, rfl, ht, rfl⟩)

/-- Every run of Submit either rolls back, or restores, or fires the trigger, or takes the
normal completion. -/
theorem submitProduct_cases (db : Db) (today userId assignmentId : Nat) :
    (∃ r, submitProduct db today userId assignmentId = (db, r) ∧
        r.isTriggered = false ∧ r.isSuccess = false ∧
        r.isStatusRejection = false) ∨
    (∃ up p u, selectJoined db assignmentId userId = some (up, p) ∧
        findUser db userId = some u ∧ u.pending_balance_restoration = true ∧
        submitProduct db today userId assignmentId =
          restoration db (applyDailyReset db u today userId) u today userId assignmentId) ∨
    (∃ up p u amt, selectJoined db assignmentId userId = some (up, p) ∧
        findUser db userId = some u ∧ u.pending_balance_restoration = false ∧
        triggerMatch u (userCurrentSetOf u today) (currentTasksCompletedOf u today + 1) =
          some amt ∧
        submitProduct db today userId assignmentId =
          fireOnSubmit db (applyDailyReset db u today userId) u up p today userId amt) ∨
    (∃ up p u, selectJoined db assignmentId userId = some (up, p) ∧
        findUser db userId = some u ∧ u.pending_balance_restoration = false ∧
        triggerMatch u (userCurrentSetOf u today) (currentTasksCompletedOf u today + 1) = none ∧
        0 ≤ u.wallet_balance ∧
        submitProduct db today userId assignmentId =
          normalCompletion db (applyDailyReset db u today userId) u up p today userId
            assignmentId) := by
  unfold submitProduct
  cases hrow : selectJoined db assignmentId userId with
  | none => exact Or.inl ⟨_, rfl, rfl, rfl, rfl⟩
  | some r =>
    obtain ⟨up, p⟩ := r
    have h1 : rowStatus up p ≠ some "completed" := rowStatus_ne_assignment up p .completed
    have h2 : rowStatus up p ≠ some "pending" := rowStatus_ne_assignment up p .pending
    cases hu : findUser db userId with
    | none => simp only [h1, h2, if_false]; exact Or.inl ⟨_, rfl, rfl, rfl, rfl⟩
    | some u =>
      simp only [h1, h2, if_false]
      cases hg : setGate (userCurrentSetOf u today) (currentTasksCompletedOf u today)
          (getTaskLimitsForLevel (some (userLevelOf u))).perSet with
      | some n => exact Or.inl ⟨_, rfl, rfl, rfl, rfl⟩
      | none =>
        simp only
        by_cases hd : currentTasksCompletedOf u today ≥
            (getTaskLimitsForLevel (some (userLevelOf u))).total
        · rw [if_pos hd]; exact Or.inl ⟨_, rfl, rfl, rfl, rfl⟩
        rw [if_neg hd]
        by_cases hp : u.pending_balance_restoration = true
        · rw [if_pos hp]; exact Or.inr (Or.inl ⟨up, p, u, rfl, rfl, hp, rfl⟩)
        rw [if_neg hp]
        have hp2 : u.pending_balance_restoration = false := by simpa using hp
        cases ht : triggerMatch u (userCurrentSetOf u today)
            (currentTasksCompletedOf u today + 1) with
        | some amt => exact Or.inr (Or.inr (Or.inl ⟨up, p, u, amt, rfl, rfl, hp2, ht, rfl⟩))
        | none =>
          simp only
          by_cases hneg : u.wallet_balance < 0
          · rw [if_pos hneg]; exact Or.inl ⟨_, rfl, rfl, rfl, rfl⟩
          rw [if_neg hneg]
          exact Or.inr (Or.inr (Or.inr ⟨up, p, u, rfl, rfl, hp2, ht, not_lt.mp hneg, rfl⟩))

theorem applyDailyReset_tables (db : Db) (u : User) (today i : Nat) :
    (applyDailyReset db u today i).balance_events = db.balance_events ∧
    (applyDailyReset db u today i).user_products = db.user_products ∧
    (applyDailyReset db u today i).products = db.products ∧
    (applyDailyReset db u today i).commission_rates = db.commission_rates := by
  unfold applyDailyReset
  split_ifs
  · exact ⟨rfl, rfl, rfl, rfl⟩
  · exact ⟨rfl, rfl, rfl, rfl⟩

theorem payReferral_events {db : Db} {today i : Nat} {c : Cents} {u : User}
    (hu : findUser db i = some u) :
    (payReferral db today i c).balance_events =
      db.balance_events ++
        (match u.referrer_id with
          | none => []
          | some r =>
            if r ≠ 0 ∧ c > 0 ∧ referralBonusOf c > 0 then
              [⟨r, .referral_commission, referralBonusOf c, today⟩]
            else []) := by
  rw [payReferral_eq _ _ hu]
  cases u.referrer_id with
  | none => simp
  | some r =>
    simp only
    split_ifs
    · rfl
    · simp

theorem normalCompletion_fst {db : Db} {u : User} (up : UserProduct) (p : Product)
    (today : Nat) {userId : Nat} (assignmentId : Nat)
    (hu : findUser db userId = some u) :
    (normalCompletion db (applyDailyReset db u today userId) u up p today userId
        assignmentId).1 =
      payReferral
        (insertEvent
          (updateUser
            (updateUserProduct (applyDailyReset db u today userId) assignmentId
              (completedRow (productCost up p (userLevelOf u))
                (normalCommissionOf (productCost up p (userLevelOf u))
                  (commissionRate db (userLevelOf u))) today))
            userId
            (creditRow
              (totalCreditOf up.balance_before_start
                (normalCommissionOf (productCost up p (userLevelOf u))
                  (commissionRate db (userLevelOf u))) u.wallet_balance)
              (normalCommissionOf (productCost up p (userLevelOf u))
                (commissionRate db (userLevelOf u)))
              (currentTasksCompletedOf u today + 1)))
          ⟨userId, .submission_credit,
            totalCreditOf up.balance_before_start
              (normalCommissionOf (productCost up p (userLevelOf u))
                (commissionRate db (userLevelOf u))) u.wallet_balance, today⟩)
        today userId
        (normalCommissionOf (productCost up p (userLevelOf u))
          (commissionRate db (userLevelOf u))) ∧
    (normalCompletion db (applyDailyReset db u today userId) u up p today userId
        assignmentId).2.isSuccess = true := by
  have hR : findUser (applyDailyReset db u today userId) userId = some (resetUser u today) :=
    findUser_applyDailyReset _ hu
  have h3 : (findUser (insertEvent (updateUser (updateUserProduct
      (applyDailyReset db u today userId) assignmentId
        (completedRow (productCost up p (userLevelOf u))
          (normalCommissionOf (productCost up p (userLevelOf u))
            (commissionRate db (userLevelOf u))) today)) userId
        (creditRow (totalCreditOf up.balance_before_start
          (normalCommissionOf (productCost up p (userLevelOf u))
            (commissionRate db (userLevelOf u))) u.wallet_balance)
          (normalCommissionOf (productCost up p (userLevelOf u))
            (commissionRate db (userLevelOf u)))
          (currentTasksCompletedOf u today + 1)))
      ⟨userId, .submission_credit, totalCreditOf up.balance_before_start
          (normalCommissionOf (productCost up p (userLevelOf u))
            (commissionRate db (userLevelOf u))) u.wallet_balance, today⟩) userId).isSome := by
    simp only [findUser_insertEvent]
    rw [findUser_updateUser_self (creditRow _ _ _) (fun _ => rfl) (by simpa using hR)]
    rfl
  have h5 := payReferral_findUser_isSome _ today userId userId
    (normalCommissionOf (productCost up p (userLevelOf u))
            (commissionRate db (userLevelOf u))) h3
  obtain ⟨fu, hfu⟩ := Option.isSome_iff_exists.mp h5
  refine ⟨?_, ?_⟩ <;> simp [normalCompletion, hfu, SubmitResponse.isSuccess]

@[simp] theorem manualAdjustments_updateUser (db : Db) (i : Nat) (f : User → User) :
    manualAdjustments (updateUser db i f) = manualAdjustments db := rfl

@[simp] theorem manualAdjustments_updateUserProduct (db : Db) (i : Nat)
    (f : UserProduct → UserProduct) :
    manualAdjustments (updateUserProduct db i f) = manualAdjustments db := rfl

theorem manualAdjustments_insertEvent (db : Db) (e : BalanceEvent)
    (h : e.type ≠ .manual_adjustment) :
    manualAdjustments (insertEvent db e) = manualAdjustments db := by
  unfold manualAdjustments insertEvent
  simp [List.filter_append, h]

@[simp] theorem manualAdjustments_applyDailyReset (db : Db) (u : User) (today i : Nat) :
    manualAdjustments (applyDailyReset db u today i) = manualAdjustments db := by
  unfold applyDailyReset
  split_ifs <;> rfl

@[simp] theorem manualAdjustments_payReferral (db : Db) (today i : Nat) (c : Cents) :
    manualAdjustments (payReferral db today i c) = manualAdjustments db := by
  cases hu : findUser db i with
  | none => unfold payReferral; simp [hu]
  | some u =>
    rw [payReferral_eq _ _ hu]
    cases u.referrer_id with
    | none => rfl
    | some r =>
      simp only
      split_ifs
      · rw [manualAdjustments_insertEvent _ _ (by simp), manualAdjustments_updateUser]
      · rfl

/-! ## Task limits: the table and its default -/

/-- C8: `getTaskLimitsForLevel` returns 135/45, 150/50, 165/55, 180/60 for levels 1 to 4,
the level-1 limits 135/45 for every other argument (level 5 and an absent level among
them), and in every case `total = 3 * perSet`. -/
theorem getTaskLimitsForLevel_table :
    (getTaskLimitsForLevel (some 1) = ⟨135, 45⟩ ∧
      getTaskLimitsForLevel (some 2) = ⟨150, 50⟩ ∧
      getTaskLimitsForLevel (some 3) = ⟨165, 55⟩ ∧
      getTaskLimitsForLevel (some 4) = ⟨180, 60⟩ ∧
      getTaskLimitsForLevel (some 5) = ⟨135, 45⟩ ∧
      getTaskLimitsForLevel none = ⟨135, 45⟩) ∧
    (∀ level : Option Nat, level ≠ some 2 → level ≠ some 3 → level ≠ some 4 →
      getTaskLimitsForLevel level = ⟨135, 45⟩) ∧
    (∀ level : Option Nat,
      (getTaskLimitsForLevel level).total = 3 * (getTaskLimitsForLevel level).perSet) := by
  have key : ∀ level : Option Nat, level ≠ some 2 → level ≠ some 3 → level ≠ some 4 →
      getTaskLimitsForLevel level = ⟨135, 45⟩ := by
    intro level h2 h3 h4
    cases level with
    | none => rfl
    | some l =>
      match l, h2, h3, h4 with
      | 0, _, _, _ => rfl
      | 1, _, _, _ => rfl
      | 2, h2, _, _ => exact absurd rfl h2
      | 3, _, h3, _ => exact absurd rfl h3
      | 4, _, _, h4 => exact absurd rfl h4
      | n + 5, _, _, _ =>
        simp [getTaskLimitsForLevel, limits, List.lookup]
  refine ⟨⟨rfl, rfl, rfl, rfl, rfl, rfl⟩, key, ?_⟩
  intro level
  by_cases h2 : level = some 2
  · subst h2; rfl
  by_cases h3 : level = some 3
  · subst h3; rfl
  by_cases h4 : level = some 4
  · subst h4; rfl
  rw [key level h2 h3 h4]
  rfl

/-- Witness of C8 at level 7, an unknown level. -/
theorem getTaskLimitsForLevel_table_witness :
    getTaskLimitsForLevel (some 7) = ⟨135, 45⟩ :=
  getTaskLimitsForLevel_table.2.1 (some 7) (by decide) (by decide) (by decide)

/-! ## The effects of a successful Start -/

/-- C10: a Start call that passes every gate and does not fire the trigger leaves
`wallet_balance = previous - productCost`, marks the assignment `in_progress` with
`balance_before_start` the balance before the call, appends exactly one `assignment_debit`
event of amount `productCost`, and changes nothing else (no other field of the user, no
other row). -/
theorem startProduct_success_effects (db : Db) (today userId assignmentId : Nat)
    (up : UserProduct) (p : Product) (u : User)
    (hrow : selectJoined db assignmentId userId = some (up, p))
    (hu : findUser db userId = some u)
    (hgate : setGate (currentSetOf u) u.tasks_completed_today
      (getTaskLimitsForLevel (some (userLevelOf u))).perSet = none)
    (hneg : 0 ≤ u.wallet_balance)
    (hmin : ¬ (u.total_tasks_completed = 0 ∧ u.wallet_balance < MINIMUM_BALANCE_REQUIRED))
    (hins : up.is_manual = true ∨ productCost up p (userLevelOf u) ≤ u.wallet_balance)
    (htrig : triggerMatch u (currentSetOf u) (u.tasks_completed_today + 1) = none) :
    startProduct db today userId assignmentId =
      ({ db with
          users := db.users.map (fun x => if x.id = userId then
            { x with wallet_balance := u.wallet_balance - productCost up p (userLevelOf u) }
            else x)
          user_products := db.user_products.map (fun a => if a.id = assignmentId then
            { a with status := .in_progress, balance_before_start := some u.wallet_balance }
            else a)
          balance_events := db.balance_events ++
            [⟨userId, .assignment_debit, productCost up p (userLevelOf u), today⟩] },
        .success (productCost up p (userLevelOf u)) u.wallet_balance
          (u.wallet_balance - productCost up p (userLevelOf u))) ∧
    findUser (startProduct db today userId assignmentId).1 userId =
      some { u with wallet_balance := u.wallet_balance - productCost up p (userLevelOf u) } ∧
    selectJoined (startProduct db today userId assignmentId).1 assignmentId userId =
      some ({ up with status := .in_progress, balance_before_start := some u.wallet_balance },
        p) := by
  have h := startProduct_normal today hrow hu hgate hneg hmin hins htrig
  rw [debitOnStart_eq] at h
  refine ⟨h, ?_, ?_⟩
  · rw [h]
    simp only [findUser_insertEvent, findUser_updateUserProduct]
    exact findUser_updateUser_self _ (fun _ => rfl) hu
  · rw [h]
    simp only [selectJoined_insertEvent]
    exact selectJoined_started _ (by simpa using hrow)

/-- Witness of C10: balance 1000.00 and cost 100.00 give balance 900.00 and
`balance_before_start` 1000.00. -/
theorem startProduct_success_effects_witness :
    (startProduct scenarioDb 0 1 5).2 = .success 10000 100000 90000 ∧
    findUser (startProduct scenarioDb 0 1 5).1 1 =
      some { scenarioUser with wallet_balance := 90000 } ∧
    selectJoined (startProduct scenarioDb 0 1 5).1 5 1 =
      some ({ scenarioAssignment with
        status := .in_progress, balance_before_start := some 100000 }, scenarioProduct) ∧
    (startProduct scenarioDb 0 1 5).1.balance_events = [⟨1, .assignment_debit, 10000, 0⟩] := by
  have h := startProduct_success_effects scenarioDb 0 1 5 scenarioAssignment scenarioProduct
    scenarioUser (by decide) (by decide) (by decide) (by decide) (by decide) (by decide)
    (by decide)
  refine ⟨?_, ?_, ?_, ?_⟩
  · rw [h.1]; decide
  · rw [h.2.1]; decide
  · exact h.2.2
  · rw [h.1]; decide

/-! ## Start followed by Submit -/

/-- C1: refund-then-commission.  When Start succeeds on an assignment and the Submit of the
same assignment that follows it succeeds, with no restoration pending, the `wallet_balance`
after Submit is the `wallet_balance` before Start (recorded as `balance_before_start`) plus
`commission = toFixed2 (productCost * rate)`.  The user is not their own referrer (a
referrer is set at registration to an existing account).  No hypothesis on the trigger is
needed: a trigger that fires makes the call return `NEGATIVE_BALANCE_TRIGGERED`, not
success. -/
theorem refund_then_commission (db db1 db2 : Db) (today today2 userId assignmentId : Nat)
    (u : User) (r1 : StartResponse) (r2 : SubmitResponse)
    (hu : findUser db userId = some u)
    (hself : u.referrer_id ≠ some userId)
    (hpend : u.pending_balance_restoration = false)
    (hstart : startProduct db today userId assignmentId = (db1, r1))
    (hs1 : r1.isSuccess = true)
    (hsubmit : submitProduct db1 today2 userId assignmentId = (db2, r2))
    (hs2 : r2.isSuccess = true) :
    ∃ up p u2, selectJoined db assignmentId userId = some (up, p) ∧
      (selectJoined db1 assignmentId userId).map (fun r => r.1.balance_before_start) =
        some (some u.wallet_balance) ∧
      findUser db2 userId = some u2 ∧
      u2.wallet_balance = u.wallet_balance +
        toFixed2 (toNum (productCost up p (userLevelOf u)) * commissionRate db (userLevelOf u)) := by
  have hs1b : (startProduct db today userId assignmentId).2.isSuccess = true := by
    rw [hstart]; exact hs1
  obtain ⟨up, p, u0, hrow, hu0, hgate, hneg, hmin, hins, htrig⟩ := startProduct_success_inv hs1b
  rw [hu] at hu0
  cases hu0
  have hst := startProduct_normal today hrow hu hgate hneg hmin hins htrig
  rw [debitOnStart_eq, hstart] at hst
  have hdb1 := (Prod.mk.inj hst).1
  have hu1 : findUser db1 userId =
      some (debitRow (u.wallet_balance - productCost up p (userLevelOf u)) u) := by
    rw [hdb1]
    simp only [findUser_insertEvent, findUser_updateUserProduct]
    exact findUser_updateUser_self _ (fun _ => rfl) hu
  have hrow1 : selectJoined db1 assignmentId userId = some (startedRow u.wallet_balance up, p) := by
    rw [hdb1]
    simp only [selectJoined_insertEvent]
    exact selectJoined_started _ (by simpa using hrow)
  have hrate : commissionRate db1 (userLevelOf u) = commissionRate db (userLevelOf u) := by
    rw [hdb1]; rfl
  have hs2b : (submitProduct db1 today2 userId assignmentId).2.isSuccess = true := by
    rw [hsubmit]; exact hs2
  obtain ⟨up1, p1, u1, hrow1b, hu1b, hgate1, hdaily1, hcase⟩ := submitProduct_success_inv hs2b
  rw [hu1] at hu1b
  cases hu1b
  rw [hrow1] at hrow1b
  cases hrow1b
  have hpend1 : (debitRow (u.wallet_balance - productCost up p (userLevelOf u)) u).pending_balance_restoration = false := hpend
  rcases hcase with hp | ⟨_, htrig1, hneg1⟩
  · rw [hpend1] at hp; cases hp
  have hsub := submitProduct_normal today2 hrow1 hu1 hgate1 hdaily1 hpend1 htrig1 hneg1
  have hres := normalCompletion_result (startedRow u.wallet_balance up) p today2 assignmentId hu1
    (by simpa [debitRow] using hself)
  rw [← hsub, hsubmit] at hres
  refine ⟨up, p, _, hrow, ?_, hres.1, ?_⟩
  · rw [hrow1]; rfl
  · have hcost : productCost (startedRow u.wallet_balance up) p
        (userLevelOf (debitRow (u.wallet_balance - productCost up p (userLevelOf u)) u)) =
        productCost up p (userLevelOf u) := rfl
    have hlvl : userLevelOf (debitRow (u.wallet_balance - productCost up p (userLevelOf u)) u) =
        userLevelOf u := rfl
    simp only [creditRow, resetUser_wallet, hcost, hlvl, hrate]
    show (u.wallet_balance - productCost up p (userLevelOf u)) +
      totalCreditOf (some u.wallet_balance) _ (u.wallet_balance - productCost up p (userLevelOf u)) = _
    rw [totalCreditOf_fresh]
    have hc2 : productCost (startedRow u.wallet_balance up) p (userLevelOf u) =
        productCost up p (userLevelOf u) := rfl
    simp only [normalCommissionOf, hc2]
    ring

/-- Witness of C1: balance 1000.00, cost 100.00, rate 0.05 give the final balance
1005.00. -/
theorem refund_then_commission_witness :
    (findUser (submitProduct (startProduct scenarioDb 0 1 5).1 0 1 5).1 1).map
      (fun x => x.wallet_balance) = some 100500 := by
  obtain ⟨up, p, u2, hrow, _, hu2, hw⟩ :=
    refund_then_commission scenarioDb (startProduct scenarioDb 0 1 5).1
      (submitProduct (startProduct scenarioDb 0 1 5).1 0 1 5).1 0 0 1 5 scenarioUser
      (startProduct scenarioDb 0 1 5).2 (submitProduct (startProduct scenarioDb 0 1 5).1 0 1 5).2
      (by decide) (by decide) (by decide) rfl (by decide!) rfl (by decide!)
  have hrow2 : selectJoined scenarioDb 5 1 = some (scenarioAssignment, scenarioProduct) := by
    decide
  rw [hrow2] at hrow
  cases hrow
  have hc : toFixed2 (toNum (productCost scenarioAssignment scenarioProduct
      (userLevelOf scenarioUser)) * commissionRate scenarioDb (userLevelOf scenarioUser)) = 500 := by
    decide!
  rw [hc] at hw
  rw [hu2]
  simp only [Option.map_some', hw]
  decide

/-! ## Start with balance 10.00 and cost 50.00 -/

/-- C9 as stated fails: for a new account (`total_tasks_completed = 0`) with balance 10.00,
the set gate open and no trigger armed, Start of a pending manual assignment of cost 50.00
is rejected with `MINIMUM_BALANCE_REQUIRED`; it does not succeed. -/
theorem start_balance10_cost50_counterexample :
    ¬ (∀ (db : Db) (today userId assignmentId : Nat) (up : UserProduct) (p : Product)
        (u : User),
        selectJoined db assignmentId userId = some (up, p) →
        findUser db userId = some u →
        up.status = .pending →
        u.wallet_balance = 1000 →
        productCost up p (userLevelOf u) = 5000 →
        setGate (currentSetOf u) u.tasks_completed_today
          (getTaskLimitsForLevel (some (userLevelOf u))).perSet = none →
        hasTriggerSet u = false →
        (up.is_manual = false →
          startProduct db today userId assignmentId =
            (db, .insufficientBalance 4000 1000 5000)) ∧
        (up.is_manual = true →
          (startProduct db today userId assignmentId).2 = .success 5000 1000 (-4000))) := by
  intro h
  have h1 := (h newAccountDb 0 1 5 (costlyAssignment true) scenarioProduct newAccountUser (by decide) (by decide) (by decide)
    (by decide) (by decide) (by decide) (by decide)).2 (by decide)
  have h2 : (startProduct newAccountDb 0 1 5).2 = .minimumBalanceRequired 4000 1000 := by
    decide!
  rw [h2] at h1
  cases h1

/-- C9, amended: for a user with balance 10.00 who has completed at least one task, with
the set gate open and no trigger armed, and an assignment of cost 50.00: when `is_manual` is
false Start is rejected with `INSUFFICIENT_BALANCE` and the state is unchanged; when
`is_manual` is true Start succeeds and leaves `wallet_balance = -40.00`. -/
theorem start_balance10_cost50 (db : Db) (today userId assignmentId : Nat)
    (up : UserProduct) (p : Product) (u : User)
    (hrow : selectJoined db assignmentId userId = some (up, p))
    (hu : findUser db userId = some u)
    (hbal : u.wallet_balance = 1000)
    (hcost : productCost up p (userLevelOf u) = 5000)
    (hgate : setGate (currentSetOf u) u.tasks_completed_today
      (getTaskLimitsForLevel (some (userLevelOf u))).perSet = none)
    (harmed : hasTriggerSet u = false)
    (hold : u.total_tasks_completed ≠ 0) :
    (up.is_manual = false →
      startProduct db today userId assignmentId =
        (db, .insufficientBalance 4000 1000 5000)) ∧
    (up.is_manual = true →
      (startProduct db today userId assignmentId).2 = .success 5000 1000 (-4000) ∧
      findUser (startProduct db today userId assignmentId).1 userId =
        some { u with wallet_balance := -4000 }) := by
  have h1 : rowStatus up p ≠ some "in_progress" := rowStatus_ne_assignment up p .in_progress
  have h2 : rowStatus up p ≠ some "completed" := rowStatus_ne_assignment up p .completed
  constructor
  · intro hm
    unfold startProduct
    simp only [hrow, hu, h1, h2, hgate, hbal, hcost, hm, hold, if_false]
    simp [MINIMUM_BALANCE_REQUIRED, toFixed2_toNum]
  · intro hm
    have hst := startProduct_normal today hrow hu hgate (by rw [hbal]; decide)
      (fun h => hold h.1) (Or.inl hm) (triggerMatch_of_not_armed harmed _ _)
    rw [debitOnStart_eq] at hst
    rw [hst, hcost, hbal]
    refine ⟨by norm_num, ?_⟩
    simp only [findUser_insertEvent, findUser_updateUserProduct]
    rw [findUser_updateUser_self (debitRow (1000 - 5000)) (fun _ => rfl) hu]
    simp [debitRow]

/-- Witness of C9 (amended), at an account with three completed tasks. -/
theorem start_balance10_cost50_witness :
    startProduct (shortBalanceDb false) 0 1 5 =
      (shortBalanceDb false, .insufficientBalance 4000 1000 5000) ∧
    (startProduct (shortBalanceDb true) 0 1 5).2 = .success 5000 1000 (-4000) :=
  ⟨(start_balance10_cost50 (shortBalanceDb false) 0 1 5 (costlyAssignment false)
      scenarioProduct shortBalanceUser
      (by decide) (by decide) (by decide) (by decide) (by decide) (by decide)
      (by decide)).1 (by decide),
   ((start_balance10_cost50 (shortBalanceDb true) 0 1 5 (costlyAssignment true)
      scenarioProduct shortBalanceUser
      (by decide) (by decide) (by decide) (by decide) (by decide) (by decide)
      (by decide)).2 (by decide)).1⟩

/-! ## The trigger is one-shot -/

/-- C7: in every state where `negative_balance_triggered` is set, the trigger test fails
for every (set, task index) pair, the configured one included; neither Start nor Submit
takes the fire branch: no `NEGATIVE_BALANCE_TRIGGERED` response is produced and no
`manual_adjustment` event (the log entry of a fire) is added. -/
theorem trigger_one_shot (db : Db) (today userId assignmentId : Nat) (u : User)
    (hu : findUser db userId = some u)
    (htr : u.negative_balance_triggered = true) :
    (∀ s n : Nat, triggerMatch u s n = none) ∧
    (startProduct db today userId assignmentId).2.isTriggered = false ∧
    (submitProduct db today userId assignmentId).2.isTriggered = false ∧
    manualAdjustments (startProduct db today userId assignmentId).1 = manualAdjustments db ∧
    manualAdjustments (submitProduct db today userId assignmentId).1 = manualAdjustments db := by
  have hno := triggerMatch_of_triggered htr
  refine ⟨hno, ?_, ?_, ?_, ?_⟩
  · rcases startProduct_cases db today userId assignmentId with
      ⟨r, h, ht, _⟩ | ⟨up, p, u0, amt, _, hu0, hm, _⟩ | ⟨up, p, u0, _, hu0, _, h⟩
    · rw [h]; exact ht
    · rw [hu] at hu0; cases hu0; rw [hno] at hm; cases hm
    · rw [h, debitOnStart_eq]; rfl
  · rcases submitProduct_cases db today userId assignmentId with
      ⟨r, h, ht, _⟩ | ⟨up, p, u0, _, hu0, _, h⟩ | ⟨up, p, u0, amt, _, hu0, _, hm, _⟩ |
      ⟨up, p, u0, _, hu0, _, _, _, h⟩
    · rw [h]; exact ht
    · rw [h]; rfl
    · rw [hu] at hu0; cases hu0; rw [hno] at hm; cases hm
    · rw [hu] at hu0; cases hu0
      rw [h]
      have h2 := (normalCompletion_fst up p today assignmentId hu).2
      revert h2
      cases (normalCompletion db (applyDailyReset db u today userId) u up p today userId
        assignmentId).2 <;> simp [SubmitResponse.isSuccess, SubmitResponse.isTriggered]
  · rcases startProduct_cases db today userId assignmentId with
      ⟨r, h, _, _⟩ | ⟨up, p, u0, amt, _, hu0, hm, _⟩ | ⟨up, p, u0, _, hu0, _, h⟩
    · rw [h]
    · rw [hu] at hu0; cases hu0; rw [hno] at hm; cases hm
    · rw [h, debitOnStart_eq]
      simp [manualAdjustments_insertEvent]
  · rcases submitProduct_cases db today userId assignmentId with
      ⟨r, h, _, _⟩ | ⟨up, p, u0, _, hu0, _, h⟩ | ⟨up, p, u0, amt, _, hu0, _, hm, _⟩ |
      ⟨up, p, u0, _, hu0, _, _, _, h⟩
    · rw [h]
    · rw [h]
      simp [restoration, manualAdjustments_insertEvent]
    · rw [hu] at hu0; cases hu0; rw [hno] at hm; cases hm
    · rw [hu] at hu0; cases hu0
      rw [h, (normalCompletion_fst up p today assignmentId hu).1]
      simp [manualAdjustments_insertEvent]

/-- Witness of C7: a user whose trigger is configured at (set 1, submission 1), who is in
set 1 with no task completed today, and whose trigger has already fired. -/
theorem trigger_one_shot_witness :
    triggerMatch triggeredUser 1 1 = none ∧
    (startProduct triggeredDb 0 1 5).2.isTriggered = false ∧
    (submitProduct triggeredDb 0 1 5).2.isTriggered = false :=
  have h := trigger_one_shot triggeredDb 0 1 5 triggeredUser (by decide) (by decide)
  ⟨h.1 1 1, h.2.1, h.2.2.1⟩

/-! ## Restoration math -/

/-- C5 as stated fails: a normal Submit completion with commission 0.01 > 0 by a user who
has a referrer records no `referral_commission` event (the payout rounds to 0.00 and the
handler pays and logs only a positive payout). -/
theorem referral_payout_counterexample :
    (submitProduct (referralDb 20) 0 1 5).2 = .success 1 20 21 100021 1 ∧
    (findUser (referralDb 20) 1).map (fun x => x.referrer_id) = some (some 2) ∧
    (findUser (referralDb 20) 2).isSome = true ∧
    (submitProduct (referralDb 20) 0 1 5).1.balance_events =
      [⟨1, .submission_credit, 21, 0⟩] := by
  decide!

/-- C5, amended: in a normal Submit completion with commission `c > 0` by a user whose
referrer `r` is another existing user, let `b = toFixed2 (c * 0.20)` (the nearest cent;
20.00 when `c` is 100.00).  When `b > 0` the referrer's row changes only in
`wallet_balance`, which increases by `b` (so `commission_earned` is unchanged), and the log
gains the submitter's `submission_credit` event followed by exactly one
`referral_commission` event of amount `b` for `r`.  When `b` is not positive the referrer's
row is unchanged and only the `submission_credit` event is logged.  In both cases no user
other than the submitter and `r` changes (the referrer's own referrer is not paid). -/
theorem referral_payout (db : Db) (today userId assignmentId r : Nat)
    (up : UserProduct) (p : Product) (u ref : User) (c : Cents)
    (hrow : selectJoined db assignmentId userId = some (up, p))
    (hu : findUser db userId = some u)
    (hgate : setGate (userCurrentSetOf u today) (currentTasksCompletedOf u today)
      (getTaskLimitsForLevel (some (userLevelOf u))).perSet = none)
    (hdaily : currentTasksCompletedOf u today <
      (getTaskLimitsForLevel (some (userLevelOf u))).total)
    (hpend : u.pending_balance_restoration = false)
    (htrig : triggerMatch u (userCurrentSetOf u today)
      (currentTasksCompletedOf u today + 1) = none)
    (hneg : 0 ≤ u.wallet_balance)
    (href : u.referrer_id = some r) (hr0 : r ≠ 0) (hrne : r ≠ userId)
    (hfr : findUser db r = some ref)
    (hcv : normalCommissionOf (productCost up p (userLevelOf u))
      (commissionRate db (userLevelOf u)) = c)
    (hc : 0 < c) :
    (0 < referralBonusOf c →
      findUser (submitProduct db today userId assignmentId).1 r =
        some { ref with wallet_balance := ref.wallet_balance + referralBonusOf c } ∧
      (submitProduct db today userId assignmentId).1.balance_events =
        db.balance_events ++
          [⟨userId, .submission_credit,
              totalCreditOf up.balance_before_start c u.wallet_balance, today⟩,
            ⟨r, .referral_commission, referralBonusOf c, today⟩]) ∧
    (referralBonusOf c ≤ 0 →
      findUser (submitProduct db today userId assignmentId).1 r = some ref ∧
      (submitProduct db today userId assignmentId).1.balance_events =
        db.balance_events ++
          [⟨userId, .submission_credit,
              totalCreditOf up.balance_before_start c u.wallet_balance, today⟩]) ∧
    (∀ j, j ≠ userId → j ≠ r →
      findUser (submitProduct db today userId assignmentId).1 j = findUser db j) ∧
    |toNum (referralBonusOf c) - toNum c * (1 / 5)| ≤ 1 / 200 ∧
    referralBonusOf 10000 = 2000 := by
  have h := submitProduct_normal today hrow hu hgate hdaily hpend htrig hneg
  have hfst := (normalCompletion_fst up p today assignmentId hu).1
  rw [← h, hcv] at hfst
  have hR : findUser (applyDailyReset db u today userId) userId = some (resetUser u today) :=
    findUser_applyDailyReset _ hu
  have h3 : findUser (insertEvent (updateUser (updateUserProduct
      (applyDailyReset db u today userId) assignmentId
        (completedRow (productCost up p (userLevelOf u)) c today)) userId
        (creditRow (totalCreditOf up.balance_before_start c u.wallet_balance) c
          (currentTasksCompletedOf u today + 1)))
      ⟨userId, .submission_credit, totalCreditOf up.balance_before_start c u.wallet_balance,
        today⟩) userId =
      some (creditRow (totalCreditOf up.balance_before_start c u.wallet_balance) c
        (currentTasksCompletedOf u today + 1) (resetUser u today)) := by
    simp only [findUser_insertEvent]
    exact findUser_updateUser_self _ (fun _ => rfl) (by simpa using hR)
  have h3o : ∀ j, j ≠ userId → findUser (insertEvent (updateUser (updateUserProduct
      (applyDailyReset db u today userId) assignmentId
        (completedRow (productCost up p (userLevelOf u)) c today)) userId
        (creditRow (totalCreditOf up.balance_before_start c u.wallet_balance) c
          (currentTasksCompletedOf u today + 1)))
      ⟨userId, .submission_credit, totalCreditOf up.balance_before_start c u.wallet_balance,
        today⟩) j = findUser db j := by
    intro j hj
    simp only [findUser_insertEvent]
    rw [findUser_updateUser_ne (creditRow _ _ _) (fun _ => rfl) hj]
    simp only [findUser_updateUserProduct]
    exact findUser_applyDailyReset_ne hj
  have hpay := payReferral_eq today c h3
  have hrid : (creditRow (totalCreditOf up.balance_before_start c u.wallet_balance) c
        (currentTasksCompletedOf u today + 1) (resetUser u today)).referrer_id = some r := by
    simp [creditRow, href]
  rw [hrid] at hpay
  simp only at hpay
  rw [hfst]
  refine ⟨?_, ?_, ?_, ?_, by decide!⟩
  · intro hb
    rw [hpay, if_pos ⟨hr0, hc, hb⟩]
    constructor
    · simp only [findUser_insertEvent]
      rw [findUser_updateUser_self (referralRow (referralBonusOf c)) (fun _ => rfl)
        (by rw [h3o r hrne]; exact hfr)]
      rfl
    · simp only [insertEvent, updateUser, updateUserProduct,
        (applyDailyReset_tables db u today userId).1, List.append_assoc]
      rfl
  · intro hb
    rw [hpay, if_neg (fun hh => absurd hh.2.2 (not_lt.mpr hb))]
    constructor
    · rw [h3o r hrne]; exact hfr
    · simp only [insertEvent, updateUser, updateUserProduct,
        (applyDailyReset_tables db u today userId).1]
  · intro j hj hjr
    rw [payReferral_findUser_ne _ _ h3 (by rw [hrid]; intro hh; exact hjr (Option.some.inj hh).symm)]
    exact h3o j hj
  · have hn := toFixed2_nearest (toNum c * (1 / 5))
    rw [abs_le] at hn ⊢
    unfold referralBonusOf toNum at *
    constructor <;> linarith [hn.1, hn.2]

/-- Witness of C5 (amended): commission 100.00 (cost 2000.00 at rate 0.05) pays the
referrer exactly 20.00 and leaves the referrer's `commission_earned` and the referrer's own
referrer untouched. -/
theorem referral_payout_witness :
    findUser (submitProduct (referralDb 200000) 0 1 5).1 2 =
      some { referrerUser with wallet_balance := 5000 + 2000 } ∧
    (submitProduct (referralDb 200000) 0 1 5).1.balance_events =
      [⟨1, .submission_credit, 210000, 0⟩, ⟨2, .referral_commission, 2000, 0⟩] ∧
    findUser (submitProduct (referralDb 200000) 0 1 5).1 3 = some grandReferrerUser := by
  have h := referral_payout (referralDb 200000) 0 1 5 2 (startedAssignment 200000)
    scenarioProduct referredUser referrerUser 10000 (by decide) (by decide) (by decide)
    (by decide) (by decide) (by decide) (by decide) (by decide) (by decide) (by decide)
    (by decide) (by decide!) (by decide)
  have hb : referralBonusOf 10000 = 2000 := h.2.2.2.2
  have h1 := h.1 (by rw [hb]; decide)
  rw [hb] at h1
  refine ⟨h1.1, ?_, ?_⟩
  · rw [h1.2]; decide!
  · rw [h.2.2.1 3 (by decide) (by decide)]; decide

/-! ## The commission formula -/

/-- C3 fails on the code: with a recorded `balance_before_start` the credit is
`balance_before_start + commission - currentBalance`, whatever the product cost.  In the
scenario (cost 100.00, commission 5.00) with a deposit of 50.00 between Start and Submit the
credit is 55.00, not 105.00, and the final balance is 1005.00: the deposit is absorbed. -/
theorem submit_credit_after_deposit :
    (∀ b c cur : Cents, totalCreditOf (some b) c cur = b + c - cur) ∧
    (submitProduct driftDb 0 1 5).2 = .success 500 10000 5500 100500 1 ∧
    (10000 : Cents) + 500 ≠ 5500 := by
  refine ⟨?_, by decide!, by decide⟩
  intro b c cur
  simp only [totalCreditOf, toFixed2_toNum]

/-! ## The status guards of Submit -/

/-- C2 fails on the code: the status guards of Submit compare the product's status, so
Submit never answers `Already completed` or `PRODUCT_NOT_STARTED`.  A second Submit of the
completed assignment of the scenario succeeds and credits `commission_earned` again
(5.00 becomes 10.00) and counts a second task; a Submit of the pending, never started
assignment succeeds and raises `wallet_balance` from 1000.00 to 1005.00. -/
theorem submit_status_guards_dead :
    (∀ (db : Db) (today userId assignmentId : Nat),
      (submitProduct db today userId assignmentId).2 ≠ .alreadyCompleted ∧
      (submitProduct db today userId assignmentId).2 ≠ .productNotStarted) ∧
    ((selectJoined completedDb 5 1).map (fun r => r.1.status) = some .completed ∧
      (findUser completedDb 1).map (fun x => (x.wallet_balance, x.commission_earned,
        x.total_tasks_completed)) = some (100500, 500, 1) ∧
      (submitProduct completedDb 0 1 5).2 = .success 500 10000 0 100500 2 ∧
      (findUser (submitProduct completedDb 0 1 5).1 1).map (fun x => (x.wallet_balance,
        x.commission_earned, x.total_tasks_completed)) = some (100500, 1000, 2)) ∧
    ((selectJoined scenarioDb 5 1).map (fun r => r.1.status) = some .pending ∧
      (submitProduct scenarioDb 0 1 5).2 = .success 500 10000 500 100500 1 ∧
      (findUser (submitProduct scenarioDb 0 1 5).1 1).map (fun x => x.wallet_balance) =
        some 100500) := by
  refine ⟨?_, by decide!, by decide!⟩
  intro db today userId assignmentId
  rcases submitProduct_cases db today userId assignmentId with
    ⟨r, hr, _, _, hs⟩ | ⟨up, p, u, _, _, _, hr⟩ | ⟨up, p, u, amt, _, _, _, _, hr⟩ |
    ⟨up, p, u, hrow, hu, _, _, _, hr⟩
  · rw [hr]
    constructor <;> intro h <;> simp only at h <;> rw [h] at hs <;> cases hs
  · rw [hr]; constructor <;> intro h <;> cases h
  · rw [hr]; constructor <;> intro h <;> cases h
  · rw [hr]
    have h2 := (normalCompletion_fst up p today assignmentId hu).2
    constructor <;> intro h <;> rw [h] at h2 <;> cases h2

/-! ## The order of the rejections of Start -/

theorem setGate_of_exhausted {cs tasks perSet : Nat} (hcs : cs = 1 ∨ cs = 2 ∨ cs = 3)
    (h : perSet ≤ tasks) : setGate cs tasks perSet = some cs := by
  unfold setGate
  rcases hcs with rfl | rfl | rfl <;> simp [h]

theorem setGate_of_open {cs tasks perSet : Nat} (h : tasks < perSet) :
    setGate cs tasks perSet = none := by
  unfold setGate
  simp [not_le.mpr h]

/-- C11: Start evaluates its rejections in a fixed order and returns the code of the
earliest condition that holds, with the state unchanged: the set-completion gate
(`SET_N_COMPLETE` for `current_set = N` in 1..3 when `tasks_completed_today ≥ perSet`)
whatever the other conditions are; then `NEGATIVE_BALANCE` when the balance is negative;
then the new-account minimum (`total_tasks_completed = 0` and balance below 50.00); then
`INSUFFICIENT_BALANCE` for a non-manual assignment with balance below the cost. -/
theorem start_rejection_order (db : Db) (today userId assignmentId : Nat)
    (up : UserProduct) (p : Product) (u : User)
    (hrow : selectJoined db assignmentId userId = some (up, p))
    (hu : findUser db userId = some u) :
    ((currentSetOf u = 1 ∨ currentSetOf u = 2 ∨ currentSetOf u = 3) →
      (getTaskLimitsForLevel (some (userLevelOf u))).perSet ≤ u.tasks_completed_today →
      startProduct db today userId assignmentId =
        (db, .setComplete (currentSetOf u) u.tasks_completed_today (currentSetOf u)
          (getTaskLimitsForLevel (some (userLevelOf u))).perSet)) ∧
    (u.tasks_completed_today < (getTaskLimitsForLevel (some (userLevelOf u))).perSet →
      u.wallet_balance < 0 →
      startProduct db today userId assignmentId =
        (db, .negativeBalance (-u.wallet_balance) u.wallet_balance)) ∧
    (u.tasks_completed_today < (getTaskLimitsForLevel (some (userLevelOf u))).perSet →
      0 ≤ u.wallet_balance →
      u.total_tasks_completed = 0 → u.wallet_balance < 5000 →
      startProduct db today userId assignmentId =
        (db, .minimumBalanceRequired (5000 - u.wallet_balance) u.wallet_balance)) ∧
    (u.tasks_completed_today < (getTaskLimitsForLevel (some (userLevelOf u))).perSet →
      0 ≤ u.wallet_balance →
      ¬ (u.total_tasks_completed = 0 ∧ u.wallet_balance < 5000) →
      up.is_manual = false → u.wallet_balance < productCost up p (userLevelOf u) →
      startProduct db today userId assignmentId =
        (db, .insufficientBalance (productCost up p (userLevelOf u) - u.wallet_balance)
          u.wallet_balance (productCost up p (userLevelOf u)))) := by
  have h1 : rowStatus up p ≠ some "in_progress" := rowStatus_ne_assignment up p .in_progress
  have h2 : rowStatus up p ≠ some "completed" := rowStatus_ne_assignment up p .completed
  refine ⟨?_, ?_, ?_, ?_⟩
  · intro hcs hex
    unfold startProduct
    simp only [hrow, hu, h1, h2, if_false, setGate_of_exhausted hcs hex]
  · intro hop hneg
    unfold startProduct
    simp only [hrow, hu, h1, h2, if_false, setGate_of_open hop, hneg, if_true,
      abs_of_neg hneg]
  · intro hop hneg hnew hlow
    have h3 : ¬ u.wallet_balance < 0 := not_lt.mpr hneg
    have h4 : u.total_tasks_completed = 0 ∧ u.wallet_balance < MINIMUM_BALANCE_REQUIRED :=
      ⟨hnew, hlow⟩
    unfold startProduct
    simp only [hrow, hu, h1, h2, if_false, setGate_of_open hop, h3, h4, if_true,
      and_self, toFixed2_toNum]
    rfl
  · intro hop hneg hnew hm hlt
    have h3 : ¬ u.wallet_balance < 0 := not_lt.mpr hneg
    have h4 : ¬ (u.total_tasks_completed = 0 ∧ u.wallet_balance < MINIMUM_BALANCE_REQUIRED) :=
      hnew
    unfold startProduct
    simp only [hrow, hu, h1, h2, if_false, setGate_of_open hop, h3, h4, hm, hlt, if_true,
      and_self, toFixed2_toNum]

/-- Witness of C11: with set 1 exhausted, a negative balance, a new account and a balance
below the cost all at once, Start answers `SET_1_COMPLETE`. -/
theorem start_rejection_order_witness :
    startProduct allBlockedDb 0 1 5 = (allBlockedDb, .setComplete 1 45 1 45) ∧
    allBlockedUser.wallet_balance < 0 ∧ allBlockedUser.total_tasks_completed = 0 ∧
    allBlockedUser.wallet_balance <
      productCost scenarioAssignment scenarioProduct (userLevelOf allBlockedUser) :=
  ⟨(start_rejection_order allBlockedDb 0 1 5 scenarioAssignment scenarioProduct allBlockedUser
      (by decide) (by decide)).1 (by decide) (by decide),
    by decide, by decide, by decide⟩

/-! ## The trigger fired by Start -/

theorem triggerMatch_of_match {u : User} {s n : Nat} {ts tsub : Int} {amt : Cents}
    (h1 : u.negative_balance_set = some ts) (h2 : u.negative_balance_submission = some tsub)
    (h3 : u.negative_balance_amount = some amt) (h4 : u.negative_balance_triggered = false)
    (h5 : (s : Int) = ts) (h6 : (n : Int) = tsub) : triggerMatch u s n = some amt := by
  unfold triggerMatch
  simp [h1, h2, h3, h4, h5, h6]

/-- C12: a Start call that passes gates (a) to (d) with a trigger armed, not yet triggered
and configured at (`current_set`, `tasks_completed_today + 1`) returns
`NEGATIVE_BALANCE_TRIGGERED`; afterwards `wallet_balance = -amount`,
`balance_before_negative` is the balance before the call, the stored trigger amount is
`amount`, `negative_balance_triggered` is set, the assignment is `in_progress` with
`balance_before_start` the balance before the call, and the only event logged is one
`manual_adjustment`: the product cost is not debited. -/
theorem start_fire_effects (db : Db) (today userId assignmentId : Nat)
    (up : UserProduct) (p : Product) (u : User) (ts tsub : Int) (amount : Cents)
    (hrow : selectJoined db assignmentId userId = some (up, p))
    (hu : findUser db userId = some u)
    (hgate : setGate (currentSetOf u) u.tasks_completed_today
      (getTaskLimitsForLevel (some (userLevelOf u))).perSet = none)
    (hneg : 0 ≤ u.wallet_balance)
    (hmin : ¬ (u.total_tasks_completed = 0 ∧ u.wallet_balance < MINIMUM_BALANCE_REQUIRED))
    (hins : up.is_manual = true ∨ productCost up p (userLevelOf u) ≤ u.wallet_balance)
    (hset : u.negative_balance_set = some ts)
    (hsub : u.negative_balance_submission = some tsub)
    (hamt : u.negative_balance_amount = some amount)
    (hnot : u.negative_balance_triggered = false)
    (hms : (currentSetOf u : Int) = ts)
    (hmi : ((u.tasks_completed_today + 1 : Nat) : Int) = tsub) :
    (startProduct db today userId assignmentId).2.isTriggered = true ∧
    findUser (startProduct db today userId assignmentId).1 userId =
      some { u with
        wallet_balance := -amount
        negative_balance_triggered := true
        balance_before_negative := some u.wallet_balance
        negative_trigger_product_price := some amount } ∧
    selectJoined (startProduct db today userId assignmentId).1 assignmentId userId =
      some ({ up with status := .in_progress, balance_before_start := some u.wallet_balance },
        p) ∧
    (startProduct db today userId assignmentId).1.balance_events =
      db.balance_events ++ [⟨userId, .manual_adjustment, -amount, today⟩] := by
  have h1 : rowStatus up p ≠ some "in_progress" := rowStatus_ne_assignment up p .in_progress
  have h2 : rowStatus up p ≠ some "completed" := rowStatus_ne_assignment up p .completed
  have h3 : ¬ u.wallet_balance < 0 := not_lt.mpr hneg
  have h4 : ¬ (up.is_manual = false ∧ u.wallet_balance < productCost up p (userLevelOf u)) := by
    rintro ⟨hm, hlt⟩
    rcases hins with h | h
    · rw [hm] at h; cases h
    · exact absurd hlt (not_lt.mpr h)
  have htm := triggerMatch_of_match hset hsub hamt hnot hms hmi
  have h : startProduct db today userId assignmentId =
      fireOnStart db u up p today userId assignmentId amount := by
    unfold startProduct
    simp only [hrow, hu, h1, h2, h3, h4, hmin, hgate, htm, if_false]
  rw [h]
  refine ⟨rfl, ?_, ?_, rfl⟩
  · simp only [fireOnStart, findUser_insertEvent, findUser_updateUserProduct]
    exact findUser_updateUser_self _ (fun _ => rfl) hu
  · simp only [fireOnStart, selectJoined_insertEvent]
    exact selectJoined_started _ (by simpa using hrow)

/-- Witness of C12: balance 1000.00, trigger (set 1, submission 1, amount 280.00): Start
leaves the balance at -280.00 with `balance_before_negative` 1000.00. -/
theorem start_fire_effects_witness :
    (startProduct armedDb 0 1 5).2.isTriggered = true ∧
    findUser (startProduct armedDb 0 1 5).1 1 =
      some { armedUser with
        wallet_balance := -28000
        negative_balance_triggered := true
        balance_before_negative := some 100000
        negative_trigger_product_price := some 28000 } ∧
    (startProduct armedDb 0 1 5).1.balance_events = [⟨1, .manual_adjustment, -28000, 0⟩] :=
  have h := start_fire_effects armedDb 0 1 5 scenarioAssignment scenarioProduct armedUser 1 1
    28000 (by decide) (by decide) (by decide) (by decide) (by decide) (by decide) (by decide)
    (by decide) (by decide) (by decide) (by decide) (by decide)
  ⟨h.1, h.2.1, h.2.2.2⟩

/-! ## The trigger fired by Submit -/

/-- C13 as stated fails: when Submit fires the trigger on an assignment started at balance
1000.00 (cost 100.00 debited, balance 900.00 immediately before the fire), the stored
`balance_before_negative` is 1000.00, the `balance_before_start` of the assignment, not the
900.00 the wallet held immediately before the fire. -/
theorem submit_fire_effects_counterexample :
    (submitProduct armedAfterStartDb 0 1 5).2.isTriggered = true ∧
    (findUser armedAfterStartDb 1).map (fun x => x.wallet_balance) = some 90000 ∧
    (findUser (submitProduct armedAfterStartDb 0 1 5).1 1).map
      (fun x => (x.wallet_balance, x.balance_before_negative)) =
      some (-28000, some 100000) := by
  decide!

/-- C13, amended: a Submit of an assignment with no restoration pending, past the set and
daily gates, with a trigger armed, not yet triggered and configured at (`current_set`,
`tasks_completed_today + 1`) as they stand after the daily rollover, returns
`NEGATIVE_BALANCE_TRIGGERED`; afterwards `wallet_balance = -amount`,
`balance_before_negative` is the `balance_before_start` of the assignment when it is
recorded and the balance immediately before the fire otherwise, the stored trigger amount
is `amount`, `negative_balance_triggered` is set, no assignment row is changed (the
assignment stays `in_progress`), and no credit, commission or task counter increment is
applied: the only event logged is one `manual_adjustment`. -/
theorem submit_fire_effects (db : Db) (today userId assignmentId : Nat)
    (up : UserProduct) (p : Product) (u : User) (ts tsub : Int) (amount : Cents)
    (hrow : selectJoined db assignmentId userId = some (up, p))
    (hu : findUser db userId = some u)
    (hgate : setGate (userCurrentSetOf u today) (currentTasksCompletedOf u today)
      (getTaskLimitsForLevel (some (userLevelOf u))).perSet = none)
    (hdaily : currentTasksCompletedOf u today <
      (getTaskLimitsForLevel (some (userLevelOf u))).total)
    (hpend : u.pending_balance_restoration = false)
    (hset : u.negative_balance_set = some ts)
    (hsub : u.negative_balance_submission = some tsub)
    (hamt : u.negative_balance_amount = some amount)
    (hnot : u.negative_balance_triggered = false)
    (hms : (userCurrentSetOf u today : Int) = ts)
    (hmi : ((currentTasksCompletedOf u today + 1 : Nat) : Int) = tsub) :
    (submitProduct db today userId assignmentId).2.isTriggered = true ∧
    findUser (submitProduct db today userId assignmentId).1 userId =
      some { resetUser u today with
        wallet_balance := -amount
        negative_balance_triggered := true
        balance_before_negative := some (up.balance_before_start.getD u.wallet_balance)
        negative_trigger_product_price := some amount } ∧
    (submitProduct db today userId assignmentId).1.user_products = db.user_products ∧
    (submitProduct db today userId assignmentId).1.balance_events =
      db.balance_events ++ [⟨userId, .manual_adjustment, -amount, today⟩] ∧
    (resetUser u today).commission_earned = u.commission_earned ∧
    (resetUser u today).tasks_completed_at_level = u.tasks_completed_at_level ∧
    (resetUser u today).total_tasks_completed = u.total_tasks_completed ∧
    (resetUser u today).tasks_completed_today = currentTasksCompletedOf u today := by
  have h1 : rowStatus up p ≠ some "completed" := rowStatus_ne_assignment up p .completed
  have h2 : rowStatus up p ≠ some "pending" := rowStatus_ne_assignment up p .pending
  have h4 : ¬ (currentTasksCompletedOf u today ≥
      (getTaskLimitsForLevel (some (userLevelOf u))).total) := not_le.mpr hdaily
  have htm := triggerMatch_of_match hset hsub hamt hnot hms hmi
  have h : submitProduct db today userId assignmentId =
      fireOnSubmit db (applyDailyReset db u today userId) u up p today userId amount := by
    unfold submitProduct
    simp only [hrow, hu, h1, h2, h4, hgate, hpend, htm, if_false]
    simp
  have ht := applyDailyReset_tables db u today userId
  rw [h]
  refine ⟨rfl, ?_, ?_, ?_, ?_, ?_, ?_, ?_⟩
  · simp only [fireOnSubmit, findUser_insertEvent]
    exact findUser_updateUser_self _ (fun _ => rfl) (findUser_applyDailyReset today hu)
  · simp only [fireOnSubmit, insertEvent, updateUser, ht.2.1]
  · simp only [fireOnSubmit, insertEvent, updateUser, ht.1]
  · simp
  · unfold resetUser; split_ifs <;> rfl
  · unfold resetUser; split_ifs <;> rfl
  · unfold resetUser currentTasksCompletedOf; split_ifs <;> rfl

/-- Witness of C13 (amended), at the assignment started at balance 1000.00. -/
theorem submit_fire_effects_witness :
    findUser (submitProduct armedAfterStartDb 0 1 5).1 1 =
      some { armedAfterStartUser with
        wallet_balance := -28000
        negative_balance_triggered := true
        balance_before_negative := some 100000
        negative_trigger_product_price := some 28000 } ∧
    (submitProduct armedAfterStartDb 0 1 5).1.user_products =
      armedAfterStartDb.user_products :=
  have h := submit_fire_effects armedAfterStartDb 0 1 5 (startedRow 100000 scenarioAssignment)
    scenarioProduct armedAfterStartUser 1 1 28000 (by decide) (by decide) (by decide)
    (by decide) (by decide) (by decide) (by decide) (by decide) (by decide) (by decide)
    (by decide)
  ⟨h.2.1, h.2.2.1⟩

/-! ## The priority of the restoration -/

/-- C14 as stated fails: a user with `pending_balance_restoration` set who has completed
the 45 tasks of set 1 today is answered `SET_1_COMPLETE` and nothing is restored. -/
theorem restoration_priority_counterexample :
    (findUser restorationBlockedDb 1).map (fun x => x.pending_balance_restoration) =
      some true ∧
    submitProduct restorationBlockedDb 0 1 5 =
      (restorationBlockedDb, .setComplete 1 45 1 45) := by
  decide!

/-- C14, amended: in a Submit for a user whose `pending_balance_restoration` flag is set,
the set-completion gate and the daily limit are evaluated first; when they pass, the
restoration branch is the one taken, whatever `wallet_balance` and the trigger
configuration are, so neither the trigger fire, nor the `NEGATIVE_BALANCE` rejection, nor
the normal completion is taken.  In every case the answer is one of `SET_N_COMPLETE`,
`DAILY_LIMIT_REACHED` and the restoration. -/
theorem restoration_priority (db : Db) (today userId assignmentId : Nat)
    (up : UserProduct) (p : Product) (u : User)
    (hrow : selectJoined db assignmentId userId = some (up, p))
    (hu : findUser db userId = some u)
    (hpend : u.pending_balance_restoration = true) :
    (setGate (userCurrentSetOf u today) (currentTasksCompletedOf u today)
        (getTaskLimitsForLevel (some (userLevelOf u))).perSet = none →
      currentTasksCompletedOf u today < (getTaskLimitsForLevel (some (userLevelOf u))).total →
      submitProduct db today userId assignmentId =
        restoration db (applyDailyReset db u today userId) u today userId assignmentId ∧
      (submitProduct db today userId assignmentId).2 =
        .restored
          (bonusCommissionOf (u.balance_before_negative.getD 0)
            (u.negative_trigger_product_price.getD 0) (commissionRate db (userLevelOf u)))
          (u.balance_before_negative.getD 0 + u.negative_trigger_product_price.getD 0)
          (u.balance_before_negative.getD 0 + u.negative_trigger_product_price.getD 0 +
            bonusCommissionOf (u.balance_before_negative.getD 0)
              (u.negative_trigger_product_price.getD 0) (commissionRate db (userLevelOf u)))
          (currentTasksCompletedOf u today + 1)) ∧
    ((∃ n a b c, (submitProduct db today userId assignmentId).2 = .setComplete n a b c) ∨
      (∃ a b, (submitProduct db today userId assignmentId).2 = .dailyLimitReached a b) ∨
      (∃ a b c n, (submitProduct db today userId assignmentId).2 = .restored a b c n)) := by
  have h1 : rowStatus up p ≠ some "completed" := rowStatus_ne_assignment up p .completed
  have h2 : rowStatus up p ≠ some "pending" := rowStatus_ne_assignment up p .pending
  constructor
  · intro hgate hdaily
    have h := submitProduct_restoration today hrow hu hgate hdaily hpend
    exact ⟨h, by rw [h]; rfl⟩
  · unfold submitProduct
    simp only [hrow, hu, h1, h2, if_false]
    cases hg : setGate (userCurrentSetOf u today) (currentTasksCompletedOf u today)
        (getTaskLimitsForLevel (some (userLevelOf u))).perSet with
    | some n => exact Or.inl ⟨_, _, _, _, rfl⟩
    | none =>
      simp only
      by_cases hd : currentTasksCompletedOf u today ≥
          (getTaskLimitsForLevel (some (userLevelOf u))).total
      · rw [if_pos hd]; exact Or.inr (Or.inl ⟨_, _, rfl⟩)
      · rw [if_neg hd, if_pos hpend]
        exact Or.inr (Or.inr ⟨_, _, _, _, rfl⟩)

/-- Witness of C14 (amended): the user with restoration pending, a balance of 0 and a
configured trigger is restored. -/
theorem restoration_priority_witness :
    (submitProduct restorationDb 0 1 5).2 = .restored 214000 428000 642000 1 := by
  have h := ((restoration_priority restorationDb 0 1 5
    { scenarioAssignment with status := .in_progress, balance_before_start := some 400000 }
    scenarioProduct restorationUser (by decide) (by decide) (by decide)).1 (by decide)
    (by decide)).2
  rw [h]
  decide!

/-! ## The effects of the restoration -/

/-- C15: a Submit that takes the restoration branch sets `wallet_balance` to
`restoredBalance = originalBalance + negativeAmount + bonus`; completes the submitted
assignment with `amount_earned = originalBalance + negativeAmount` and
`commission_earned = bonus`; clears `pending_balance_restoration`,
`negative_balance_triggered`, `balance_before_negative`, the stored trigger amount and the
trigger configuration; adds `bonus` to the user's `commission_earned`; and appends exactly
one `submission_credit` event of amount `restoredBalance`. -/
theorem restoration_effects (db : Db) (today userId assignmentId : Nat)
    (up : UserProduct) (p : Product) (u : User) (bonus restored : Cents)
    (hrow : selectJoined db assignmentId userId = some (up, p))
    (hu : findUser db userId = some u)
    (hgate : setGate (userCurrentSetOf u today) (currentTasksCompletedOf u today)
      (getTaskLimitsForLevel (some (userLevelOf u))).perSet = none)
    (hdaily : currentTasksCompletedOf u today <
      (getTaskLimitsForLevel (some (userLevelOf u))).total)
    (hpend : u.pending_balance_restoration = true)
    (hbonus : bonusCommissionOf (u.balance_before_negative.getD 0)
      (u.negative_trigger_product_price.getD 0) (commissionRate db (userLevelOf u)) = bonus)
    (hrest : u.balance_before_negative.getD 0 + u.negative_trigger_product_price.getD 0 +
      bonus = restored) :
    (∃ x, findUser (submitProduct db today userId assignmentId).1 userId = some x ∧
      x.wallet_balance = restored ∧
      x.pending_balance_restoration = false ∧
      x.negative_balance_triggered = false ∧
      x.balance_before_negative = none ∧
      x.negative_trigger_product_price = none ∧
      x.negative_balance_set = none ∧
      x.negative_balance_submission = none ∧
      x.negative_balance_amount = none ∧
      x.commission_earned = u.commission_earned + bonus) ∧
    selectJoined (submitProduct db today userId assignmentId).1 assignmentId userId =
      some ({ up with
        status := .completed
        amount_earned := u.balance_before_negative.getD 0 +
          u.negative_trigger_product_price.getD 0
        commission_earned := bonus
        submitted_at := some today }, p) ∧
    (submitProduct db today userId assignmentId).1.balance_events =
      db.balance_events ++ [⟨userId, .submission_credit, restored, today⟩] := by
  have h := submitProduct_restoration today hrow hu hgate hdaily hpend
  have ht := applyDailyReset_tables db u today userId
  rw [h]
  subst hbonus
  subst hrest
  have hx : findUser (restoration db (applyDailyReset db u today userId) u today userId
      assignmentId).1 userId =
      some (restoreRow
        (u.balance_before_negative.getD 0 + u.negative_trigger_product_price.getD 0 +
          bonusCommissionOf (u.balance_before_negative.getD 0)
            (u.negative_trigger_product_price.getD 0) (commissionRate db (userLevelOf u)))
        (bonusCommissionOf (u.balance_before_negative.getD 0)
          (u.negative_trigger_product_price.getD 0) (commissionRate db (userLevelOf u)))
        (currentTasksCompletedOf u today + 1) (resetUser u today)) := by
    simp only [restoration, findUser_insertEvent]
    exact findUser_updateUser_self (restoreRow _ _ _) (fun _ => rfl)
      (by simpa using findUser_applyDailyReset today hu)
  refine ⟨⟨_, hx, rfl, rfl, rfl, rfl, rfl, rfl, rfl, rfl, ?_⟩, ?_, ?_⟩
  · simp [restoreRow]
  · simp only [restoration, selectJoined_insertEvent, selectJoined_updateUser]
    rw [selectJoined_updateUserProduct _ _ _ _ (completedRow _ _ _) (fun _ => rfl)
      (fun _ => rfl) (fun _ => rfl)]
    have hrowR : selectJoined (applyDailyReset db u today userId) assignmentId userId =
        some (up, p) := by
      unfold applyDailyReset
      split_ifs
      · simpa using hrow
      · exact hrow
    rw [hrowR]
    simp [(selectJoined_spec hrow).1, completedRow]
  · simp only [restoration, insertEvent, updateUser, updateUserProduct, ht.1]

/-- Witness of C15: the restoration of the user with `balance_before_negative` 4000.00 and
stored amount 280.00 at rate 0.05. -/
theorem restoration_effects_witness :
    (findUser (submitProduct restorationDb 0 1 5).1 1).map
      (fun x => (x.wallet_balance, x.pending_balance_restoration,
        x.negative_balance_triggered, x.commission_earned)) =
      some (642000, false, false, 214000) ∧
    (submitProduct restorationDb 0 1 5).1.balance_events =
      [⟨1, .submission_credit, 642000, 0⟩] := by
  have h := restoration_effects restorationDb 0 1 5
    { scenarioAssignment with status := .in_progress, balance_before_start := some 400000 }
    scenarioProduct restorationUser 214000 642000 (by decide) (by decide) (by decide)
    (by decide) (by decide) (by decide!) (by decide)
  obtain ⟨⟨x, hx, h1, h2, h3, _, _, _, _, _, h4⟩, _, hev⟩ := h
  refine ⟨?_, hev⟩
  rw [hx]
  simp only [Option.map_some', h1, h2, h3, h4]
  decide

/-! ## The effects of the normal completion -/

/-- C18 as stated fails: when the stored `last_task_reset_date` is not today, a normal
completion leaves `tasks_completed_today` at 1 (it was 7) and `current_set` at 1 (it was
2): the count is not the stored count plus 1. -/
theorem normal_completion_effects_counterexample :
    (findUser nextDayDb 1).map (fun x => (x.tasks_completed_today, x.current_set)) =
      some (7, 2) ∧
    (submitProduct nextDayDb 1 1 5).2 = .success 500 10000 10500 100500 1 ∧
    (findUser (submitProduct nextDayDb 1 1 5).1 1).map
      (fun x => (x.tasks_completed_today, x.current_set)) = some (1, 1) := by
  decide!

/-- C18, amended: a Submit that takes the normal completion branch completes the
assignment with `amount_earned = productCost` and `commission_earned = commission`; adds
`commission` to the user's `commission_earned`; raises `tasks_completed_at_level` and
`total_tasks_completed` by exactly 1; sets `tasks_completed_today` to one more than the
count after the daily rollover (the stored count when `last_task_reset_date` is today, 0
otherwise); does not advance `current_set` (it is the stored one, or 1 after a rollover);
and appends exactly one `submission_credit` event, of amount the credit added to
`wallet_balance`, followed by at most one `referral_commission` event. -/
theorem normal_completion_effects (db : Db) (today userId assignmentId : Nat)
    (up : UserProduct) (p : Product) (u : User) (commission credit : Cents)
    (hrow : selectJoined db assignmentId userId = some (up, p))
    (hu : findUser db userId = some u)
    (hgate : setGate (userCurrentSetOf u today) (currentTasksCompletedOf u today)
      (getTaskLimitsForLevel (some (userLevelOf u))).perSet = none)
    (hdaily : currentTasksCompletedOf u today <
      (getTaskLimitsForLevel (some (userLevelOf u))).total)
    (hpend : u.pending_balance_restoration = false)
    (htrig : triggerMatch u (userCurrentSetOf u today)
      (currentTasksCompletedOf u today + 1) = none)
    (hneg : 0 ≤ u.wallet_balance)
    (hself : u.referrer_id ≠ some userId)
    (hcv : normalCommissionOf (productCost up p (userLevelOf u))
      (commissionRate db (userLevelOf u)) = commission)
    (hcr : totalCreditOf up.balance_before_start commission u.wallet_balance = credit) :
    (∃ x, findUser (submitProduct db today userId assignmentId).1 userId = some x ∧
      x.wallet_balance = u.wallet_balance + credit ∧
      x.commission_earned = u.commission_earned + commission ∧
      x.tasks_completed_at_level = u.tasks_completed_at_level + 1 ∧
      x.total_tasks_completed = u.total_tasks_completed + 1 ∧
      x.tasks_completed_today = currentTasksCompletedOf u today + 1 ∧
      x.current_set = (resetUser u today).current_set) ∧
    (u.last_task_reset_date = some today →
      currentTasksCompletedOf u today = u.tasks_completed_today ∧
      (resetUser u today).current_set = u.current_set) ∧
    (u.last_task_reset_date ≠ some today →
      currentTasksCompletedOf u today = 0 ∧ (resetUser u today).current_set = 1) ∧
    selectJoined (submitProduct db today userId assignmentId).1 assignmentId userId =
      some ({ up with
        status := .completed
        amount_earned := productCost up p (userLevelOf u)
        commission_earned := commission
        submitted_at := some today }, p) ∧
    (∃ rest, (submitProduct db today userId assignmentId).1.balance_events =
        db.balance_events ++ ⟨userId, .submission_credit, credit, today⟩ :: rest ∧
      rest.length ≤ 1 ∧ ∀ e ∈ rest, e.type = .referral_commission) := by
  have h := submitProduct_normal today hrow hu hgate hdaily hpend htrig hneg
  have hres := normalCompletion_result up p today assignmentId hu hself
  have hfst := (normalCompletion_fst up p today assignmentId hu).1
  have ht := applyDailyReset_tables db u today userId
  rw [← h, hcv, hcr] at hres hfst
  have h3 : findUser (insertEvent (updateUser (updateUserProduct
      (applyDailyReset db u today userId) assignmentId
        (completedRow (productCost up p (userLevelOf u)) commission today)) userId
        (creditRow credit commission (currentTasksCompletedOf u today + 1)))
      ⟨userId, .submission_credit, credit, today⟩) userId =
      some (creditRow credit commission (currentTasksCompletedOf u today + 1)
        (resetUser u today)) := by
    simp only [findUser_insertEvent]
    exact findUser_updateUser_self _ (fun _ => rfl)
      (by simpa using findUser_applyDailyReset today hu)
  refine ⟨⟨_, hres.1, ?_, ?_, ?_, ?_, rfl, rfl⟩, ?_, ?_, ?_, ?_⟩
  · simp [creditRow]
  · simp [creditRow]
  · unfold resetUser; split_ifs <;> rfl
  · unfold resetUser; split_ifs <;> rfl
  · intro hd
    have : needsDailyReset u today = false := by simp [needsDailyReset, hd]
    simp [currentTasksCompletedOf, resetUser, this]
  · intro hd
    have : needsDailyReset u today = true := by simp [needsDailyReset, hd]
    simp [currentTasksCompletedOf, resetUser, this, resetRow]
  · rw [hfst]
    have hsel : ∀ d : Db, selectJoined (payReferral d today userId commission) assignmentId
        userId = selectJoined d assignmentId userId := by
      intro d
      have hp := payReferral_tables d today userId commission
      unfold selectJoined
      rw [hp.1, hp.2.1]
    rw [hsel]
    simp only [selectJoined_insertEvent, selectJoined_updateUser]
    rw [selectJoined_updateUserProduct _ _ _ _ (completedRow _ _ _) (fun _ => rfl)
      (fun _ => rfl) (fun _ => rfl)]
    have hrowR : selectJoined (applyDailyReset db u today userId) assignmentId userId =
        some (up, p) := by
      unfold applyDailyReset
      split_ifs
      · simpa using hrow
      · exact hrow
    rw [hrowR]
    simp [(selectJoined_spec hrow).1, completedRow]
  · rw [hfst, payReferral_events h3]
    simp only [insertEvent, updateUser, updateUserProduct, ht.1, List.append_assoc,
      List.singleton_append]
    refine ⟨_, rfl, ?_, ?_⟩
    · cases (creditRow credit commission (currentTasksCompletedOf u today + 1)
        (resetUser u today)).referrer_id with
      | none => simp
      | some r => simp only; split_ifs <;> simp
    · intro e he
      revert he
      cases (creditRow credit commission (currentTasksCompletedOf u today + 1)
        (resetUser u today)).referrer_id with
      | none => simp
      | some r =>
        simp only
        split_ifs
        · intro he; simp at he; rw [he]
        · simp

/-- Witness of C18 (amended): the Submit of the scenario on the day of its Start. -/
theorem normal_completion_effects_witness :
    (findUser (submitProduct startedDb 0 1 5).1 1).map
      (fun x => (x.wallet_balance, x.commission_earned, x.tasks_completed_today)) =
      some (100500, 500, 1) := by
  have h := normal_completion_effects startedDb 0 1 5 (startedRow 100000 scenarioAssignment)
    scenarioProduct { scenarioUser with wallet_balance := 90000 } 500 10500
    (by decide!) (by decide!) (by decide) (by decide) (by decide) (by decide) (by decide)
    (by decide) (by decide!) (by decide!)
  obtain ⟨⟨x, hx, h1, h2, _, _, h5, _⟩, _⟩ := h
  rw [hx]
  simp only [Option.map_some', h1, h2, h5]
  decide

/-! ## Batch Submit -/

/-- C19: for a user with a negative balance and at least one row for today that is not
completed, batch Submit is rejected and the database is unchanged (no assignment changes
status; balance, `commission_earned` and the event log are as before); the rejection
reports `shortfall = requiredDeposit = -wallet_balance` and the current balance. -/
theorem batch_negative_blocked (db : Db) (today userId : Nat) (u : User)
    (hu : findUser db userId = some u)
    (hrows : selectTodayRows db today userId ≠ [])
    (hneg : u.wallet_balance < 0) :
    submitToday db today userId =
      (db, .insufficientBalance (-u.wallet_balance) u.wallet_balance (-u.wallet_balance)) := by
  unfold submitToday
  have he : (selectTodayRows db today userId).isEmpty = false := by
    cases h : selectTodayRows db today userId with
    | nil => exact absurd h hrows
    | cons a l => rfl
  simp only [hu, he, hneg, if_true, abs_of_neg hneg]
  simp

/-- Witness of C19: balance -25.00 with two rows to submit. -/
theorem batch_negative_blocked_witness :
    submitToday batchNegativeDb 0 1 =
      (batchNegativeDb, .insufficientBalance 2500 (-2500) 2500) :=
  batch_negative_blocked batchNegativeDb 0 1 { scenarioUser with wallet_balance := -2500 }
    (by decide) (by decide) (by decide)

theorem completedPreserved_of_eq {db db1 : Db} (h : db1.user_products = db.user_products) :
    CompletedPreserved db db1 := by
  intro i a hi hc
  exact ⟨a, by rw [h]; exact hi, rfl, hc⟩

theorem completedPreserved_trans {db db1 db2 : Db} (h1 : CompletedPreserved db db1)
    (h2 : CompletedPreserved db1 db2) : CompletedPreserved db db2 := by
  intro i a hi hc
  obtain ⟨a1, hi1, hid1, hc1⟩ := h1 i a hi hc
  obtain ⟨a2, hi2, hid2, hc2⟩ := h2 i a1 hi1 hc1
  exact ⟨a2, hi2, hid2.trans hid1, hc2⟩

theorem completedPreserved_completedRow (db : Db) (k : Nat) (amount commission : Cents)
    (today : Nat) :
    CompletedPreserved db (updateUserProduct db k (completedRow amount commission today)) := by
  intro i a hi hc
  simp only [updateUserProduct, List.getElem?_map, hi, Option.map_some']
  by_cases hk : a.id = k
  · rw [if_pos hk]; exact ⟨_, rfl, rfl, rfl⟩
  · rw [if_neg hk]; exact ⟨_, rfl, rfl, hc⟩

theorem completedPreserved_append (db : Db) (l : List UserProduct) :
    CompletedPreserved db { db with user_products := db.user_products ++ l } := by
  intro i a hi hc
  refine ⟨a, ?_, rfl, hc⟩
  have hlt : i < db.user_products.length := by
    rcases Nat.lt_or_ge i db.user_products.length with h | h
    · exact h
    · rw [List.getElem?_eq_none h] at hi; cases hi
  simp only [List.getElem?_append_left hlt, hi]

theorem submitProduct_completedPreserved (db : Db) (today userId assignmentId : Nat) :
    CompletedPreserved db (submitProduct db today userId assignmentId).1 := by
  have hR : ∀ u, CompletedPreserved db (applyDailyReset db u today userId) :=
    fun u => completedPreserved_of_eq (applyDailyReset_tables db u today userId).2.1
  rcases submitProduct_cases db today userId assignmentId with
    ⟨r, h, -⟩ | ⟨up, p, u, -, -, -, h⟩ | ⟨up, p, u, amt, -, -, -, -, h⟩ |
    ⟨up, p, u, -, hu, -, -, -, h⟩
  · rw [h]; exact completedPreserved_of_eq rfl
  · rw [h]
    exact completedPreserved_trans (hR u)
      (completedPreserved_trans (completedPreserved_completedRow _ assignmentId _ _ today)
        (completedPreserved_of_eq rfl))
  · rw [h]
    exact completedPreserved_trans (hR u) (completedPreserved_of_eq rfl)
  · rw [h, (normalCompletion_fst up p today assignmentId hu).1]
    exact completedPreserved_trans (hR u)
      (completedPreserved_trans (completedPreserved_completedRow _ assignmentId _ _ today)
        (completedPreserved_of_eq (payReferral_tables _ _ _ _).1))

theorem foldl_completedPreserved (f g : UserProduct × Product → Cents) (today : Nat)
    (rows : List (UserProduct × Product)) (db : Db) :
    CompletedPreserved db
      (rows.foldl (fun d r => updateUserProduct d r.1.id (completedRow (f r) (g r) today)) db) := by
  induction rows generalizing db with
  | nil => exact completedPreserved_of_eq rfl
  | cons r rest ih =>
    simp only [List.foldl_cons]
    exact completedPreserved_trans (completedPreserved_completedRow db r.1.id _ _ today) (ih _)

theorem submitToday_completedPreserved (db : Db) (today userId : Nat) :
    CompletedPreserved db (submitToday db today userId).1 := by
  unfold submitToday
  cases hu : findUser db userId with
  | none => exact completedPreserved_of_eq rfl
  | some u =>
    simp only
    split_ifs
    · exact completedPreserved_of_eq rfl
    · exact completedPreserved_of_eq rfl
    · split
      · exact completedPreserved_of_eq rfl
      · exact completedPreserved_trans
          (foldl_completedPreserved _ _ today (selectTodayRows db today userId) db)
          (completedPreserved_of_eq rfl)

theorem insertIgnoreAssignment_completedPreserved (db : Db) (userId productId today : Nat) :
    CompletedPreserved db (insertIgnoreAssignment db userId productId today).1 := by
  unfold insertIgnoreAssignment
  split_ifs
  · exact completedPreserved_of_eq rfl
  · exact completedPreserved_append db _

theorem assignLoop_completedPreserved (userId today : Nat) (productRows : List Nat)
    (tasksPerDay : Nat) (picks : List Nat) (db : Db) (assigned : List Nat) (n : Nat) :
    CompletedPreserved db
      (assignLoop userId today productRows tasksPerDay picks db assigned n).1 := by
  induction picks generalizing db assigned n with
  | nil =>
    unfold assignLoop
    split_ifs <;> exact completedPreserved_of_eq rfl
  | cons i picks ih =>
    unfold assignLoop
    by_cases hcond : n < tasksPerDay ∧ assigned.length < productRows.length
    · rw [if_pos hcond]
      simp only
      by_cases hmem : assigned.contains (productRows.getD (i % productRows.length) 0) = true
      · rw [if_pos hmem]
        exact ih _ _ _
      · rw [if_neg hmem]
        exact completedPreserved_trans
          (insertIgnoreAssignment_completedPreserved db userId _ today) (ih _ _ _)
    · rw [if_neg hcond]
      exact completedPreserved_of_eq rfl

theorem assignUsers_completedPreserved (today : Nat) (productRows : List Nat)
    (users : List User) (db : Db) (total : Nat) (picks : List Nat) :
    CompletedPreserved db (assignUsers today productRows users db total picks).1 := by
  induction users generalizing db total picks with
  | nil => exact completedPreserved_of_eq rfl
  | cons user users ih =>
    unfold assignUsers
    simp only
    have h := assignLoop_completedPreserved user.id today productRows
      (getTaskLimitsForLevel (some (userLevelOf user))).total picks db [] 0
    revert h
    cases assignLoop user.id today productRows
      (getTaskLimitsForLevel (some (userLevelOf user))).total picks db [] 0 with
    | mk db1 o =>
      intro h
      cases o with
      | none => exact h
      | some q => exact completedPreserved_trans h (ih _ _ _)

theorem assignProductsToAllUsers_completedPreserved (db : Db) (today : Nat)
    (productIds : Option (List Nat)) (picks : List Nat) :
    CompletedPreserved db (assignProductsToAllUsers db today productIds picks).1 := by
  unfold assignProductsToAllUsers
  simp only
  split_ifs
  · exact completedPreserved_of_eq rfl
  · split
    · exact completedPreserved_of_eq rfl
    · split_ifs
      · exact completedPreserved_of_eq rfl
      · have h := assignUsers_completedPreserved today ‹List Nat› (activeUsers db) db 0 picks
        revert h
        cases assignUsers today ‹List Nat› (activeUsers db) db 0 picks with
        | mk db1 o =>
          intro h
          cases o with
          | none => exact h
          | some q => exact h

theorem assignProductToUser_user_products (db : Db) (today userId productId : Nat)
    (manualBonus : ℚ) (customPrice : Option ℚ) :
    (assignProductToUser db today userId productId manualBonus customPrice).1.user_products =
        db.user_products ∧
      (∀ nb p, (assignProductToUser db today userId productId manualBonus customPrice).2 ≠
        .success nb p) ∨
    (∃ nb p, (assignProductToUser db today userId productId manualBonus customPrice).2 =
        .success nb p) ∧
      ((∃ (e : UserProduct) (f : UserProduct → UserProduct), findExisting db today userId productId = some e ∧
          (∀ a, (f a).status = .in_progress ∧ (f a).id = a.id) ∧
          (assignProductToUser db today userId productId manualBonus customPrice).1.user_products
            = db.user_products.map (fun a => if a.id = e.id then f a else a)) ∨
        (findExisting db today userId productId = none ∧
          ∃ row, (assignProductToUser db today userId productId manualBonus
            customPrice).1.user_products = db.user_products ++ [row])) := by
  unfold assignProductToUser
  by_cases h0 : userId = 0 ∨ productId = 0
  · rw [if_pos h0]; exact Or.inl ⟨rfl, fun _ _ h => by cases h⟩
  rw [if_neg h0]
  simp only
  generalize (if manualBonus > 0 then toFixed2 manualBonus else (0 : Cents)) = bonus
  cases hu : findUser db userId with
  | none => exact Or.inl ⟨rfl, fun _ _ h => by cases h⟩
  | some userRow =>
    simp only
    cases hp : db.products.find? (fun p => p.id == productId) with
    | none => exact Or.inl ⟨rfl, fun _ _ h => by cases h⟩
    | some productRow =>
      simp only
      by_cases hs : productRow.status ≠ .active
      · rw [if_pos hs]; exact Or.inl ⟨rfl, fun _ _ h => by cases h⟩
      rw [if_neg hs]
      cases hm : manualPrice customPrice productRow (userLevelOf userRow) with
      | error r =>
        refine Or.inl ⟨rfl, fun nb p h => ?_⟩
        simp only at h
        subst h
        unfold manualPrice at hm
        cases customPrice with
        | none => simp only at hm; split_ifs at hm; cases hm
        | some cp => simp only at hm; split_ifs at hm; cases hm
      | ok q =>
        obtain ⟨price, priceToUse⟩ := q
        simp only
        right
        cases he : findExisting db today userId productId with
        | none =>
          simp only
          split_ifs <;>
            exact ⟨⟨_, _, rfl⟩, Or.inr ⟨by simp, _, rfl⟩⟩
        | some e =>
          simp only
          by_cases hc : e.status = .completed
          · simp only [hc, if_true]
            split_ifs <;>
              exact ⟨⟨_, _, rfl⟩, Or.inl ⟨e, manualResetRow bonus priceToUse userRow.wallet_balance,
                by simp, fun a => ⟨rfl, rfl⟩, rfl⟩⟩
          · simp only [hc, if_false]
            split_ifs <;>
              exact ⟨⟨_, _, rfl⟩, Or.inl ⟨e, manualUpdateRow bonus priceToUse userRow.wallet_balance today,
                by simp, fun a => ⟨rfl, rfl⟩, rfl⟩⟩

/-- C17, counterexample: the assignment of the scenario, completed on day 0 by Start and
Submit, is the existing assignment of user 1 and product 7 for day 0.  The admin manual
assignment of product 7 to user 1 on day 0 is accepted (new balance 905.00, price 100.00)
and resets the assignment: its status is `in_progress` again, its earnings are cleared and
the price is debited once more. -/
theorem completed_terminal_counterexample :
    completedDb.user_products = [completedAssignment] ∧
    completedAssignment.status = .completed ∧
    (assignProductToUser completedDb 0 1 7 0 none).2 = .success 90500 100 ∧
    (assignProductToUser completedDb 0 1 7 0 none).1.user_products =
      [{ completedAssignment with
          status := .in_progress, is_manual := true, amount_earned := 0,
          commission_earned := 0, submitted_at := none,
          balance_before_start := some 100500 }] ∧
    ((assignProductToUser completedDb 0 1 7 0 none).1.user_products.map
      (fun a => a.status)) = [.in_progress] := by
  decide!

/-- C17, amended: for every assignment `a` whose status is completed, at place `i` of
`user_products`: after Submit, after batch Submit and after the automatic assignment the
row at place `i` is still the assignment of id `a.id` and still completed; an accepted admin
manual assignment whose user and product find an existing assignment of today with the id
of `a` leaves the row at place `i` with status `in_progress`; every other admin manual
assignment leaves the row unchanged. -/
theorem completed_terminal (db : Db) (today i : Nat) (a : UserProduct)
    (hi : db.user_products[i]? = some a) (hc : a.status = .completed) :
    (∀ userId assignmentId, ∃ a1,
      (submitProduct db today userId assignmentId).1.user_products[i]? = some a1 ∧
        a1.id = a.id ∧ a1.status = .completed) ∧
    (∀ userId, ∃ a1,
      (submitToday db today userId).1.user_products[i]? = some a1 ∧
        a1.id = a.id ∧ a1.status = .completed) ∧
    (∀ productIds picks, ∃ a1,
      (assignProductsToAllUsers db today productIds picks).1.user_products[i]? = some a1 ∧
        a1.id = a.id ∧ a1.status = .completed) ∧
    (∀ userId productId manualBonus customPrice e nb p,
      findExisting db today userId productId = some e → e.id = a.id →
      (assignProductToUser db today userId productId manualBonus customPrice).2 =
        .success nb p →
      ∃ a1, (assignProductToUser db today userId productId manualBonus
          customPrice).1.user_products[i]? = some a1 ∧
        a1.id = a.id ∧ a1.status = .in_progress) ∧
    (∀ userId productId manualBonus customPrice,
      (∀ e, findExisting db today userId productId = some e → e.id ≠ a.id) →
      (assignProductToUser db today userId productId manualBonus
        customPrice).1.user_products[i]? = some a) := by
  refine ⟨fun userId assignmentId =>
      submitProduct_completedPreserved db today userId assignmentId i a hi hc,
    fun userId => submitToday_completedPreserved db today userId i a hi hc,
    fun productIds picks =>
      assignProductsToAllUsers_completedPreserved db today productIds picks i a hi hc,
    ?_, ?_⟩
  · intro userId productId manualBonus customPrice e nb p he hid hs
    rcases assignProductToUser_user_products db today userId productId manualBonus
      customPrice with ⟨-, hrej⟩ | ⟨-, ⟨e1, f, he1, hf, hup⟩ | ⟨hnone, -⟩⟩
    · exact absurd hs (hrej nb p)
    · rw [he] at he1
      cases he1
      rw [hup]
      simp only [List.getElem?_map, hi, Option.map_some', hid, if_true]
      exact ⟨_, rfl, (hf a).2, (hf a).1⟩
    · rw [he] at hnone; cases hnone
  · intro userId productId manualBonus customPrice hne
    have hlt : i < db.user_products.length := by
      rcases Nat.lt_or_ge i db.user_products.length with h | h
      · exact h
      · rw [List.getElem?_eq_none h] at hi; cases hi
    rcases assignProductToUser_user_products db today userId productId manualBonus
      customPrice with ⟨hsame, -⟩ | ⟨-, ⟨e1, f, he1, hf, hup⟩ | ⟨-, row, hup⟩⟩
    · rw [hsame]; exact hi
    · rw [hup]
      have hne1 : ¬ a.id = e1.id := fun h => hne e1 he1 h.symm
      simp only [List.getElem?_map, hi, Option.map_some', hne1, if_false]
    · rw [hup, List.getElem?_append_left hlt]; exact hi

/-- C17, witness: the completed assignment of the scenario, at place 0.  Submit, batch
Submit and the automatic assignment of day 0 leave it completed; the manual assignment of
its product to its user on day 0 makes it `in_progress`; the manual assignment of day 1
leaves it as it is. -/
theorem completed_terminal_witness :
    completedDb.user_products[0]? = some completedAssignment ∧
    completedAssignment.status = .completed ∧
    (∃ a1, (submitProduct completedDb 0 1 5).1.user_products[0]? = some a1 ∧
      a1.id = 5 ∧ a1.status = .completed) ∧
    (∃ a1, (assignProductToUser completedDb 0 1 7 0 none).1.user_products[0]? = some a1 ∧
      a1.id = 5 ∧ a1.status = .in_progress) ∧
    (assignProductToUser completedDb 1 1 7 0 none).1.user_products[0]? =
      some completedAssignment :=
  have h := completed_terminal completedDb 0 0 completedAssignment (by decide!) (by decide)
  have h1 := completed_terminal completedDb 1 0 completedAssignment (by decide!) (by decide)
  ⟨by decide!, by decide, h.1 1 5,
    h.2.2.2.1 1 7 0 none completedAssignment 90500 100 (by decide!) rfl (by decide!),
    h1.2.2.2.2 1 7 0 none (fun e he => by
      have hn : findExisting completedDb 1 1 7 = none := by decide!
      rw [hn] at he; cases he)⟩

/-- Start on the completed assignment of the scenario: the status guards of Start read the
product status, so the request is accepted and the assignment is `in_progress` again. -/
theorem start_reopens_completed :
    (startProduct completedDb 0 1 5).2.isSuccess = true ∧
    ((startProduct completedDb 0 1 5).1.user_products.map (fun a => a.status)) =
      [.in_progress] := by
  decide!

theorem findWithdrawal_id {db : Db} {id : Nat} {w : Withdrawal}
    (h : findWithdrawal db id = some w) : w.id = id := by
  unfold findWithdrawal at h
  have := List.find?_some h
  simpa using this

theorem findWithdrawal_setWithdrawalStatus (db : Db) (id : Nat) (s : WithdrawalStatus) :
    findWithdrawal (setWithdrawalStatus db id s) id =
      (findWithdrawal db id).map (fun w => { w with status := s }) := by
  unfold findWithdrawal setWithdrawalStatus
  simp only [List.find?_map]
  have hfun : ((fun w : Withdrawal => w.id == id) ∘
      fun w : Withdrawal => if w.id = id then { w with status := s } else w) =
      (fun w : Withdrawal => w.id == id) := by
    funext x
    by_cases hx : x.id = id <;> simp [Function.comp, hx]
  rw [hfun]
  cases hf : List.find? (fun w : Withdrawal => w.id == id) db.withdrawal_requests with
  | none => rfl
  | some w =>
    have hid : w.id = id := by simpa using List.find?_some hf
    simp [hid]

@[simp] theorem findUser_setWithdrawalStatus (db : Db) (id : Nat) (s : WithdrawalStatus)
    (j : Nat) : findUser (setWithdrawalStatus db id s) j = findUser db j := rfl

@[simp] theorem findWithdrawal_updateUser (db : Db) (i : Nat) (f : User → User) (id : Nat) :
    findWithdrawal (updateUser db i f) id = findWithdrawal db id := rfl

/-- C21: for a pending withdrawal of amount `a`: when the user's `commission_earned` is at
least `a` the approval succeeds, `wallet_balance` and `commission_earned` both decrease by
exactly `a` (nothing else of the user changes), `commission_earned` is not negative
afterwards and the request is approved; when `commission_earned < a` the approval is
rejected with the database unchanged; when the user does not exist it is rejected with the
database unchanged; so a successful approval implies `commission_earned ≥ a`. -/
theorem approve_pending_withdrawal (db : Db) (id : Nat) (w : Withdrawal)
    (hw : findWithdrawal db id = some w) (hp : w.status = .pending) :
    (∀ u, findUser db w.user_id = some u → w.amount ≤ u.commission_earned →
      (approveWithdrawal db id).2 = .success ∧
      findUser (approveWithdrawal db id).1 w.user_id =
        some { u with wallet_balance := u.wallet_balance - w.amount,
                      commission_earned := u.commission_earned - w.amount } ∧
      0 ≤ u.commission_earned - w.amount ∧
      findWithdrawal (approveWithdrawal db id).1 id = some { w with status := .approved } ∧
      (∀ j, j ≠ w.user_id → findUser (approveWithdrawal db id).1 j = findUser db j)) ∧
    (∀ u, findUser db w.user_id = some u → u.commission_earned < w.amount →
      approveWithdrawal db id = (db, .insufficientCommission)) ∧
    (findUser db w.user_id = none → approveWithdrawal db id = (db, .userNotFound)) ∧
    ((approveWithdrawal db id).2 = .success →
      ∃ u, findUser db w.user_id = some u ∧ w.amount ≤ u.commission_earned) := by
  have hok : ∀ u, findUser db w.user_id = some u → w.amount ≤ u.commission_earned →
      approveWithdrawal db id =
        (setWithdrawalStatus (updateUser db w.user_id (withdrawRow w.amount)) id .approved,
          .success) := by
    intro u hu hle
    unfold approveWithdrawal
    simp only [hw, hp, if_true, hu, not_lt.mpr hle, if_false]
  have hlow : ∀ u, findUser db w.user_id = some u → u.commission_earned < w.amount →
      approveWithdrawal db id = (db, .insufficientCommission) := by
    intro u hu hlt
    unfold approveWithdrawal
    simp only [hw, hp, if_true, hu, hlt]
  have hnone : findUser db w.user_id = none → approveWithdrawal db id = (db, .userNotFound) := by
    intro hu
    unfold approveWithdrawal
    simp only [hw, hp, if_true, hu]
  refine ⟨?_, hlow, hnone, ?_⟩
  · intro u hu hle
    rw [hok u hu hle]
    refine ⟨rfl, ?_, sub_nonneg.mpr hle, ?_, ?_⟩
    · simp only [findUser_setWithdrawalStatus]
      exact findUser_updateUser_self (withdrawRow w.amount) (fun _ => rfl) hu
    · rw [findWithdrawal_setWithdrawalStatus, findWithdrawal_updateUser, hw]
      rfl
    · intro j hj
      simp only [findUser_setWithdrawalStatus]
      exact findUser_updateUser_ne (withdrawRow w.amount) (fun _ => rfl) hj
  · intro hs
    cases hu : findUser db w.user_id with
    | none => rw [hnone hu] at hs; cases hs
    | some u =>
      refine ⟨u, rfl, ?_⟩
      by_contra hlt
      rw [hlow u hu (not_le.mp hlt)] at hs
      cases hs

/-- C21, witness: the request of 30.00 of the user with 50.00 earned is approved and both
pools fall by 30.00; the request of 80.00 is rejected. -/
theorem approve_pending_withdrawal_witness :
    findWithdrawal withdrawalDb 3 = some pendingRequest ∧
    (approveWithdrawal withdrawalDb 3).2 = .success ∧
    findUser (approveWithdrawal withdrawalDb 3).1 1 =
      some { earnerUser with wallet_balance := 97000, commission_earned := 2000 } ∧
    approveWithdrawal largeWithdrawalDb 4 = (largeWithdrawalDb, .insufficientCommission) :=
  have h := approve_pending_withdrawal withdrawalDb 3 pendingRequest (by decide) (by decide)
  have h1 := approve_pending_withdrawal largeWithdrawalDb 4 largeRequest (by decide) (by decide)
  ⟨by decide, (h.1 earnerUser (by decide) (by decide)).1,
    (h.1 earnerUser (by decide) (by decide)).2.1,
    h1.2.1 earnerUser (by decide) (by decide)⟩

theorem withdrawal_step_conserves (db : Db) (id : Nat) (w : Withdrawal) (u : User)
    (W C : Cents) (act : AdminAction)
    (hw : findWithdrawal db id = some w) (hu : findUser db w.user_id = some u)
    (hinv : (w.status = .approved →
        u.wallet_balance = W - w.amount ∧ u.commission_earned = C - w.amount) ∧
      (w.status ≠ .approved → u.wallet_balance = W ∧ u.commission_earned = C))
    (hact : ¬ (act = .approve ∧ w.status = .rejected)) :
    ∃ w1 u1, findWithdrawal (applyAction db id act) id = some w1 ∧
      w1.user_id = w.user_id ∧ w1.amount = w.amount ∧
      findUser (applyAction db id act) w.user_id = some u1 ∧
      (w1.status = .approved →
        u1.wallet_balance = W - w.amount ∧ u1.commission_earned = C - w.amount) ∧
      (w1.status ≠ .approved → u1.wallet_balance = W ∧ u1.commission_earned = C) := by
  have hset : ∀ (d : Db) (s : WithdrawalStatus), findWithdrawal d id = some w →
      findWithdrawal (setWithdrawalStatus d id s) id = some { w with status := s } := by
    intro d s hd
    rw [findWithdrawal_setWithdrawalStatus, hd]; rfl
  have hsub : findUser (updateUser db w.user_id (withdrawRow w.amount)) w.user_id =
      some (withdrawRow w.amount u) :=
    findUser_updateUser_self (withdrawRow w.amount) (fun _ => rfl) hu
  have hadd : findUser (updateUser db w.user_id (restoreWithdrawalRow w.amount)) w.user_id =
      some (restoreWithdrawalRow w.amount u) :=
    findUser_updateUser_self (restoreWithdrawalRow w.amount) (fun _ => rfl) hu
  cases act with
  | approve =>
    simp only [applyAction, approveWithdrawal, hw]
    by_cases hp : w.status = .pending
    · have hna : w.status ≠ .approved := by rw [hp]; decide
      have h0 := hinv.2 hna
      simp only [hp, if_true, hu]
      by_cases hlt : u.commission_earned < w.amount
      · simp only [hlt, if_true]
        exact ⟨w, u, hw, rfl, rfl, hu, (fun h => absurd h hna), (fun _ => h0)⟩
      · simp only [hlt, if_false]
        refine ⟨_, _, hset _ _ (by simpa using hw), rfl, rfl,
          by simpa using hsub, (fun _ => ?_), (fun h => absurd rfl h)⟩
        simp [withdrawRow, h0.1, h0.2]
    · have happ : w.status = .approved := by
        cases hs : w.status with
        | pending => exact absurd hs hp
        | approved => rfl
        | rejected => exact absurd ⟨rfl, hs⟩ hact
      have h1 := hinv.1 happ
      simp only [hp, if_false]
      exact ⟨_, u, hset _ _ hw, rfl, rfl, hu, (fun _ => h1), (fun h => absurd rfl h)⟩
  | reject =>
    simp only [applyAction, rejectWithdrawal, hw]
    by_cases hs : w.status = .approved
    · have h1 := hinv.1 hs
      simp only [hs, if_true]
      refine ⟨_, _, hset _ _ (by simpa using hw), rfl, rfl, by simpa using hadd,
        (fun h => by cases h), (fun _ => ?_)⟩
      simp [restoreWithdrawalRow, h1.1, h1.2]
    · have h0 := hinv.2 hs
      simp only [hs, if_false]
      exact ⟨_, u, hset _ _ hw, rfl, rfl, hu, (fun h => by cases h), (fun _ => h0)⟩
  | setPending =>
    simp only [applyAction, pendingWithdrawal, hw]
    by_cases hs : w.status = .approved
    · have h1 := hinv.1 hs
      simp only [hs, if_true]
      refine ⟨_, _, hset _ _ (by simpa using hw), rfl, rfl, by simpa using hadd,
        (fun h => by cases h), (fun _ => ?_)⟩
      simp [restoreWithdrawalRow, h1.1, h1.2]
    · have h0 := hinv.2 hs
      simp only [hs, if_false]
      exact ⟨_, u, hset _ _ hw, rfl, rfl, hu, (fun h => by cases h), (fun _ => h0)⟩

/-- Conservation along the sequences in which no approval is applied to a rejected request:
for a request created pending, after any such sequence of approve, reject and set-pending
actions both pools are the initial values minus the amount when the request ends approved
and the initial values when it ends pending or rejected. -/
theorem withdrawal_conserved_without_reapproval (actions : List AdminAction) (db : Db)
    (id : Nat) (w : Withdrawal) (u : User) (W C : Cents)
    (hw : findWithdrawal db id = some w) (hu : findUser db w.user_id = some u)
    (hinv : (w.status = .approved →
        u.wallet_balance = W - w.amount ∧ u.commission_earned = C - w.amount) ∧
      (w.status ≠ .approved → u.wallet_balance = W ∧ u.commission_earned = C))
    (hno : approvesRejected db id actions = false) :
    ∃ w1 u1, findWithdrawal (applyActions db id actions) id = some w1 ∧
      findUser (applyActions db id actions) w.user_id = some u1 ∧
      (w1.status = .approved →
        u1.wallet_balance = W - w.amount ∧ u1.commission_earned = C - w.amount) ∧
      (w1.status ≠ .approved → u1.wallet_balance = W ∧ u1.commission_earned = C) := by
  induction actions generalizing db w u with
  | nil => exact ⟨w, u, hw, hu, hinv.1, hinv.2⟩
  | cons act rest ih =>
    simp only [approvesRejected, Bool.or_eq_false_iff, Bool.and_eq_false_imp] at hno
    have hact : ¬ (act = .approve ∧ w.status = .rejected) := by
      rintro ⟨ha, hs⟩
      have := hno.1 (by simp [ha])
      simp [hw, hs] at this
    obtain ⟨w1, u1, hw1, hid, hamt, hu1, hA, hB⟩ :=
      withdrawal_step_conserves db id w u W C act hw hu hinv hact
    have := ih (applyAction db id act) w1 u1 hw1 (by rw [hid]; exact hu1)
      ⟨by rw [hamt]; exact hA, hB⟩ hno.2
    rw [hid, hamt] at this
    exact this

/-- C26, divergence: the request of 30.00 of a user with balance 1000.00 and 50.00 earned is
rejected and then approved: it ends approved with both pools untouched (not 970.00 and
20.00).  A further reject refunds the 30.00 that were never taken: the request ends
rejected with balance 1030.00 and 80.00 earned (not 1000.00 and 50.00). -/
theorem withdrawal_reapproval_not_conserved :
    findWithdrawal withdrawalDb 3 = some pendingRequest ∧
    findUser withdrawalDb 1 = some earnerUser ∧
    (findWithdrawal (applyActions withdrawalDb 3 [.reject, .approve]) 3).map
      (fun x => x.status) = some .approved ∧
    findUser (applyActions withdrawalDb 3 [.reject, .approve]) 1 = some earnerUser ∧
    (findWithdrawal (applyActions withdrawalDb 3 [.reject, .approve, .reject]) 3).map
      (fun x => x.status) = some .rejected ∧
    findUser (applyActions withdrawalDb 3 [.reject, .approve, .reject]) 1 =
      some { earnerUser with wallet_balance := 103000, commission_earned := 8000 } := by
  decide

/-- C22: a Start or Submit call that is neither successful nor answered
`NEGATIVE_BALANCE_TRIGGERED` (so it ends in one of the rejections: not found, wrong status,
`SET_N_COMPLETE`, `DAILY_LIMIT_REACHED`, `NEGATIVE_BALANCE`, `MINIMUM_BALANCE_REQUIRED`,
`INSUFFICIENT_BALANCE`, or a server error) leaves the whole database, and so the user
record, the assignment and the event log, exactly as before the call.  For Submit this
holds also when the daily rollover was written inside the transaction before the
rejection: the user row found afterwards is the one found before. -/
theorem rejections_atomic (db : Db) (today userId assignmentId : Nat) :
    ((startProduct db today userId assignmentId).2.isSuccess = false →
      (startProduct db today userId assignmentId).2.isTriggered = false →
      (startProduct db today userId assignmentId).1 = db) ∧
    ((submitProduct db today userId assignmentId).2.isSuccess = false →
      (submitProduct db today userId assignmentId).2.isTriggered = false →
      (submitProduct db today userId assignmentId).1 = db ∧
      ∀ u, findUser db userId = some u → needsDailyReset u today = true →
        findUser (submitProduct db today userId assignmentId).1 userId = some u) := by
  constructor
  · intro hs ht
    rcases startProduct_cases db today userId assignmentId with
      ⟨r, h, -⟩ | ⟨up, p, u, amt, -, -, -, h⟩ | ⟨up, p, u, -, -, -, h⟩
    · rw [h]
    · rw [h] at ht; simp [fireOnStart, StartResponse.isTriggered] at ht
    · rw [h] at hs; simp [debitOnStart, StartResponse.isSuccess] at hs
  · intro hs ht
    have hdb : (submitProduct db today userId assignmentId).1 = db := by
      rcases submitProduct_cases db today userId assignmentId with
        ⟨r, h, -⟩ | ⟨up, p, u, -, -, -, h⟩ | ⟨up, p, u, amt, -, -, -, -, h⟩ |
        ⟨up, p, u, -, hu, -, -, -, h⟩
      · rw [h]
      · rw [h] at hs; simp [restoration, SubmitResponse.isSuccess] at hs
      · rw [h] at ht; simp [fireOnSubmit, SubmitResponse.isTriggered] at ht
      · rw [h, (normalCompletion_fst up p today assignmentId hu).2] at hs; cases hs
    refine ⟨hdb, fun u hu _ => ?_⟩
    rw [hdb]; exact hu

/-- C22, witness: the user with balance -5.00 and 45 tasks stored, whose reset date is not
day 0.  Start is rejected with `SET_1_COMPLETE`; Submit applies the rollover inside its
transaction (which alone would change the user row), passes the gates and is rejected with
`NEGATIVE_BALANCE`; both leave the database as it was. -/
theorem rejections_atomic_witness :
    (startProduct allBlockedDb 0 1 5).2 = .setComplete 1 45 1 45 ∧
    (startProduct allBlockedDb 0 1 5).1 = allBlockedDb ∧
    needsDailyReset allBlockedUser 0 = true ∧
    findUser (applyDailyReset allBlockedDb allBlockedUser 0 1) 1 ≠ some allBlockedUser ∧
    (submitProduct allBlockedDb 0 1 5).2 = .negativeBalance 500 (-500) 250 ∧
    (submitProduct allBlockedDb 0 1 5).1 = allBlockedDb ∧
    findUser (submitProduct allBlockedDb 0 1 5).1 1 = some allBlockedUser :=
  have h := rejections_atomic allBlockedDb 0 1 5
  have hsub := h.2 (by decide!) (by decide!)
  ⟨by decide!, h.1 (by decide!) (by decide!), by decide, by decide, by decide!, hsub.1,
    hsub.2 allBlockedUser (by decide) (by decide)⟩

theorem mem_eraseDups_loop (as bs : List Nat) (x : Nat)
    (h : x ∈ List.eraseDups.loop as bs) : x ∈ as ∨ x ∈ bs := by
  induction as generalizing bs with
  | nil =>
    simp only [List.eraseDups.loop, List.mem_reverse] at h
    exact Or.inr h
  | cons a as ih =>
    unfold List.eraseDups.loop at h
    split at h
    · rcases ih bs h with h1 | h1
      · exact Or.inl (List.mem_cons_of_mem _ h1)
      · exact Or.inr h1
    · rcases ih (a :: bs) h with h1 | h1
      · exact Or.inl (List.mem_cons_of_mem _ h1)
      · rcases List.mem_cons.mp h1 with h2 | h2
        · exact Or.inl (h2 ▸ List.mem_cons_self _ _)
        · exact Or.inr h2

theorem mem_of_mem_eraseDups (l : List Nat) (x : Nat) (h : x ∈ l.eraseDups) : x ∈ l := by
  rcases mem_eraseDups_loop l [] x h with h1 | h1
  · exact h1
  · cases h1

/-- C23 as stated fails: with no active non-admin user (the only user is an admin) and no
active product, the call returns `usersAssigned = 0, assignments = 0` and no error. -/
theorem assign_no_eligible_products_counterexample :
    activeUsers adminOnlyDb = [] ∧
    eligibleProducts adminOnlyDb none = .ok [] ∧
    assignProductsToAllUsers adminOnlyDb 0 none [] = (adminOnlyDb, .done 0 0) ∧
    assignProductsToAllUsers adminOnlyDb 0 (some [7]) [] = (adminOnlyDb, .done 0 0) :=
  ⟨by decide, rfl, by decide, by decide⟩

/-- C23, amended: when zero eligible products exist (no product is active, or a non-empty
`productIds` is given and no active product has its id in it) and there is at least one
active non-admin user, `assignProductsToAllUsers` fails with an error and the database
is unchanged, so no assignment is created; when there is no active non-admin user it
returns `usersAssigned = 0, assignments = 0` without an error, the database unchanged,
whatever the products are. -/
theorem assign_no_eligible_products (db : Db) (today : Nat) (productIds : Option (List Nat))
    (picks : List Nat) :
    ((∀ p ∈ db.products, p.status = .active →
        match productIds with
        | some (i :: ids) => p.id ∉ i :: ids
        | _ => False) →
      activeUsers db ≠ [] →
      ∃ e, assignProductsToAllUsers db today productIds picks = (db, .error e)) ∧
    (activeUsers db = [] →
      assignProductsToAllUsers db today productIds picks = (db, .done 0 0)) := by
  constructor
  · intro hnone hus
    have hne : (activeUsers db).isEmpty = false := by
      cases h : activeUsers db with
      | nil => exact absurd h hus
      | cons a l => rfl
    unfold assignProductsToAllUsers
    simp only [hne, Bool.false_eq_true, if_false]
    have hall : ∀ l : List Nat, (∀ p ∈ db.products, p.status = .active → p.id ∉ l) →
        (List.filter (fun p : Product => l.contains p.id)
          (List.filter (fun p : Product => p.status == .active) db.products)) = [] := by
      intro l hl
      rw [List.filter_eq_nil_iff]
      intro p hp
      have hp2 := List.mem_filter.mp hp
      have hact : p.status = .active := by simpa using hp2.2
      simpa using hl p hp2.1 hact
    have hnoact : (∀ p ∈ db.products, p.status = .active → False) →
        List.filter (fun p : Product => p.status == .active) db.products = [] := by
      intro hl
      rw [List.filter_eq_nil_iff]
      intro p hp hact
      exact hl p hp (by simpa using hact)
    cases productIds with
    | none =>
      have := hnoact (fun p hp ha => hnone p hp ha)
      simp only [eligibleProducts, this, List.map_nil, List.isEmpty_nil, if_true]
      exact ⟨_, rfl⟩
    | some l =>
      cases l with
      | nil =>
        have := hnoact (fun p hp ha => hnone p hp ha)
        simp only [eligibleProducts, this, List.map_nil, List.isEmpty_nil, if_true]
        exact ⟨_, rfl⟩
      | cons i ids =>
        simp only [eligibleProducts]
        by_cases hc : (List.filter (fun i => decide (i > 0)) (i :: ids)).eraseDups.isEmpty = true
        · simp only [hc, if_true]
          exact ⟨_, rfl⟩
        · have hsub : ∀ p ∈ db.products, p.status = .active →
              p.id ∉ (List.filter (fun i => decide (i > 0)) (i :: ids)).eraseDups := by
            intro p hp ha hmem
            exact hnone p hp ha (List.mem_filter.mp (mem_of_mem_eraseDups _ _ hmem)).1
          simp only [hc, Bool.false_eq_true, if_false, hall _ hsub, List.map_nil,
            List.isEmpty_nil, if_true]
          exact ⟨_, rfl⟩
  · intro hus
    unfold assignProductsToAllUsers
    simp only [hus, List.isEmpty_nil, if_true]

/-- C23, witness: the scenario user with the only product inactive: the call throws
`No active products available for assignment` and nothing is assigned. -/
theorem assign_no_eligible_products_witness :
    activeUsers inactiveProductDb ≠ [] ∧
    assignProductsToAllUsers inactiveProductDb 0 none [0, 0] =
      (inactiveProductDb, .error .noActiveProducts) :=
  have h := assign_no_eligible_products inactiveProductDb 0 none [0, 0]
  ⟨by decide, by
    obtain ⟨e, he⟩ := h.1 (by decide) (by decide)
    rw [he]
    have : (assignProductsToAllUsers inactiveProductDb 0 none [0, 0]).2 =
        .error .noActiveProducts := by decide
    rw [he] at this
    simp only [AssignOutcome.error.injEq] at this
    rw [this]⟩

theorem getTaskLimitsForLevel_perSet_le_total (level : Option Nat) :
    (getTaskLimitsForLevel level).perSet ≤ (getTaskLimitsForLevel level).total := by
  cases level with
  | none => decide
  | some l =>
    match l with
    | 0 => decide
    | 1 => decide
    | 2 => decide
    | 3 => decide
    | 4 => decide
    | n + 5 => simp [getTaskLimitsForLevel, limits, List.lookup]

/-- C29: for a user whose set number after the daily rollover is 1, 2 or 3, Submit never
answers `DAILY_LIMIT_REACHED`: `perSet ≤ total` at every level, so whenever
`tasks_completed_today ≥ total` (after the rollover) and the assignment is found, the
answer is the `SET_N_COMPLETE` rejection of the current set, returned before the daily
limit is tested. -/
theorem daily_limit_unreachable (db : Db) (today userId assignmentId : Nat) (u : User)
    (hu : findUser db userId = some u)
    (hset : userCurrentSetOf u today = 1 ∨ userCurrentSetOf u today = 2 ∨
      userCurrentSetOf u today = 3) :
    (∀ a b, (submitProduct db today userId assignmentId).2 ≠ .dailyLimitReached a b) ∧
    (∀ up p, selectJoined db assignmentId userId = some (up, p) →
      (getTaskLimitsForLevel (some (userLevelOf u))).total ≤ currentTasksCompletedOf u today →
      submitProduct db today userId assignmentId =
        (db, .setComplete (userCurrentSetOf u today) (currentTasksCompletedOf u today)
          (userCurrentSetOf u today) (getTaskLimitsForLevel (some (userLevelOf u))).perSet)) := by
  have hle := getTaskLimitsForLevel_perSet_le_total (some (userLevelOf u))
  constructor
  · intro a b
    unfold submitProduct
    cases hrow : selectJoined db assignmentId userId with
    | none => simp
    | some r =>
      obtain ⟨up, p⟩ := r
      have h1 : rowStatus up p ≠ some "completed" := rowStatus_ne_assignment up p .completed
      have h2 : rowStatus up p ≠ some "pending" := rowStatus_ne_assignment up p .pending
      simp only [h1, h2, if_false, hu]
      cases hg : setGate (userCurrentSetOf u today) (currentTasksCompletedOf u today)
          (getTaskLimitsForLevel (some (userLevelOf u))).perSet with
      | some n => simp
      | none =>
        have hlt : currentTasksCompletedOf u today <
            (getTaskLimitsForLevel (some (userLevelOf u))).perSet := by
          by_contra hge
          rw [setGate_of_exhausted hset (not_lt.mp hge)] at hg
          cases hg
        have hnd : ¬ (currentTasksCompletedOf u today ≥
            (getTaskLimitsForLevel (some (userLevelOf u))).total) := by omega
        simp only [hnd, if_false]
        by_cases hp : u.pending_balance_restoration = true
        · simp [hp, restoration]
        · have hp2 : u.pending_balance_restoration = false := by simpa using hp
          simp only [hp2, Bool.false_eq_true, if_false]
          cases htm : triggerMatch u (userCurrentSetOf u today)
              (currentTasksCompletedOf u today + 1) with
          | some amt => simp [fireOnSubmit]
          | none =>
            by_cases hneg : u.wallet_balance < 0
            · simp [hneg]
            · simp only [hneg, if_false, normalCompletion]
              split <;> simp
  · intro up p hrow hge
    have h1 : rowStatus up p ≠ some "completed" := rowStatus_ne_assignment up p .completed
    have h2 : rowStatus up p ≠ some "pending" := rowStatus_ne_assignment up p .pending
    have hg := @setGate_of_exhausted (userCurrentSetOf u today)
      (currentTasksCompletedOf u today)
      (getTaskLimitsForLevel (some (userLevelOf u))).perSet hset (by omega)
    unfold submitProduct
    simp only [hrow, h1, h2, if_false, hu, hg]

/-- C29, witness: a level-1 user in set 3 with all 135 tasks of the day completed is answered
`SET_3_COMPLETE`, not `DAILY_LIMIT_REACHED`. -/
theorem daily_limit_unreachable_witness :
    findUser dayCompleteDb 1 = some dayCompleteUser ∧
    (getTaskLimitsForLevel (some 1)).total ≤ dayCompleteUser.tasks_completed_today ∧
    submitProduct dayCompleteDb 0 1 5 = (dayCompleteDb, .setComplete 3 135 3 45) :=
  have h := daily_limit_unreachable dayCompleteDb 0 1 5 dayCompleteUser (by decide)
    (by decide)
  ⟨by decide, by decide, h.2 scenarioAssignment scenarioProduct (by decide) (by decide)⟩

/-- C27 fails on the code: user 1 has balance 1000.00 and no assignment of product 7 on day
0.  The admin assigns product 7 at custom price 100.00 (balance 900.00,
`balance_before_start` 1000.00), then assigns it again at custom price 40.00: the edit
refunds 60.00 (balance 960.00) and overwrites `balance_before_start` with 900.00, the
balance after the first debit.  Submit takes the normal completion with commission 2.00 and
credit 900.00 + 2.00 - 960.00 = -58.00: the final balance is 902.00, not 1002.00.  Without
the edit the Submit ends at 1005.00 = 1000.00 + 5.00. -/
theorem manual_edit_loses_first_price :
    (findUser unassignedDb 1).map (fun x => x.wallet_balance) = some 100000 ∧
    findExisting unassignedDb 0 1 7 = none ∧
    (assignProductToUser unassignedDb 0 1 7 0 (some 100)).2 = .success 90000 100 ∧
    (findAssignment manualOnceDb 1).map (fun a => (a.status, a.custom_price,
      a.balance_before_start)) = some (.in_progress, some 10000, some 100000) ∧
    (assignProductToUser manualOnceDb 0 1 7 0 (some 40)).2 = .success 96000 40 ∧
    (findAssignment manualTwiceDb 1).map (fun a => (a.status, a.custom_price,
      a.balance_before_start)) = some (.in_progress, some 4000, some 90000) ∧
    (submitProduct manualTwiceDb 0 1 1).2 = .success 200 4000 (-5800) 90200 1 ∧
    (findUser (submitProduct manualTwiceDb 0 1 1).1 1).map (fun x => x.wallet_balance) =
      some 90200 ∧
    (100000 : Cents) + normalCommissionOf 4000 (1 / 20) = 100200 ∧
    (findUser (submitProduct manualOnceDb 0 1 1).1 1).map (fun x => x.wallet_balance) =
      some 100500 := by
  decide!

/-- C28 fails on the code: user 1 has balance 1000.00 and one assignment for day 0, assigned
automatically and never started (status `pending`, no `assignment_debit` event, nothing
debited); its cost is 100.00 and the rate 0.05.  Batch Submit credits
`totalProductCost + totalCommission` = 105.00: the balance ends at 1105.00, not at
1000.00 + 5.00 = 1005.00. -/
theorem batch_refunds_undebited :
    (findUser scenarioDb 1).map (fun x => x.wallet_balance) = some 100000 ∧
    (selectTodayRows scenarioDb 0 1).map (fun r => (r.1.status, r.1.is_manual,
      r.1.balance_before_start)) = [(.pending, false, none)] ∧
    scenarioDb.balance_events = [] ∧
    (submitToday scenarioDb 0 1).2 = .success 1 10000 500 10500 110500 ∧
    (findUser (submitToday scenarioDb 0 1).1 1).map
      (fun x => (x.wallet_balance, x.commission_earned)) = some (110500, 500) ∧
    (submitToday scenarioDb 0 1).1.balance_events = [⟨1, .submission_credit, 10500, 0⟩] := by
  decide!

/-- C30 fails on the code: the `status` the handlers read from the joined row is the
product's status, never the assignment's, whatever the two are; so Start never answers
`Product already started` or `Product already completed`.  The assignment of the scenario,
already `in_progress` after its Start, is started a second time: the call succeeds and the
cost is debited again (900.00 becomes 800.00, two `assignment_debit` events). -/
theorem joined_row_status_is_product_status :
    (∀ (up : UserProduct) (p : Product),
      rowStatus up p = some p.status.toStr ∧ rowStatus up p ≠ some up.status.toStr) ∧
    (∀ (db : Db) (today userId assignmentId : Nat),
      (startProduct db today userId assignmentId).2 ≠ .alreadyStarted ∧
      (startProduct db today userId assignmentId).2 ≠ .alreadyCompleted) ∧
    ((selectJoined startedDb 5 1).map (fun r => (r.1.status, r.2.status)) =
        some (.in_progress, .active) ∧
      (startProduct startedDb 0 1 5).2 = .success 10000 90000 80000 ∧
      (findUser (startProduct startedDb 0 1 5).1 1).map (fun x => x.wallet_balance) =
        some 80000 ∧
      (startProduct startedDb 0 1 5).1.balance_events =
        [⟨1, .assignment_debit, 10000, 0⟩, ⟨1, .assignment_debit, 10000, 0⟩]) := by
  refine ⟨fun up p => ⟨rowStatus_eq up p, rowStatus_ne_assignment up p up.status⟩, ?_,
    by decide!⟩
  intro db today userId assignmentId
  rcases startProduct_cases db today userId assignmentId with
    ⟨r, hr, -, -, hs⟩ | ⟨up, p, u, amt, -, -, -, hr⟩ | ⟨up, p, u, -, -, -, hr⟩
  · rw [hr]
    constructor <;> intro h <;> simp only at h <;> rw [h] at hs <;> cases hs
  · rw [hr]; constructor <;> intro h <;> cases h
  · rw [hr]; constructor <;> intro h <;> cases h

theorem insertIgnoreAssignment_spec (db : Db) (userId productId today : Nat) :
    ((insertIgnoreAssignment db userId productId today).2 = false ∧
      (insertIgnoreAssignment db userId productId today).1 = db) ∨
    ((insertIgnoreAssignment db userId productId today).2 = true ∧
      ∃ row : UserProduct,
        (insertIgnoreAssignment db userId productId today).1 =
          { db with user_products := db.user_products ++ [row] } ∧
        row.user_id = userId ∧ row.product_id = productId ∧ row.assigned_date = today ∧
        row.status = .pending ∧ row.is_manual = false ∧
        ∀ a ∈ db.user_products, ¬ sameKey a row) := by
  unfold insertIgnoreAssignment
  split_ifs with h
  · exact Or.inl ⟨rfl, rfl⟩
  · refine Or.inr ⟨rfl, _, rfl, rfl, rfl, rfl, rfl, rfl, ?_⟩
    intro a ha hk
    apply h
    rw [List.any_eq_true]
    refine ⟨a, ha, ?_⟩
    simp only [sameKey] at hk
    simp [hk.1, hk.2.1, hk.2.2]

theorem assignLoop_spec (userId today : Nat) (productRows : List Nat) (tasksPerDay : Nat)
    (picks : List Nat) (db : Db) (assigned : List Nat) (n : Nat) :
    ∃ block : List UserProduct,
      (assignLoop userId today productRows tasksPerDay picks db assigned n).1 =
        { db with user_products := db.user_products ++ block } ∧
      (∀ r ∈ block, r.user_id = userId ∧ r.assigned_date = today ∧ r.status = .pending ∧
        r.is_manual = false ∧ r.product_id ∈ productRows ∧ r.product_id ∉ assigned) ∧
      (block.map (fun r => r.product_id)).Nodup ∧
      (∀ r ∈ block, ∀ a ∈ db.user_products, ¬ sameKey a r) ∧
      n + block.length ≤ max n tasksPerDay ∧
      assigned.length + block.length ≤ max assigned.length productRows.length ∧
      (∀ m rest, (assignLoop userId today productRows tasksPerDay picks db assigned n).2 =
        some (m, rest) → m = n + block.length) := by
  induction picks generalizing db assigned n with
  | nil =>
    refine ⟨[], ?_, by simp, by simp, by simp, by simp, by simp, ?_⟩
    · unfold assignLoop
      split_ifs <;> simp
    · intro m rest h
      unfold assignLoop at h
      split_ifs at h
      simp only [Option.some.injEq, Prod.mk.injEq] at h
      rw [← h.1]; rfl
  | cons i picks ih =>
    by_cases hcond : n < tasksPerDay ∧ assigned.length < productRows.length
    · have hlen : 0 < productRows.length := by omega
      have hmem : productRows.getD (i % productRows.length) 0 ∈ productRows := by
        have hi : i % productRows.length < productRows.length := Nat.mod_lt _ hlen
        rw [List.getD_eq_getElem _ _ hi]
        exact List.getElem_mem _
      by_cases hc : assigned.contains (productRows.getD (i % productRows.length) 0) = true
      · have heq : assignLoop userId today productRows tasksPerDay (i :: picks) db assigned n =
            assignLoop userId today productRows tasksPerDay picks db assigned n := by
          rw [assignLoop]
          simp only [hcond, and_self, if_true, hc]
        rw [heq]
        exact ih db assigned n
      · have heq : assignLoop userId today productRows tasksPerDay (i :: picks) db assigned n =
            assignLoop userId today productRows tasksPerDay picks
              (insertIgnoreAssignment db userId
                (productRows.getD (i % productRows.length) 0) today).1
              (productRows.getD (i % productRows.length) 0 :: assigned)
              (if (insertIgnoreAssignment db userId
                (productRows.getD (i % productRows.length) 0) today).2 then n + 1 else n) := by
          rw [assignLoop]
          simp only [hcond, and_self, if_true, hc, Bool.false_eq_true, if_false]
        rw [heq]
        have hnot : productRows.getD (i % productRows.length) 0 ∉ assigned := by
          intro hin
          apply hc
          simpa using hin
        rcases insertIgnoreAssignment_spec db userId
            (productRows.getD (i % productRows.length) 0) today with
          ⟨h2, h1⟩ | ⟨h2, row, h1, hu, hp, hd, hs, hm, hk⟩
        · rw [h1, h2]
          simp only [Bool.false_eq_true, if_false]
          obtain ⟨block, hdb, hrows, hnd, hkey, hn, ha, hres⟩ :=
            ih db (productRows.getD (i % productRows.length) 0 :: assigned) n
          refine ⟨block, hdb, ?_, hnd, hkey, hn, ?_, hres⟩
          · intro r hr
            obtain ⟨a1, a2, a3, a4, a5, a6⟩ := hrows r hr
            exact ⟨a1, a2, a3, a4, a5, fun h => a6 (List.mem_cons_of_mem _ h)⟩
          · simp only [List.length_cons] at ha
            omega
        · rw [h1, h2]
          simp only [if_true]
          obtain ⟨block, hdb, hrows, hnd, hkey, hn, ha, hres⟩ :=
            ih { db with user_products := db.user_products ++ [row] }
              (productRows.getD (i % productRows.length) 0 :: assigned) (n + 1)
          refine ⟨row :: block, ?_, ?_, ?_, ?_, ?_, ?_, ?_⟩
          · rw [hdb]
            simp
          · intro r hr
            rcases List.mem_cons.mp hr with rfl | hr
            · exact ⟨hu, hd, hs, hm, hp ▸ hmem, hp ▸ hnot⟩
            · obtain ⟨a1, a2, a3, a4, a5, a6⟩ := hrows r hr
              exact ⟨a1, a2, a3, a4, a5, fun h => a6 (List.mem_cons_of_mem _ h)⟩
          · simp only [List.map_cons, List.nodup_cons]
            refine ⟨?_, hnd⟩
            intro hin
            obtain ⟨r, hr, hrp⟩ := List.mem_map.mp hin
            exact (hrows r hr).2.2.2.2.2 (by rw [hrp, hp]; exact List.mem_cons_self _ _)
          · intro r hr a ha2
            rcases List.mem_cons.mp hr with rfl | hr
            · exact hk a ha2
            · exact hkey r hr a (by simp [ha2])
          · simp only [List.length_cons]
            omega
          · simp only [List.length_cons] at ha ⊢
            omega
          · intro m rest h
            have := hres m rest h
            simp only [List.length_cons]
            omega
    · have heq : assignLoop userId today productRows tasksPerDay (i :: picks) db assigned n =
          (db, some (n, i :: picks)) := by
        rw [assignLoop]
        simp only [hcond, if_false]
      rw [heq]
      refine ⟨[], by simp, by simp, by simp, by simp, by simp, by simp, ?_⟩
      intro m rest h
      simp only [Option.some.injEq, Prod.mk.injEq] at h
      rw [← h.1]; rfl

theorem userBlock_nil (today : Nat) (productRows : List Nat) (user : User) :
    UserBlock today productRows user [] := by
  simp [UserBlock]

theorem forall₂_userBlock_nil (today : Nat) (productRows : List Nat) (users : List User) :
    List.Forall₂ (UserBlock today productRows) users (users.map (fun _ => [])) := by
  induction users with
  | nil => exact List.Forall₂.nil
  | cons u us ih => exact List.Forall₂.cons (userBlock_nil today productRows u) ih

theorem flatten_map_nil (users : List User) :
    (users.map (fun _ => ([] : List UserProduct))).flatten = [] := by
  induction users with
  | nil => rfl
  | cons u us ih => simp [ih]

theorem assignUsers_spec (today : Nat) (productRows : List Nat) (users : List User)
    (db : Db) (total : Nat) (picks : List Nat) :
    ∃ news : List (List UserProduct),
      (assignUsers today productRows users db total picks).1 =
        { db with user_products := db.user_products ++ news.flatten } ∧
      List.Forall₂ (UserBlock today productRows) users news ∧
      (∀ r ∈ news.flatten, ∀ a ∈ db.user_products, ¬ sameKey a r) ∧
      (∀ m rest, (assignUsers today productRows users db total picks).2 = some (m, rest) →
        m = total + news.flatten.length) := by
  induction users generalizing db total picks with
  | nil =>
    refine ⟨[], by simp [assignUsers], List.Forall₂.nil, by simp, ?_⟩
    intro m rest h
    simp only [assignUsers, Option.some.injEq, Prod.mk.injEq] at h
    rw [← h.1]; rfl
  | cons user users ih =>
    obtain ⟨block, hdb, hrows, hnd, hkey, hn, ha, hres⟩ :=
      assignLoop_spec user.id today productRows
        (getTaskLimitsForLevel (some (userLevelOf user))).total picks db [] 0
    have hblock : UserBlock today productRows user block := by
      refine ⟨fun r hr => ?_, hnd, ?_, ?_⟩
      · obtain ⟨a1, a2, a3, a4, a5, -⟩ := hrows r hr
        exact ⟨a1, a2, a3, a4, a5⟩
      · simpa using hn
      · simpa using ha
    rw [assignUsers]
    generalize hL : assignLoop user.id today productRows
      (getTaskLimitsForLevel (some (userLevelOf user))).total picks db [] 0 = L at hdb hres
    obtain ⟨db1, o⟩ := L
    simp only at hdb hres
    cases o with
    | none =>
      refine ⟨block :: users.map (fun _ => []), ?_,
        List.Forall₂.cons hblock (forall₂_userBlock_nil today productRows users), ?_, ?_⟩
      · simp [hdb, flatten_map_nil]
      · intro r hr
        simp only [List.flatten_cons, flatten_map_nil, List.append_nil] at hr
        exact hkey r hr
      · intro m rest h
        cases h
    | some q =>
      obtain ⟨ua, picks1⟩ := q
      have hua : ua = block.length := by
        have := hres ua picks1 rfl
        simpa using this
      obtain ⟨news, hdb2, hF, hkey2, hres2⟩ := ih db1 (total + ua) picks1
      refine ⟨block :: news, ?_, List.Forall₂.cons hblock hF, ?_, ?_⟩
      · simp only
        rw [hdb2, hdb]
        simp
      · intro r hr a ha2
        simp only [List.flatten_cons, List.mem_append] at hr
        rcases hr with hr | hr
        · exact hkey r hr a ha2
        · exact hkey2 r hr a (by rw [hdb]; simp [ha2])
      · intro m rest h
        have := hres2 m rest h
        simp only [List.flatten_cons, List.length_append]
        omega

theorem mem_join_user (today : Nat) (productRows : List Nat) (users : List User)
    (news : List (List UserProduct))
    (hF : List.Forall₂ (UserBlock today productRows) users news) :
    ∀ r ∈ news.flatten, ∃ v ∈ users, r.user_id = v.id := by
  induction hF with
  | nil => intro r hr; simp at hr
  | cons hb _ ih =>
    intro r hr
    simp only [List.flatten_cons, List.mem_append] at hr
    rcases hr with hr | hr
    · exact ⟨_, List.mem_cons_self _ _, (hb.1 r hr).1⟩
    · obtain ⟨v, hv, hid⟩ := ih r hr
      exact ⟨v, List.mem_cons_of_mem _ hv, hid⟩

theorem filter_join_user (today : Nat) (productRows : List Nat) (users : List User)
    (news : List (List UserProduct))
    (hF : List.Forall₂ (UserBlock today productRows) users news)
    (hids : (users.map (fun v => v.id)).Nodup) (u : User) (hu : u ∈ users) :
    UserBlock today productRows u (news.flatten.filter (fun r => r.user_id == u.id)) := by
  induction hF with
  | nil => cases hu
  | @cons user block users news hb hrest ih =>
    simp only [List.map_cons, List.nodup_cons, List.mem_map, not_exists, not_and] at hids
    simp only [List.flatten_cons, List.filter_append]
    rcases List.mem_cons.mp hu with rfl | hmem
    · have h1 : block.filter (fun r => r.user_id == u.id) = block := by
        rw [List.filter_eq_self]
        intro r hr
        simpa using (hb.1 r hr).1
      have h2 : news.flatten.filter (fun r => r.user_id == u.id) = [] := by
        rw [List.filter_eq_nil_iff]
        intro r hr
        obtain ⟨v, hv, hid⟩ := mem_join_user today productRows users news hrest r hr
        have := hids.1 v hv
        simp only [beq_iff_eq]
        intro hh
        exact this (by rw [← hid, hh])
      rw [h1, h2, List.append_nil]
      exact hb
    · have h1 : block.filter (fun r => r.user_id == u.id) = [] := by
        rw [List.filter_eq_nil_iff]
        intro r hr
        simp only [beq_iff_eq]
        intro hh
        exact hids.1 u hmem (by rw [← hh, (hb.1 r hr).1])
      rw [h1, List.nil_append]
      exact ih hids.2 hmem

theorem exists_unassigned (productRows assigned : List Nat) (hnd : productRows.Nodup)
    (hlt : assigned.length < productRows.length) :
    ∃ i, i < productRows.length ∧ productRows.getD i 0 ∉ assigned := by
  by_contra hcon
  have hsub : productRows ⊆ assigned := by
    intro x hx
    by_contra hx2
    obtain ⟨i, hi, hget⟩ := List.getElem_of_mem hx
    exact hcon ⟨i, hi, by rw [List.getD_eq_getElem _ _ hi, hget]; exact hx2⟩
  have := (hnd.subperm hsub).length_le
  omega

theorem assignLoop_finishes (userId today : Nat) (productRows : List Nat) (tasksPerDay : Nat)
    (hnd : productRows.Nodup) (k : Nat) :
    ∀ (db : Db) (assigned : List Nat) (n : Nat),
      productRows.length - assigned.length ≤ k →
      ∃ picks db1 m,
        assignLoop userId today productRows tasksPerDay picks db assigned n =
          (db1, some (m, [])) := by
  induction k with
  | zero =>
    intro db assigned n hk
    refine ⟨[], db, n, ?_⟩
    rw [assignLoop]
    have : ¬ (n < tasksPerDay ∧ assigned.length < productRows.length) := by omega
    rw [if_neg this]
  | succ k ih =>
    intro db assigned n hk
    by_cases hcond : n < tasksPerDay ∧ assigned.length < productRows.length
    · obtain ⟨i, hi, hnot⟩ := exists_unassigned productRows assigned hnd hcond.2
      have hc : assigned.contains (productRows.getD i 0) = false := by
        simpa using hnot
      obtain ⟨picks, db1, m, h⟩ :=
        ih (insertIgnoreAssignment db userId (productRows.getD i 0) today).1
          (productRows.getD i 0 :: assigned)
          (if (insertIgnoreAssignment db userId (productRows.getD i 0) today).2
            then n + 1 else n)
          (by simp only [List.length_cons]; omega)
      refine ⟨i :: picks, db1, m, ?_⟩
      rw [assignLoop]
      simp only [hcond, and_self, if_true, Nat.mod_eq_of_lt hi, hc, Bool.false_eq_true,
        if_false]
      exact h
    · refine ⟨[], db, n, ?_⟩
      rw [assignLoop]
      rw [if_neg hcond]

theorem assignLoop_append (userId today : Nat) (productRows : List Nat) (tasksPerDay : Nat)
    (extra : List Nat) (picks : List Nat) :
    ∀ (db : Db) (assigned : List Nat) (n : Nat) (db1 : Db) (m : Nat),
      assignLoop userId today productRows tasksPerDay picks db assigned n =
        (db1, some (m, [])) →
      assignLoop userId today productRows tasksPerDay (picks ++ extra) db assigned n =
        (db1, some (m, extra)) := by
  induction picks with
  | nil =>
    intro db assigned n db1 m h
    rw [assignLoop] at h
    by_cases hcond : n < tasksPerDay ∧ assigned.length < productRows.length
    · rw [if_pos hcond] at h; cases h
    · rw [if_neg hcond] at h
      simp only [Prod.mk.injEq, Option.some.injEq, and_true] at h
      obtain ⟨rfl, rfl⟩ := h
      cases extra with
      | nil => rw [List.append_nil, assignLoop, if_neg hcond]
      | cons j e => rw [List.nil_append, assignLoop, if_neg hcond]
  | cons i picks ih =>
    intro db assigned n db1 m h
    rw [assignLoop] at h
    rw [List.cons_append, assignLoop]
    by_cases hcond : n < tasksPerDay ∧ assigned.length < productRows.length
    · rw [if_pos hcond] at h ⊢
      simp only at h ⊢
      by_cases hc : assigned.contains (productRows.getD (i % productRows.length) 0) = true
      · rw [if_pos hc] at h ⊢
        exact ih _ _ _ _ _ h
      · rw [if_neg hc] at h ⊢
        exact ih _ _ _ _ _ h
    · rw [if_neg hcond] at h
      simp at h

theorem assignUsers_finishes (today : Nat) (productRows : List Nat)
    (hnd : productRows.Nodup) (users : List User) :
    ∀ (db : Db) (total : Nat),
      ∃ picks db1 m,
        assignUsers today productRows users db total picks = (db1, some (m, [])) := by
  induction users with
  | nil => intro db total; exact ⟨[], db, total, rfl⟩
  | cons user users ih =>
    intro db total
    obtain ⟨picks1, db1, m1, h1⟩ :=
      assignLoop_finishes user.id today productRows
        (getTaskLimitsForLevel (some (userLevelOf user))).total hnd _ db [] 0 (le_refl _)
    obtain ⟨picks2, db2, m2, h2⟩ := ih db1 (total + m1)
    refine ⟨picks1 ++ picks2, db2, m2, ?_⟩
    rw [assignUsers]
    rw [assignLoop_append user.id today productRows _ picks2 picks1 db [] 0 db1 m1 h1]
    exact h2

/-- The run ends: when product ids are a key of `products`, there are random picks with
which `assignProductsToAllUsers` returns its counts or throws, whatever the database. -/
theorem assignProductsToAllUsers_finishes (db : Db) (today : Nat)
    (productIds : Option (List Nat)) (hids : (db.products.map (fun p => p.id)).Nodup) :
    ∃ picks, (assignProductsToAllUsers db today productIds picks).2 ≠ .outOfPicks := by
  have hrows : ∀ rows, eligibleProducts db productIds = .ok rows → rows.Nodup := by
    intro rows h
    unfold eligibleProducts at h
    have h1 : ((db.products.filter (fun p => p.status == .active)).map
        (fun p => p.id)).Nodup := hids.sublist ((List.filter_sublist _).map _)
    have h2 : ∀ q : Product → Bool, (((db.products.filter
        (fun p => p.status == .active)).filter q).map (fun p => p.id)).Nodup :=
      fun q => h1.sublist ((List.filter_sublist _).map _)
    cases productIds with
    | none =>
      simp only [Except.ok.injEq] at h
      rw [← h]; exact h1
    | some l =>
      cases l with
      | nil =>
        simp only [Except.ok.injEq] at h
        rw [← h]; exact h1
      | cons i ids =>
        simp only at h
        split_ifs at h
        simp only [Except.ok.injEq] at h
        rw [← h]; exact h2 _
  unfold assignProductsToAllUsers
  simp only
  by_cases hus : (activeUsers db).isEmpty = true
  · exact ⟨[], by rw [if_pos hus]; simp⟩
  · cases hel : eligibleProducts db productIds with
    | error e => exact ⟨[], by rw [if_neg hus]; simp⟩
    | ok productRows =>
      by_cases hpe : productRows.isEmpty = true
      · exact ⟨[], by rw [if_neg hus]; simp [hpe]⟩
      · obtain ⟨picks, db1, m, h⟩ :=
          assignUsers_finishes today productRows (hrows _ hel) (activeUsers db) db 0
        refine ⟨picks, ?_⟩
        rw [if_neg hus]
        simp only [hpe, Bool.false_eq_true, if_false, h]
        simp

/-- C24: for every run of `assignProductsToAllUsers`, whatever the random picks are and
wherever the run stands when they end, the rows of `user_products` after the run are those
before it followed by the new rows, and nothing else of the database changes (so no
`wallet_balance` changes).  User ids being a key of `users`, for every active non-admin
user the new rows of that user are pending, automatic assignments of today of pairwise
distinct eligible products, and their number is at most
`min(taskLimits(level).total, number of eligible products)`.  Every new row belongs to an
active non-admin user, no new row has the user, product and day of a row that existed
before the run (such an insert is a no-op), and the counts returned are the number of
active non-admin users and the number of rows inserted.  Product ids being a key of
`products`, there are picks with which the run returns. -/
theorem auto_assignment_run (db : Db) (today : Nat) (productIds : Option (List Nat))
    (picks : List Nat) (hids : (db.users.map (fun v => v.id)).Nodup) :
    (∃ new : List UserProduct,
      (assignProductsToAllUsers db today productIds picks).1 =
        { db with user_products := db.user_products ++ new } ∧
      (assignProductsToAllUsers db today productIds picks).1.users = db.users ∧
      (∀ u ∈ activeUsers db,
        ((new.filter (fun r => r.user_id == u.id)).map (fun r => r.product_id)).Nodup ∧
        (∀ r ∈ new.filter (fun r => r.user_id == u.id),
          r.product_id ∈ eligibleIds db productIds ∧ r.status = .pending ∧
          r.assigned_date = today ∧ r.is_manual = false) ∧
        (new.filter (fun r => r.user_id == u.id)).length ≤
          min (getTaskLimitsForLevel (some (userLevelOf u))).total
            (eligibleIds db productIds).length) ∧
      (∀ r ∈ new, ∃ u ∈ activeUsers db, r.user_id = u.id) ∧
      (∀ r ∈ new, ∀ a ∈ db.user_products, ¬ sameKey a r) ∧
      (∀ ua n, (assignProductsToAllUsers db today productIds picks).2 = .done ua n →
        ua = (activeUsers db).length ∧ n = new.length)) ∧
    ((db.products.map (fun p => p.id)).Nodup →
      ∃ picks1, (assignProductsToAllUsers db today productIds picks1).2 ≠ .outOfPicks) := by
  refine ⟨?_, assignProductsToAllUsers_finishes db today productIds⟩
  have hempty : ∀ (o : AssignOutcome), (∀ ua n, o = .done ua n →
      ua = (activeUsers db).length ∧ n = 0) →
      ∃ new : List UserProduct,
        (db, o).1 = { db with user_products := db.user_products ++ new } ∧
        (db, o).1.users = db.users ∧
        (∀ u ∈ activeUsers db,
          ((new.filter (fun r => r.user_id == u.id)).map (fun r => r.product_id)).Nodup ∧
          (∀ r ∈ new.filter (fun r => r.user_id == u.id),
            r.product_id ∈ eligibleIds db productIds ∧ r.status = .pending ∧
            r.assigned_date = today ∧ r.is_manual = false) ∧
          (new.filter (fun r => r.user_id == u.id)).length ≤
            min (getTaskLimitsForLevel (some (userLevelOf u))).total
              (eligibleIds db productIds).length) ∧
        (∀ r ∈ new, ∃ u ∈ activeUsers db, r.user_id = u.id) ∧
        (∀ r ∈ new, ∀ a ∈ db.user_products, ¬ sameKey a r) ∧
        (∀ ua n, (db, o).2 = .done ua n → ua = (activeUsers db).length ∧ n = new.length) := by
    intro o ho
    refine ⟨[], by simp, rfl, fun u _ => by simp, by simp, by simp, ?_⟩
    intro ua n h
    exact ho ua n h
  unfold assignProductsToAllUsers
  simp only
  by_cases hus : (activeUsers db).isEmpty = true
  · rw [if_pos hus]
    refine hempty _ (fun ua n h => ?_)
    simp only [AssignOutcome.done.injEq] at h
    have : activeUsers db = [] := by simpa using hus
    simp [this, ← h.1, ← h.2]
  · rw [if_neg hus]
    cases hel : eligibleProducts db productIds with
    | error e => exact hempty _ (fun ua n h => by cases h)
    | ok productRows =>
      simp only
      by_cases hpe : productRows.isEmpty = true
      · rw [if_pos hpe]
        exact hempty _ (fun ua n h => by cases h)
      · rw [if_neg hpe]
        have helig : eligibleIds db productIds = productRows := by
          simp [eligibleIds, hel]
        have hact : ((activeUsers db).map (fun v => v.id)).Nodup :=
          hids.sublist ((List.filter_sublist _).map _)
        obtain ⟨news, hdb, hF, hkey, hres⟩ :=
          assignUsers_spec today productRows (activeUsers db) db 0 picks
        generalize hA : assignUsers today productRows (activeUsers db) db 0 picks = A
          at hdb hres
        obtain ⟨db1, o⟩ := A
        simp only at hdb hres
        have hblocks : ∀ u ∈ activeUsers db,
            UserBlock today productRows u (news.flatten.filter (fun r => r.user_id == u.id)) :=
          fun u hu => filter_join_user today productRows (activeUsers db) news hF hact u hu
        have hmain : ∀ (out : AssignOutcome),
            (∀ ua n, out = .done ua n →
              ua = (activeUsers db).length ∧ n = news.flatten.length) →
            ∃ new : List UserProduct,
              (db1, out).1 = { db with user_products := db.user_products ++ new } ∧
              (db1, out).1.users = db.users ∧
              (∀ u ∈ activeUsers db,
                ((new.filter (fun r => r.user_id == u.id)).map
                  (fun r => r.product_id)).Nodup ∧
                (∀ r ∈ new.filter (fun r => r.user_id == u.id),
                  r.product_id ∈ eligibleIds db productIds ∧ r.status = .pending ∧
                  r.assigned_date = today ∧ r.is_manual = false) ∧
                (new.filter (fun r => r.user_id == u.id)).length ≤
                  min (getTaskLimitsForLevel (some (userLevelOf u))).total
                    (eligibleIds db productIds).length) ∧
              (∀ r ∈ new, ∃ u ∈ activeUsers db, r.user_id = u.id) ∧
              (∀ r ∈ new, ∀ a ∈ db.user_products, ¬ sameKey a r) ∧
              (∀ ua n, (db1, out).2 = .done ua n →
                ua = (activeUsers db).length ∧ n = new.length) := by
          intro out hout
          refine ⟨news.flatten, hdb, by rw [hdb], ?_,
            mem_join_user today productRows (activeUsers db) news hF, hkey,
            fun ua n h => hout ua n h⟩
          intro u hu
          obtain ⟨b1, b2, b3, b4⟩ := hblocks u hu
          rw [helig]
          refine ⟨b2, fun r hr => ?_, Nat.le_min.mpr ⟨b3, b4⟩⟩
          obtain ⟨-, c2, c3, c4, c5⟩ := b1 r hr
          exact ⟨c5, c3, c2, c4⟩
        cases o with
        | none => exact hmain _ (fun ua n h => by cases h)
        | some q =>
          obtain ⟨total, rest⟩ := q
          refine hmain _ (fun ua n h => ?_)
          simp only [AssignOutcome.done.injEq] at h
          have := hres total rest rfl
          exact ⟨h.1.symm, by omega⟩

/-- C24, witness: two active users (and an admin), three active products and an inactive
one; user 1 already has product 7 for day 0.  With the picks 0, 0, 1, 2, 2, 1, 0 the run
returns `usersAssigned = 2, assignments = 5`: products 8 and 9 for user 1 (the insert of
product 7 is a no-op), products 9, 8 and 7 for user 2. -/
theorem auto_assignment_run_witness :
    (assignProductsToAllUsers assignDb 0 none [0, 0, 1, 2, 2, 1, 0]).2 = .done 2 5 ∧
    ((assignProductsToAllUsers assignDb 0 none [0, 0, 1, 2, 2, 1, 0]).1.user_products.map
      (fun a => (a.user_id, a.product_id))) =
      [(1, 7), (1, 8), (1, 9), (2, 9), (2, 8), (2, 7)] ∧
    ∃ new : List UserProduct,
      (assignProductsToAllUsers assignDb 0 none [0, 0, 1, 2, 2, 1, 0]).1 =
        { assignDb with user_products := assignDb.user_products ++ new } ∧
      (∀ ua n, (assignProductsToAllUsers assignDb 0 none [0, 0, 1, 2, 2, 1, 0]).2 =
        .done ua n → ua = (activeUsers assignDb).length ∧ n = new.length) :=
  ⟨by decide, by decide,
    (auto_assignment_run assignDb 0 none [0, 0, 1, 2, 2, 1, 0] (by decide)).1.elim
      (fun new h => ⟨new, h.1, h.2.2.2.2.2⟩)⟩

end Orion
